import Mathlib

/-!
# OAAR branch-and-price core: shallow embedding

The development embeds the pricing oracle (`pricer_OAAR.c`), the zero/one branching
constraint handler (`cons_zeroone.c`), the branching rule (`branch_originalvar.c`), the
column data (`vardata_OAAR.c`), the file reader (`reader_OAAR.c`) and the construction of
the master problem (`probdata_OAAR.c`) as executable Lean definitions.

Conventions of the embedding
* C `double` values are exact rationals (`ℚ`). The test `SCIPisFeasEQ` of the branching
  rule is the solver's test of the relative difference against the feasibility tolerance,
  which the functions take as the parameter `feastol`; the test `SCIPisFeasGT` of the
  pricer is taken as the exact comparison.
* C `int` counters and array indices are natural numbers; `nLinks - nOpticalLinks` is the
  truncated subtraction, which agrees with the C value whenever `nOpticalLinks ≤ nLinks`.
* C arrays are lists read with a default element outside their range; a write outside
  the range, undefined in C, leaves the list as it is.
* The name of a master variable is `lambda_<flow>_<seq>` or, for the transformed copy of
  a variable of the original problem, `t_lambda_<flow>_<seq>`; it is represented by the two
  numbers and a flag. `sscanf` with the pattern `lambda_%d_%d` reads the flow number from
  the first form and stores nothing for the second.
* A local variable that the code reads without having initialised it has an indeterminate
  content; the functions take that content as an argument.
-/

namespace OAAR

/-! ## Topology and demand data (`OAARdataStructure.h`) -/

/-- Node record `OAARNode`. -/
structure OAARNode where
  ProcDelay : ℚ
  QueueDelay : ℚ
  Jitter : ℚ
  IsOptical : Int
  ConnLinks : List Int
deriving Inhabited

/-- Link record `OAARLink`; `Capacity` is read with `%d`, `TransDelay` is the derived
transmission delay the pricer reads. -/
structure OAARLink where
  Capacity : Int
  PropDelay : ℚ
  TransDelay : ℚ
  BandCost : ℚ
  IsOptical : Int
  Head : Nat
  Tail : Nat
deriving Inhabited

/-- Flow record `OAARFlow`; `BandWidth` is read with `%d`. -/
structure OAARFlow where
  Source : Nat
  Destination : Nat
  Priority : ℚ
  BandWidth : Int
  DelayPrice : ℚ
  JitterPrice : ℚ
deriving Inhabited

/-- Pricer data `SCIP_PricerData` together with the two global constants `nWaveLength` and
`WaveLengthBand` of the data-structure header, which the functions below take as
parameters. -/
structure SCIP_PricerData where
  Nodes : List OAARNode
  Links : List OAARLink
  Flows : List OAARFlow
  nNodes : Nat
  nOpticalNodes : Nat
  nLinks : Nat
  nOpticalLinks : Nat
  nFlows : Nat
  nWaveLength : Nat
  WaveLengthBand : ℚ

/-- Array read `Links[i]`. -/
def SCIP_PricerData.link (pd : SCIP_PricerData) (i : Nat) : OAARLink := pd.Links.getD i default

/-- Array read `Nodes[i]`. -/
def SCIP_PricerData.node (pd : SCIP_PricerData) (i : Nat) : OAARNode := pd.Nodes.getD i default

/-- Array read `Flows[k]`. -/
def SCIP_PricerData.flow (pd : SCIP_PricerData) (k : Nat) : OAARFlow := pd.Flows.getD k default

/-- Number of electronic links, `nElecLinks = nLinks - nOpticalLinks`. -/
def SCIP_PricerData.nElecLinks (pd : SCIP_PricerData) : Nat := pd.nLinks - pd.nOpticalLinks

/-- Number of original flow variables, `nLinks + 2*nOpticalLinks*nWaveLength`. -/
def SCIP_PricerData.nOriFlowVars (pd : SCIP_PricerData) : Nat :=
  pd.nLinks + 2 * pd.nOpticalLinks * pd.nWaveLength

/-! ## Branching constraints (`cons_zeroone.c`) -/

/-- Polarity of a branching constraint, `enum ConsType`. -/
inductive CONSTYPE where
  | ZERO
  | ONE
deriving DecidableEq, Repr, Inhabited

/-- Constraint data `SCIP_ConsData` of a zeroone constraint (the tree node pointer is not
represented). -/
structure SCIP_ConsData where
  index1 : Nat
  index2 : Nat
  type : CONSTYPE
  npropagatedvars : Nat
  npropagations : Nat
  propagated : Bool
deriving DecidableEq, Repr, Inhabited

/-- Function `consdataCreate` of `cons_zeroone.c`. -/
def consdataCreate (index1 index2 : Nat) (type : CONSTYPE) : SCIP_ConsData :=
  { index1 := index1, index2 := index2, type := type,
    npropagatedvars := 0, npropagations := 0, propagated := false }

/-- A zeroone constraint as held by the constraint handler: its data and whether it lies on
the active path (`SCIPconsIsActive`). -/
structure ZerooneCons where
  data : SCIP_ConsData
  active : Bool
deriving DecidableEq, Repr, Inhabited

/-! ## The pricing subproblem (`initPricing`) -/

/-- A variable of the pricing subproblem: bounds and objective coefficient. -/
structure SubVar where
  lb : ℚ
  ub : ℚ
  obj : ℚ
deriving Inhabited

/-- A linear constraint `lhs ≤ Σ coef * var ≤ rhs` of the pricing subproblem; `none` is an
infinite side. Set-partitioning constraints are the case of unit coefficients and both
sides equal to one. -/
structure LinCons where
  terms : List (Nat × ℚ)
  lhs : Option ℚ
  rhs : Option ℚ
deriving Inhabited

/-- The pricing subproblem handed to the solver: variable array and constraints. -/
structure SubScip where
  vars : List SubVar
  conss : List LinCons
deriving Inhabited

/-- An assignment of the subproblem: `sol i` is `SCIPgetSolVal(subscip, sol, vars[i])`. -/
abbrev Sol := Nat → ℚ

/-- Cost of link `i` for flow `k` before the dual adjustment (the first assignment to
`tempC` in `initPricing`). -/
def linkCost (pd : SCIP_PricerData) (k i : Nat) : ℚ :=
  let tempLink := pd.link i
  let tempNode := pd.node tempLink.Head
  let tempDelay := tempNode.ProcDelay + tempNode.QueueDelay + tempLink.PropDelay + tempLink.TransDelay
  let tempJitter := tempNode.Jitter
  let tempBandCost := tempLink.BandCost
  (pd.flow k).DelayPrice * tempDelay + (pd.flow k).JitterPrice * tempJitter
    + ((pd.flow k).BandWidth : ℚ) * tempBandCost

/-- Value of `tempC` for link `i` when its variable is created: electronic links
(`i >= nOpticalLinks`) are charged the dual `alpha[i-nOpticalLinks] * BandWidth`. -/
def tempC (pd : SCIP_PricerData) (k : Nat) (alpha : Nat → ℚ) (i : Nat) : ℚ :=
  if pd.nOpticalLinks ≤ i then
    linkCost pd k i - alpha (i - pd.nOpticalLinks) * ((pd.flow k).BandWidth : ℚ)
  else linkCost pd k i

/-- Variables `PricerVarX_i`, stored at `vars[i]`. -/
def createX (pd : SCIP_PricerData) (k : Nat) (alpha : Nat → ℚ) : List SubVar :=
  (List.range pd.nLinks).map fun i => { lb := 0, ub := 1, obj := -(tempC pd k alpha i) }

/-- Variables `PricerVarY_i_j`, stored at `vars[nLinks+i*nWaveLength+j]`. -/
def createY (pd : SCIP_PricerData) (beta : Nat → ℚ) : List SubVar :=
  (List.range pd.nOpticalLinks).flatMap fun i =>
    (List.range pd.nWaveLength).map fun j =>
      { lb := 0, ub := 1, obj := beta (i * pd.nWaveLength + j) }

/-- Variables `PricerVarZ_i_j`, stored at
`vars[nLinks+nOpticalLinks*nWaveLength+i*nWaveLength+j]`. -/
def createZ (pd : SCIP_PricerData) : List SubVar :=
  (List.range pd.nOpticalLinks).flatMap fun _ =>
    (List.range pd.nWaveLength).map fun _ => { lb := 0, ub := 1, obj := 0 }

/-- Index of `PricerVarY_i_j` in the variable array. -/
def yIdx (pd : SCIP_PricerData) (i j : Nat) : Nat := pd.nLinks + i * pd.nWaveLength + j

/-- Index of `PricerVarZ_i_j` in the variable array. -/
def zIdx (pd : SCIP_PricerData) (i j : Nat) : Nat :=
  pd.nLinks + pd.nOpticalLinks * pd.nWaveLength + i * pd.nWaveLength + j

/-- Constraint `subCons1`: exactly one selected link leaves the source. -/
def subCons1 (pd : SCIP_PricerData) (k : Nat) : LinCons :=
  { terms := (List.range pd.nLinks).filterMap fun i =>
      if (pd.link i).Head = (pd.flow k).Source then some (i, (1 : ℚ)) else none
    lhs := some 1, rhs := some 1 }

/-- Constraints `subCons2_i`, one per node other than source and destination. -/
def subCons2 (pd : SCIP_PricerData) (k : Nat) : List LinCons :=
  (List.range pd.nNodes).filterMap fun i =>
    if i = (pd.flow k).Source ∨ i = (pd.flow k).Destination then none
    else some
      { terms := (List.range pd.nLinks).filterMap fun j =>
          if (pd.link j).Head = i then some (j, (1 : ℚ))
          else if (pd.link j).Tail = i then some (j, (-1 : ℚ))
          else none
        lhs := some 0, rhs := some 0 }

/-- Constraint `subCons3`: exactly one selected link enters the destination. -/
def subCons3 (pd : SCIP_PricerData) (k : Nat) : LinCons :=
  { terms := (List.range pd.nLinks).filterMap fun i =>
      if (pd.link i).Tail = (pd.flow k).Destination then some (i, (1 : ℚ)) else none
    lhs := some 1, rhs := some 1 }

/-- Constraints `subCons4_i`, one per optical link. -/
def subCons4 (pd : SCIP_PricerData) (k : Nat) : List LinCons :=
  (List.range pd.nOpticalLinks).map fun i =>
    { terms := (i, -((pd.flow k).BandWidth : ℚ)) ::
        (List.range pd.nWaveLength).map fun j => (zIdx pd i j, pd.WaveLengthBand)
      lhs := some 0, rhs := none }

/-- Constraints `subCons5_i_j`, one per optical node other than the destination and per
wavelength. -/
def subCons5 (pd : SCIP_PricerData) (k : Nat) : List LinCons :=
  (List.range pd.nOpticalNodes).flatMap fun i =>
    if i = (pd.flow k).Destination then []
    else (List.range pd.nWaveLength).map fun j =>
      { terms := (List.range pd.nOpticalLinks).filterMap fun l =>
          if (pd.link l).Tail = i then some (zIdx pd l j, (1 : ℚ))
          else if (pd.link l).Head = i then some (zIdx pd l j, (-1 : ℚ))
          else none
        lhs := some 0, rhs := some 0 }

/-- Constraints `subCons6_i_j`: `x_i + y_ij - 2 z_ij >= 0`. -/
def subCons6 (pd : SCIP_PricerData) : List LinCons :=
  (List.range pd.nOpticalLinks).flatMap fun i =>
    (List.range pd.nWaveLength).map fun j =>
      { terms := [(i, (1 : ℚ)), (yIdx pd i j, (1 : ℚ)), (zIdx pd i j, (-2 : ℚ))]
        lhs := some 0, rhs := none }

/-- Constraints `subCons7_i_j`: `-x_i - y_ij + z_ij >= -1`. -/
def subCons7 (pd : SCIP_PricerData) : List LinCons :=
  (List.range pd.nOpticalLinks).flatMap fun i =>
    (List.range pd.nWaveLength).map fun j =>
      { terms := [(i, (-1 : ℚ)), (yIdx pd i j, (-1 : ℚ)), (zIdx pd i j, (1 : ℚ))]
        lhs := some (-1), rhs := none }

/-- Value a constraint polarity fixes a subproblem variable to. -/
def CONSTYPE.val : CONSTYPE → ℚ
  | CONSTYPE.ZERO => 0
  | CONSTYPE.ONE => 1

/-- Library call `SCIPfixVar(subscip, var, value, ..)` while the subproblem is still in its
problem-creation stage: both bounds are set to the value, whatever they were. -/
def fixSubVar (vars : List SubVar) (idx : Nat) (value : ℚ) : List SubVar :=
  vars.modify (fun v => { v with lb := value, ub := value }) idx

/-- Body of the loop of `addBranchingDecisionConss` for one constraint: an active
constraint whose flow index is `k` fixes `vars[index2]` to zero when its type is `ZERO` and
to one when it is `ONE` (the type has no third value, so the error exit is not reached). -/
def applyBranchingDecision (k : Nat) (vars : List SubVar) (cons : ZerooneCons) : List SubVar :=
  if !cons.active then vars
  else if cons.data.index1 ≠ k then vars
  else if cons.data.type = CONSTYPE.ZERO then fixSubVar vars cons.data.index2 0
  else fixSubVar vars cons.data.index2 1

/-- Function `addBranchingDecisionConss`: the loop over all zeroone constraints of the
handler, in their order. -/
def addBranchingDecisionConss (vars : List SubVar) (conss : List ZerooneCons) (k : Nat) :
    List SubVar :=
  conss.foldl (applyBranchingDecision k) vars

/-- Function `initPricing`: the subproblem of flow `k` for the duals `alpha`, `beta` and the
branching constraints held by the handler. -/
def initPricing (pd : SCIP_PricerData) (conshdlr : List ZerooneCons) (k : Nat)
    (alpha beta : Nat → ℚ) : SubScip :=
  { vars := addBranchingDecisionConss (createX pd k alpha ++ createY pd beta ++ createZ pd)
      conshdlr k
    conss := [subCons1 pd k] ++ subCons2 pd k ++ [subCons3 pd k] ++ subCons4 pd k
      ++ subCons5 pd k ++ subCons6 pd ++ subCons7 pd }

/-! ## Solutions of the subproblem -/

/-- Activity `Σ coef * value` of a linear constraint under an assignment. -/
def LinCons.activity (c : LinCons) (sol : Sol) : ℚ :=
  (c.terms.map fun t => t.2 * sol t.1).sum

/-- Whether an assignment satisfies a linear constraint. -/
def LinCons.holds (c : LinCons) (sol : Sol) : Bool :=
  (match c.lhs with
    | none => true
    | some l => decide (l ≤ c.activity sol)) &&
  (match c.rhs with
    | none => true
    | some r => decide (c.activity sol ≤ r))

/-- Library call `SCIPcheckSolOrig`: the assignment respects the bounds of every variable,
is integral on every (binary) variable and satisfies every constraint. -/
def SCIPcheckSolOrig (sub : SubScip) (sol : Sol) : Bool :=
  ((List.range sub.vars.length).all fun i =>
    decide ((sub.vars.getD i default).lb ≤ sol i) && decide (sol i ≤ (sub.vars.getD i default).ub)
      && (sol i).isInt) &&
  sub.conss.all fun c => c.holds sol

/-- Library call `SCIPgetSolOrigObj`: objective value `Σ obj_i * value_i`. -/
def SCIPgetSolOrigObj (sub : SubScip) (sol : Sol) : ℚ :=
  ((List.range sub.vars.length).map fun i => (sub.vars.getD i default).obj * sol i).sum

/-! ## Columns of the master problem (`vardata_OAAR.c`, `pricerRedcostOAAR`) -/

/-- Variable data `SCIP_VarData`: sorted constraint ids and the incidence vector. -/
structure SCIP_VarData where
  consids : List Nat
  oriFlowVars : List Int
deriving DecidableEq, Repr, Inhabited

/-- Function `vardataCreate`: copies both arrays and sorts the constraint ids
(`SCIPsortInt`, ascending). -/
def vardataCreate (consids : List Nat) (oriFlowVars : List Int) : SCIP_VarData :=
  { consids := consids.insertionSort (· ≤ ·), oriFlowVars := oriFlowVars }

/-- A master variable: its name, objective coefficient, local bounds, variable data and the
coefficients with which it was entered into the master rows. The name is
`lambda_<flow>_<seq>`, as `createInitialColumns` and the pricer write it, or
`t_lambda_<flow>_<seq>` when `transformed` is set: the name `SCIPtransformVars` gives to the
transformed copy of a variable of the original problem. -/
structure MasterVar where
  flow : Nat
  seq : Nat
  transformed : Bool
  obj : ℚ
  lb : ℚ
  ub : ℚ
  vardata : SCIP_VarData
  coefs : List (Nat × Int)
deriving DecidableEq, Inhabited

/-- Array `consids` filled by `pricerRedcostOAAR` for an accepted assignment, in the order
the entries are written. -/
def buildConsids (pd : SCIP_PricerData) (k : Nat) (sol : Sol) : List Nat :=
  [k] ++
  ((List.range pd.nElecLinks).filterMap fun i =>
    if sol (pd.nOpticalLinks + i) > 1 / 2 then some (pd.nFlows + i) else none) ++
  ((List.range pd.nOpticalLinks).flatMap fun i =>
    (List.range pd.nWaveLength).filterMap fun j =>
      if sol (yIdx pd i j) > 1 / 2 then
        some (pd.nFlows + pd.nElecLinks + i * pd.nWaveLength + j)
      else none)

/-- Array `oriFlowVars` filled by `pricerRedcostOAAR` for an accepted assignment. -/
def buildOriFlowVars (pd : SCIP_PricerData) (sol : Sol) : List Int :=
  (List.range pd.nOriFlowVars).map fun i => if sol i > 1 / 2 then 1 else 0

/-- The accumulators `(tempDelay, tempJitter, tempBandCost)` after the loop over the links
in `pricerRedcostOAAR`. -/
def sumLinks (pd : SCIP_PricerData) (sol : Sol) : ℚ × ℚ × ℚ :=
  (List.range pd.nLinks).foldl
    (fun acc i =>
      if sol i > 1 / 2 then
        let tempNode := pd.node (pd.link i).Head
        let tempLink := pd.link i
        (acc.1 + (tempNode.ProcDelay + tempNode.QueueDelay + tempLink.PropDelay
            + tempLink.TransDelay),
          acc.2.1 + tempNode.Jitter,
          acc.2.2 + tempLink.BandCost)
      else acc)
    (0, 0, 0)

/-- Objective coefficient `tempObj` of the new master column. -/
def columnObj (pd : SCIP_PricerData) (k : Nat) (sol : Sol) : ℚ :=
  let tempFlow := pd.flow k
  let acc := sumLinks pd sol
  tempFlow.Priority * (tempFlow.DelayPrice * acc.1 + tempFlow.JitterPrice * acc.2.1
    + (tempFlow.BandWidth : ℚ) * acc.2.2)

/-- Coefficients entered by the last loop of the acceptance branch: the first id gets a
set-partitioning coefficient, ids below `nFlows + nElecLinks` a knapsack weight
`BandWidth`, the others a set-packing coefficient. -/
def columnCoefs (pd : SCIP_PricerData) (k : Nat) (consids : List Nat) : List (Nat × Int) :=
  consids.enum.map fun p =>
    if p.1 = 0 then (p.2, 1)
    else if p.2 < pd.nFlows + pd.nElecLinks then (p.2, (pd.flow k).BandWidth)
    else (p.2, 1)

/-- The master column `lambda_k_<seq>` created for an accepted assignment. -/
def newColumn (pd : SCIP_PricerData) (k seq : Nat) (sol : Sol) : MasterVar :=
  { flow := k, seq := seq, transformed := false, obj := columnObj pd k sol, lb := 0, ub := 1
    vardata := vardataCreate (buildConsids pd k sol) (buildOriFlowVars pd sol)
    coefs := columnCoefs pd k (buildConsids pd k sol) }

/-- The loop over the solutions `sols[s]`, `s < nAddedColumn`, of `pricerRedcostOAAR`:
an infeasible solution is skipped (`continue`), a feasible one with objective above
`-gamma[k]` is accepted, and the first feasible one that is not ends the loop (`break`).
The result lists the accepted solutions with their rank `s`. -/
def solLoop (sub : SubScip) (gammak : ℚ) : List (Nat × Sol) → List (Nat × Sol)
  | [] => []
  | p :: rest =>
    if !SCIPcheckSolOrig sub p.2 then solLoop sub gammak rest
    else if SCIPgetSolOrigObj sub p.2 > -gammak then p :: solLoop sub gammak rest
    else []

/-- Solutions accepted for flow `k`: the loop runs over the first
`nAddedColumn = min nsols 3` solutions. -/
def acceptedSols (pd : SCIP_PricerData) (conshdlr : List ZerooneCons) (k : Nat)
    (alpha beta gamma : Nat → ℚ) (sols : List Sol) : List (Nat × Sol) :=
  solLoop (initPricing pd conshdlr k alpha beta) (gamma k) (sols.take 3).enum

/-- Columns added to the master problem for flow `k` in one call of `pricerRedcostOAAR`;
`nFlowSol` is the number of columns flow `k` had before. -/
def pricerRedcostFlow (pd : SCIP_PricerData) (conshdlr : List ZerooneCons) (k : Nat)
    (alpha beta gamma : Nat → ℚ) (sols : List Sol) (nFlowSol : Nat) : List MasterVar :=
  (acceptedSols pd conshdlr k alpha beta gamma sols).enum.map fun p =>
    newColumn pd k (nFlowSol + p.1) p.2.2

/-- Dual value of master constraint `id`, as `pricerRedcostOAAR` reads the three families:
`gamma` from ids below `nFlows`, `alpha` from the next `nElecLinks` ids, `beta` from the
remaining ones. -/
def dualOf (pd : SCIP_PricerData) (alpha beta gamma : Nat → ℚ) (id : Nat) : ℚ :=
  if id < pd.nFlows then gamma id
  else if id < pd.nFlows + pd.nElecLinks then alpha (id - pd.nFlows)
  else beta (id - pd.nFlows - pd.nElecLinks)

/-- Reduced cost of a master column: its cost minus, for every row it enters, the row's
dual value times the column's coefficient in that row. -/
def reducedCost (pd : SCIP_PricerData) (alpha beta gamma : Nat → ℚ) (col : MasterVar) : ℚ :=
  col.obj - (col.coefs.map fun p => dualOf pd alpha beta gamma p.1 * (p.2 : ℚ)).sum

/-! ## Propagation of branching constraints (`cons_zeroone.c`) -/

/-- Result codes `SCIP_RESULT` used by the callbacks. -/
inductive SCIP_RESULT where
  | DIDNOTRUN
  | DIDNOTFIND
  | REDUCEDDOM
  | CUTOFF
  | SUCCESS
  | BRANCHED
deriving DecidableEq, Repr, Inhabited

/-- Incidence entry `oriFlowVars[j]` of a master column. -/
def MasterVar.bit (var : MasterVar) (j : Nat) : Int := var.vardata.oriFlowVars.getD j 0

/-- Library call `SCIPfixVar(scip, var, 0.0, &infeasible, &fixed)` during solving: the
fixing is infeasible when zero lies outside the local bounds, otherwise both local bounds
become zero. The result is the variable, `infeasible` and `fixed`. -/
def SCIPfixVarZero (var : MasterVar) : MasterVar × Bool × Bool :=
  if 0 < var.lb ∨ var.ub < 0 then (var, true, false)
  else ({ var with lb := 0, ub := 0 }, false, true)

/-- Library call `SCIPtransformVars`, as `probtransOAAR` applies it to the columns of the
original problem: the transformed variable carries the name of the original one with the
prefix `t_`. -/
def SCIPtransformVars (vars : List MasterVar) : List MasterVar :=
  vars.map fun v => { v with transformed := true }

/-- Library call `sscanf(name, "lambda_%d_%d", &tempI, &tempJ)` on the name of a column, as
far as `tempI` is concerned: for a name `lambda_<flow>_<seq>` the flow number is stored; for
a name `t_lambda_<flow>_<seq>` the first character does not match, nothing is stored
(`nread == 0`) and `tempI` keeps the content it had before the call. -/
def sscanfLambda (var : MasterVar) (tempI : Int) : Int :=
  if var.transformed then tempI else (var.flow : Int)

/-- Function `checkVariable`: returns the variable and the updated `nfixedvars` and
`cutoff`. The local `tempI` is not initialised by the function; the argument `tempI` is the
content it holds on entry, and the flow number compared with `index1` is what `sscanf`
leaves in it. -/
def checkVariable (consdata : SCIP_ConsData) (var : MasterVar) (tempI : Int) (nfixedvars : Nat)
    (cutoff : Bool) : MasterVar × Nat × Bool :=
  if var.ub < 1 / 2 then (var, nfixedvars, cutoff)
  else if sscanfLambda var tempI = (consdata.index1 : Int) then
    let s :=
      if consdata.type = CONSTYPE.ZERO ∧ var.bit consdata.index2 = 1 then
        let r := SCIPfixVarZero var
        if r.2.1 then (var, nfixedvars, true) else (r.1, nfixedvars + 1, cutoff)
      else (var, nfixedvars, cutoff)
    if consdata.type = CONSTYPE.ONE ∧ s.1.bit consdata.index2 = 0 then
      let r := SCIPfixVarZero s.1
      if r.2.1 then (s.1, s.2.1, true) else (r.1, s.2.1 + 1, s.2.2)
    else s
  else (var, nfixedvars, cutoff)

/-- The loop `for( v = npropagatedvars; v < nvars && !cutoff; ++v )` of
`consdataFixVariables`, run on the variables from position `npropagatedvars` on; `uninit n`
is the content of the uninitialised local of `checkVariable` in the call for the `n`-th
variable of the list. -/
def fixLoop (consdata : SCIP_ConsData) :
    List MasterVar → (Nat → Int) → Nat → List MasterVar × Nat × Bool
  | [], _, nfixedvars => ([], nfixedvars, false)
  | var :: rest, uninit, nfixedvars =>
    let r := checkVariable consdata var (uninit 0) nfixedvars false
    if r.2.2 then (r.1 :: rest, r.2.1, true)
    else
      let r2 := fixLoop consdata rest (fun n => uninit (n + 1)) r.2.1
      (r.1 :: r2.1, r2.2.1, r2.2.2)

/-- Function `consdataFixVariables`; `result` is the value the result pointer holds on
entry, which is kept when there is neither a cutoff nor a fixing; `uninit v` is the content
of the uninitialised local of `checkVariable` in the call for `vars[v]`. -/
def consdataFixVariables (consdata : SCIP_ConsData) (vars : List MasterVar)
    (uninit : Nat → Int) (result : SCIP_RESULT) : List MasterVar × SCIP_RESULT :=
  let r := fixLoop consdata (vars.drop consdata.npropagatedvars)
    (fun n => uninit (consdata.npropagatedvars + n)) 0
  (vars.take consdata.npropagatedvars ++ r.1,
    if r.2.2 then SCIP_RESULT.CUTOFF
    else if r.2.1 > 0 then SCIP_RESULT.REDUCEDDOM
    else result)

/-- The loop over the constraints in `consPropZeroone`; `uninit c v` is the content of the
uninitialised local of `checkVariable` when the `c`-th constraint of the list is checked
against `vars[v]`. -/
def consPropLoop : List SCIP_ConsData → List MasterVar → (Nat → Nat → Int) → SCIP_RESULT →
    List MasterVar × List SCIP_ConsData × SCIP_RESULT
  | [], vars, _, result => (vars, [], result)
  | consdata :: rest, vars, uninit, result =>
    if !consdata.propagated then
      let r := consdataFixVariables consdata vars (uninit 0) result
      let consdata1 := { consdata with npropagations := consdata.npropagations + 1 }
      if r.2 ≠ SCIP_RESULT.CUTOFF then
        let r2 := consPropLoop rest r.1 (fun c => uninit (c + 1)) r.2
        (r2.1, { consdata1 with propagated := true, npropagatedvars := vars.length } :: r2.2.1,
          r2.2.2)
      else (r.1, consdata1 :: rest, r.2)
    else
      let r2 := consPropLoop rest vars (fun c => uninit (c + 1)) result
      (r2.1, consdata :: r2.2.1, r2.2.2)

/-- Callback `consPropZeroone`: propagates the constraints `conss` over the columns `vars`
of the problem data, starting from the result `SCIP_DIDNOTFIND`. -/
def consPropZeroone (conss : List SCIP_ConsData) (vars : List MasterVar)
    (uninit : Nat → Nat → Int) : List MasterVar × List SCIP_ConsData × SCIP_RESULT :=
  consPropLoop conss vars uninit SCIP_RESULT.DIDNOTFIND

/-- Callback `consActiveZeroone`: the constraint is marked for propagation again when the
number of columns differs from the number it was propagated over. -/
def consActiveZeroone (consdata : SCIP_ConsData) (nvars : Nat) : SCIP_ConsData :=
  if consdata.npropagatedvars ≠ nvars then { consdata with propagated := false } else consdata

/-! ## The branching rule (`branch_originalvar.c`) -/

/-- Library call `SCIPgetLPBranchCands`: the columns with a fractional LP value, each with
its fractional part. Fractional is taken exactly; the solver counts a value within the
feasibility tolerance of an integer as integral, which makes no difference for an LP value
that is an integer or further than the tolerance from every integer, the only values in the
pools evaluated below. -/
def SCIPgetLPBranchCands (vars : List MasterVar) (lpsol : List ℚ) : List (MasterVar × ℚ) :=
  (vars.zip lpsol).filterMap fun p => if p.2.isInt then none else some (p.1, Int.fract p.2)

/-- Library call `SCIPrelDiff`: the difference of two values relative to the larger of
their absolute values and one. -/
def SCIPrelDiff (val1 val2 : ℚ) : ℚ := (val1 - val2) / max 1 (max |val1| |val2|)

/-- Library call `SCIPisFeasEQ`: the relative difference of the two values is at most the
feasibility tolerance `feastol` in absolute value. -/
def SCIPisFeasEQ (feastol val1 val2 : ℚ) : Bool := decide (|SCIPrelDiff val1 val2| ≤ feastol)

/-- Default value `1e-6` of the parameter `numerics/feastol`, which the program does not
change. -/
def defaultFeastol : ℚ := 1 / 1000000

/-- The first loop over the candidates in `branchExeclpOriginalvar` for flow `i`: the copy
`lambda_i` of the candidate array in which an entry is set to `NULL` when the number
`sscanf` leaves in `tempI` differs from `i`. `tempI` is a local of the branching callback:
it enters with the content left by the candidate before (or by the flow before, or with the
content the uninitialised local had at the start). The second component is its content
after the loop. -/
def selectLambda (i : Nat) :
    List (MasterVar × ℚ) → Int → List (Option (MasterVar × ℚ)) × Int
  | [], tempI => ([], tempI)
  | c :: rest, tempI =>
    let tempI1 := sscanfLambda c.1 tempI
    let r := selectLambda i rest tempI1
    ((if tempI1 ≠ (i : Int) then none else some c) :: r.1, r.2)

/-- The loop over `k` in `branchExeclpOriginalvar`: every entry of `lambda_i` other than
`NULL` adds `lpcandsfrac[k] * oriFlowVars[j]` to `fracOriVal`. -/
def addFracs (lambda_i : List (Option (MasterVar × ℚ))) (j : Nat) (fracOriVal : ℚ) : ℚ :=
  lambda_i.foldl
    (fun acc entry =>
      match entry with
      | some c => acc + c.2 * (c.1.bit j : ℚ)
      | none => acc)
    fracOriVal

/-- The loop over `j` in `branchExeclpOriginalvar` for one flow; `fracOriVal` is carried
from one `j` to the next, and the loop goes on while it is `SCIPisFeasEQ` to one or to
zero. -/
def searchVar (feastol : ℚ) (lambda_i : List (Option (MasterVar × ℚ))) :
    List Nat → ℚ → Option Nat
  | [], _ => none
  | j :: rest, fracOriVal =>
    let v := addFracs lambda_i j fracOriVal
    if SCIPisFeasEQ feastol v 1 = true ∨ SCIPisFeasEQ feastol v 0 = true then
      searchVar feastol lambda_i rest v
    else some j

/-- The loop over `i` in `branchExeclpOriginalvar`; `fracOriVal` is set to zero for every
flow, `tempI` is carried from one flow to the next. -/
def searchFlow (feastol : ℚ) (lpcands : List (MasterVar × ℚ)) (nOriVars : Nat) :
    List Nat → Int → Option (Nat × Nat)
  | [], _ => none
  | i :: rest, tempI =>
    let sel := selectLambda i lpcands tempI
    match searchVar feastol sel.1 (List.range nOriVars) 0 with
    | some j => some (i, j)
    | none => searchFlow feastol lpcands nOriVars rest sel.2

/-- Candidate search of `branchExeclpOriginalvar`: the pair `(index1, index2)` at the label,
or `none` when the loops end without assigning the two indices. `feastol` is the feasibility
tolerance of the solver and `tempI` the content of the uninitialised local `tempI` when the
callback starts. -/
def branchExeclpOriginalvar (feastol : ℚ) (tempI : Int)
    (nFlows nLinks nOpticalLinks nWaveLength : Nat)
    (lpcands : List (MasterVar × ℚ)) : Option (Nat × Nat) :=
  searchFlow feastol lpcands (nLinks + nOpticalLinks * nWaveLength * 2) (List.range nFlows) tempI

/-- The two constraints `branchExeclpOriginalvar` creates for the candidate: `zero` for the
first child and `one` for the second. -/
def branchChildren (index1 index2 : Nat) : SCIP_ConsData × SCIP_ConsData :=
  (consdataCreate index1 index2 CONSTYPE.ZERO, consdataCreate index1 index2 CONSTYPE.ONE)

/-! ## Initial columns (`createInitialColumns` of `probdata_OAAR.c`) -/

/-- Library call `memset(array, 0, nbytes)` on an array of four-byte little-endian `int`s:
entries lying wholly within the first `nbytes` bytes become zero, an entry lying partly
within them keeps its upper bytes, the others keep their content. -/
def memsetZero (buffer : List Int) (nbytes : Nat) : List Int :=
  buffer.enum.map fun p =>
    if 4 * (p.1 + 1) ≤ nbytes then 0
    else if 4 * p.1 < nbytes then p.2 - p.2 % 256 ^ (nbytes - 4 * p.1)
    else p.2

/-- One iteration of the loop of `createInitialColumns`: the column `lambda_i_0` of flow `i`
over its artificial link `Links[nLinks - nFlows + i]`. The problem data carries the same
arrays and counts as the pricer data; `buffer` is the content of the freshly allocated
array `oriFlowVars`. -/
def createInitialColumn (pd : SCIP_PricerData) (i : Nat) (buffer : List Int) : MasterVar :=
  let tempLink := pd.link (pd.nLinks - pd.nFlows + i)
  let tempHeadNode := pd.node tempLink.Head
  let tempFlow := pd.flow i
  let tempDelay := tempHeadNode.ProcDelay + tempHeadNode.QueueDelay + tempLink.PropDelay
    + tempLink.TransDelay
  let tempJitter := tempHeadNode.Jitter
  let tempPathCost := tempLink.BandCost
  { flow := i, seq := 0, transformed := false
    obj := tempFlow.Priority * (tempDelay * tempFlow.DelayPrice + tempJitter * tempFlow.JitterPrice
      + tempPathCost * (tempFlow.BandWidth : ℚ))
    lb := 0, ub := 1
    vardata := vardataCreate [i, pd.nLinks - pd.nOpticalLinks + i]
      ((memsetZero buffer pd.nOriFlowVars).set (pd.nLinks - pd.nFlows + i) 1)
    coefs := [(i, 1), (pd.nLinks - pd.nOpticalLinks + i, tempFlow.BandWidth)] }

/-! ## Reference notions used to state the properties -/

/-- Links chosen by an assignment: those whose variable exceeds one half. -/
def chosenLinks (pd : SCIP_PricerData) (sol : Sol) : List Nat :=
  (List.range pd.nLinks).filter fun i => decide (sol i > 1 / 2)

/-- Sum over the chosen links of processing and queueing delay of the head node plus
propagation and transmission delay of the link. -/
def sumDelays (pd : SCIP_PricerData) (sol : Sol) : ℚ :=
  ((chosenLinks pd sol).map fun i =>
    (pd.node (pd.link i).Head).ProcDelay + (pd.node (pd.link i).Head).QueueDelay
      + (pd.link i).PropDelay + (pd.link i).TransDelay).sum

/-- Sum over the chosen links of the jitter of the head node. -/
def sumJitters (pd : SCIP_PricerData) (sol : Sol) : ℚ :=
  ((chosenLinks pd sol).map fun i => (pd.node (pd.link i).Head).Jitter).sum

/-- Sum over the chosen links of the bandwidth cost of the link. -/
def sumBandCosts (pd : SCIP_PricerData) (sol : Sol) : ℚ :=
  ((chosenLinks pd sol).map fun i => (pd.link i).BandCost).sum

/-- A column is not fixed to zero when its local upper bound is at least one half. -/
def MasterVar.unfixed (var : MasterVar) : Prop := ¬ var.ub < 1 / 2

instance (var : MasterVar) : Decidable var.unfixed := by
  unfold MasterVar.unfixed; infer_instance

/-- A column conflicts with a branching constraint: it belongs to the constraint's flow, is
not fixed to zero, and its incidence entry is one under `ZERO` or zero under `ONE`. -/
def conflicts (consdata : SCIP_ConsData) (var : MasterVar) : Prop :=
  var.flow = consdata.index1 ∧ var.unfixed ∧
    ((consdata.type = CONSTYPE.ZERO ∧ var.bit consdata.index2 = 1) ∨
     (consdata.type = CONSTYPE.ONE ∧ var.bit consdata.index2 = 0))

instance (consdata : SCIP_ConsData) (var : MasterVar) : Decidable (conflicts consdata var) := by
  unfold conflicts; infer_instance

/-- The column with both local bounds set to zero. -/
def MasterVar.fixedToZero (var : MasterVar) : MasterVar := { var with lb := 0, ub := 0 }

/-- Aggregate usage of original variable `j` by flow `i`: the sum over the LP-fractional
columns of the flow of fractional weight times incidence entry. -/
def aggUsage (lpcands : List (MasterVar × ℚ)) (i j : Nat) : ℚ :=
  ((lpcands.filter fun c => decide (c.1.flow = i)).map fun c => c.2 * (c.1.bit j : ℚ)).sum

/-- The lexicographically first pair (flow, variable) whose aggregate usage is neither zero
nor one. -/
def firstFractionalPair (nFlows nOriVars : Nat) (lpcands : List (MasterVar × ℚ)) :
    Option (Nat × Nat) :=
  ((List.range nFlows).flatMap fun i => (List.range nOriVars).map fun j => (i, j)).find?
    fun p => decide (aggUsage lpcands p.1 p.2 ≠ 0 ∧ aggUsage lpcands p.1 p.2 ≠ 1)

/-- Scenario A of the specification: two nodes, the optical link 0 from node 0 to node 1
(capacity 1000, propagation delay 0, transmission delay 0, bandwidth cost 1), one flow from
node 0 to node 1 (bandwidth 400, priority 1, delay price 200, jitter price 500) and its
artificial link 1. -/
def scenarioA (node0 node1 : OAARNode) (fallback : OAARLink) (nOpticalNodes nWaveLength : Nat)
    (WaveLengthBand : ℚ) : SCIP_PricerData :=
  { Nodes := [node0, node1]
    Links := [{ Capacity := 1000, PropDelay := 0, TransDelay := 0, BandCost := 1, IsOptical := 1,
                Head := 0, Tail := 1 },
              { fallback with Capacity := 400, IsOptical := 0, Head := 0, Tail := 1 }]
    Flows := [{ Source := 0, Destination := 1, Priority := 1, BandWidth := 400,
                DelayPrice := 200, JitterPrice := 500 }]
    nNodes := 2, nOpticalNodes := nOpticalNodes, nLinks := 2, nOpticalLinks := 1, nFlows := 1
    nWaveLength := nWaveLength, WaveLengthBand := WaveLengthBand }

/-- Effect on one column of a pass of the fixing loop that meets no cutoff: a conflicting
column gets both bounds zero, any other column is left as it is. -/
def fixIfConflict (cd : SCIP_ConsData) (v : MasterVar) : MasterVar :=
  if conflicts cd v then v.fixedToZero else v

/-- Effect of one branching constraint on a subproblem variable it fixes. -/
def fixBy (c : ZerooneCons) (v : SubVar) : SubVar :=
  { v with lb := c.data.type.val, ub := c.data.type.val }

/-- An active branching constraint of flow `k` on original variable `idx`. -/
def concerns (k idx : Nat) (c : ZerooneCons) : Bool :=
  c.active && decide (c.data.index1 = k) && decide (c.data.index2 = idx)

/-! ## Concrete data used to evaluate the code -/

/-- A column as the pricer creates it, with bounds zero and one, for a given flow, sequence
number and incidence vector. -/
def freshColumn (flow seq : Nat) (oriFlowVars : List Int) : MasterVar :=
  { flow := flow, seq := seq, transformed := false, obj := 0, lb := 0, ub := 1
    vardata := { consids := [flow], oriFlowVars := oriFlowVars }, coefs := [(flow, 1)] }

/-- Two nodes, the electronic link 0 from node 0 to node 1, one flow of priority two from
node 0 to node 1 and its artificial link 1. -/
def priorityNet : SCIP_PricerData :=
  { Nodes := [{ ProcDelay := 1, QueueDelay := 1, Jitter := 1, IsOptical := 0, ConnLinks := [0] },
              { ProcDelay := 1, QueueDelay := 1, Jitter := 1, IsOptical := 0, ConnLinks := [0] }]
    Links := [{ Capacity := 100, PropDelay := 1, TransDelay := 0, BandCost := 1, IsOptical := 0,
                Head := 0, Tail := 1 },
              { Capacity := 10, PropDelay := 1000, TransDelay := 0, BandCost := 1000,
                IsOptical := 0, Head := 0, Tail := 1 }]
    Flows := [{ Source := 0, Destination := 1, Priority := 2, BandWidth := 10, DelayPrice := 1,
                JitterPrice := 1 }]
    nNodes := 2, nOpticalNodes := 0, nLinks := 2, nOpticalLinks := 0, nFlows := 1
    nWaveLength := 1, WaveLengthBand := 1 }

/-- The assignment that chooses link 0 and nothing else. -/
def solLink0 : Sol := fun i => if i = 0 then 1 else 0

/-- LP branching candidates of one flow over four links: the initial column at weight zero
and two columns at weight one half that share links 0 and 1 and differ on link 2 only. -/
def sharedArcsCands : List (MasterVar × ℚ) :=
  SCIPgetLPBranchCands
    [freshColumn 0 0 [0, 0, 0, 1], freshColumn 0 1 [1, 1, 1, 0], freshColumn 0 2 [1, 1, 0, 0]]
    [0, 1 / 2, 1 / 2]

/-- Columns of one flow over five links and its artificial link 5: the initial column and
two routes that share links 0 and 1 and then fork (link 2 against links 3 and 4). -/
def forkPool : List MasterVar :=
  [freshColumn 0 0 [0, 0, 0, 0, 0, 1], freshColumn 0 1 [1, 1, 1, 0, 0, 0],
   freshColumn 0 2 [1, 1, 0, 1, 1, 0]]

/-- A pool whose second column of flow 0 has its lower bound forced to one. -/
def forcedPool : List MasterVar :=
  [freshColumn 0 0 [0, 1], { freshColumn 0 1 [1, 0] with lb := 1 }, freshColumn 0 2 [1, 1]]

/-- Two active constraints of flow 0 on variable 0 with opposite polarity. -/
def oppositeConss : List ZerooneCons :=
  [{ data := consdataCreate 0 0 CONSTYPE.ZERO, active := true },
   { data := consdataCreate 0 0 CONSTYPE.ONE, active := true }]

/-- One active constraint fixing variable 0 of flow 0 to one. -/
def oneConss : List ZerooneCons := [{ data := consdataCreate 0 0 CONSTYPE.ONE, active := true }]

/-! ## Search-tree states reached by branching and propagation -/

/-- State of a search-tree node: the columns with their local bounds and the zeroone
constraints on the path from the root. -/
structure TreeState where
  vars : List MasterVar
  conss : List SCIP_ConsData
deriving DecidableEq

/-- An LP solution the branching rule can be applied to at a node: one weight per column,
within the local bounds of the column (so zero on a column fixed by an active constraint),
the weights of every flow summing to one. -/
def lpAdmissible (nFlows : Nat) (vars : List MasterVar) (lpsol : List ℚ) : Prop :=
  lpsol.length = vars.length ∧
  (∀ p ∈ vars.zip lpsol, p.1.lb ≤ p.2 ∧ p.2 ≤ p.1.ub) ∧
  ∀ i ∈ List.range nFlows,
    (((vars.zip lpsol).filter fun p => decide (p.1.flow = i)).map Prod.snd).sum = 1

instance (nFlows : Nat) (vars : List MasterVar) (lpsol : List ℚ) :
    Decidable (lpAdmissible nFlows vars lpsol) := by
  unfold lpAdmissible; infer_instance

/-- Entering a child node: its new constraint is activated (`consActiveZeroone`) behind the
constraints of the path, and `consPropZeroone` runs over all of them. -/
def enterChild (st : TreeState) (cd : SCIP_ConsData) (uninit : Nat → Nat → Int) :
    List MasterVar × List SCIP_ConsData × SCIP_RESULT :=
  consPropZeroone (st.conss ++ [consActiveZeroone cd st.vars.length]) st.vars uninit

/-- States reachable from a root without constraints by applying the branching rule to an
admissible LP solution and propagating in the chosen child, as long as no cutoff occurs. -/
inductive Reachable (feastol : ℚ) (nFlows nLinks nOpticalLinks nWaveLength : Nat) :
    TreeState → Prop
  | root (vars : List MasterVar) (h : ∀ c ∈ vars, c.lb = 0 ∧ c.ub = 1) :
      Reachable feastol nFlows nLinks nOpticalLinks nWaveLength { vars := vars, conss := [] }
  | child (st : TreeState) (lpsol : List ℚ) (i j : Nat) (cd : SCIP_ConsData) (tempI : Int)
      (uninit : Nat → Nat → Int)
      (hst : Reachable feastol nFlows nLinks nOpticalLinks nWaveLength st)
      (hlp : lpAdmissible nFlows st.vars lpsol)
      (hbr : branchExeclpOriginalvar feastol tempI nFlows nLinks nOpticalLinks nWaveLength
        (SCIPgetLPBranchCands st.vars lpsol) = some (i, j))
      (hcd : cd = (branchChildren i j).1 ∨ cd = (branchChildren i j).2)
      (hcut : (enterChild st cd uninit).2.2 ≠ SCIP_RESULT.CUTOFF) :
      Reachable feastol nFlows nLinks nOpticalLinks nWaveLength
        { vars := (enterChild st cd uninit).1, conss := (enterChild st cd uninit).2.1 }

/-- Root state over the pool `forkPool`. -/
def forkRoot : TreeState := { vars := forkPool, conss := [] }

/-- The `ONE` child of `forkRoot` for the pair (0, 1). -/
def forkChild : TreeState :=
  { vars := (enterChild forkRoot (branchChildren 0 1).2 fun _ _ => 0).1
    conss := (enterChild forkRoot (branchChildren 0 1).2 fun _ _ => 0).2.1 }

/-- The `ONE` child of `forkChild` for the pair (0, 1). -/
def forkGrandchild : TreeState :=
  { vars := (enterChild forkChild (branchChildren 0 1).2 fun _ _ => 0).1
    conss := (enterChild forkChild (branchChildren 0 1).2 fun _ _ => 0).2.1 }

/-- The `ZERO` child of `forkChild` for the pair (0, 1). -/
def forkGrandchildZero : TreeState :=
  { vars := (enterChild forkChild (branchChildren 0 1).1 fun _ _ => 0).1
    conss := (enterChild forkChild (branchChildren 0 1).1 fun _ _ => 0).2.1 }

/-- Objective coefficient with which `initPricing` creates subproblem variable `idx`:
`-tempC` for a link variable, `beta` for a wavelength variable, zero for a bridging
variable. -/
def createdObj (pd : SCIP_PricerData) (k : Nat) (alpha beta : Nat → ℚ) (idx : Nat) : ℚ :=
  if idx < pd.nLinks then -(tempC pd k alpha idx)
  else if idx < pd.nLinks + pd.nOpticalLinks * pd.nWaveLength then beta (idx - pd.nLinks)
  else 0

/-! ## The file reader (`readerReadOAAR` of `reader_OAAR.c`) -/

/-- The numbers of one link block of the input file: the line
`Capacity PropDelay BandCost IsOptical` and the line `Head Tail`. -/
structure LinkRecord where
  Capacity : Int
  PropDelay : ℚ
  BandCost : ℚ
  IsOptical : Int
  Head : Nat
  Tail : Nat
deriving Inhabited

/-- Body of the loop that reads the links: the parsed numbers are stored, and `TransDelay`
is `0` for an optical link and `1500 * 8 / Capacity` otherwise. Both operands of the
division are `int`, so the quotient is the truncated one. -/
def readLink (r : LinkRecord) : OAARLink :=
  { Capacity := r.Capacity, PropDelay := r.PropDelay
    TransDelay := if r.IsOptical ≠ 0 then 0 else ((Int.tdiv (1500 * 8) r.Capacity : Int) : ℚ)
    BandCost := r.BandCost, IsOptical := r.IsOptical, Head := r.Head, Tail := r.Tail }

/-- The loop `for( i = 0; i < nLinks; i++ )` that reads the links into the array `Links`,
which was allocated with `nLinks + nFlows` entries. -/
def readLinks (Links : List OAARLink) (records : List LinkRecord) (nLinks : Nat) :
    List OAARLink :=
  (List.range' 0 nLinks).foldl
    (fun L i => L.modify (fun _ => readLink (records.getD i default)) i) Links

/-- Body of the loop that sets the artificial links: six fields of `Links[i]` are assigned
from the flow `Flows[i - nLinks]`; the field `TransDelay` is not assigned and keeps what
the array held. `MAX_PROPDELAY` and `MAX_BANDCOST` are constants of the data-structure
header. -/
def setArtificialLink (MAX_PROPDELAY MAX_BANDCOST : ℚ) (flow : OAARFlow) (l : OAARLink) :
    OAARLink :=
  { l with
    Capacity := flow.BandWidth, PropDelay := MAX_PROPDELAY, BandCost := MAX_BANDCOST
    IsOptical := 0, Head := flow.Source, Tail := flow.Destination }

/-- The loop `for( i = nLinks; i < nFlows+nLinks; i++ )` that sets the artificial links. -/
def setArtificialLinks (MAX_PROPDELAY MAX_BANDCOST : ℚ) (Flows : List OAARFlow)
    (nFlows : Nat) (Links : List OAARLink) (nLinks : Nat) : List OAARLink :=
  (List.range' nLinks nFlows).foldl
    (fun L i => L.modify
      (setArtificialLink MAX_PROPDELAY MAX_BANDCOST (Flows.getD (i - nLinks) default)) i)
    Links

/-- The augmentation step of the reader on the pair `(Links, nLinks)`: the artificial links
are set and `nLinks += nFlows`. -/
def augment (MAX_PROPDELAY MAX_BANDCOST : ℚ) (Flows : List OAARFlow) (nFlows : Nat)
    (st : List OAARLink × Nat) : List OAARLink × Nat :=
  (setArtificialLinks MAX_PROPDELAY MAX_BANDCOST Flows nFlows st.1 st.2, st.2 + nFlows)

/-- The number of master constraints computed by the reader,
`nCons = nFlows + (nLinks - nOpticalLinks) + (nOpticalLinks * nWaveLength)`, with `nLinks`
the augmented count. -/
def readerNCons (nFlows nLinks nOpticalLinks nWaveLength : Nat) : Nat :=
  nFlows + (nLinks - nOpticalLinks) + nOpticalLinks * nWaveLength

/-- The data the reader hands to `SCIPprobdataCreate`, and `nCons`. `Nodes` and `mem` are
the contents of the arrays `Nodes` and `Links` after their allocation; `records` and
`Flows` are the link blocks and flow lines of the file. -/
def readerReadOAAR (Nodes : List OAARNode) (mem : List OAARLink) (records : List LinkRecord)
    (Flows : List OAARFlow) (nNodes nOpticalNodes nLinks nOpticalLinks nFlows nWaveLength : Nat)
    (WaveLengthBand MAX_PROPDELAY MAX_BANDCOST : ℚ) : SCIP_PricerData × Nat :=
  let st := augment MAX_PROPDELAY MAX_BANDCOST Flows nFlows
    (readLinks mem records nLinks, nLinks)
  ({ Nodes := Nodes, Links := st.1, Flows := Flows, nNodes := nNodes
     nOpticalNodes := nOpticalNodes, nLinks := st.2, nOpticalLinks := nOpticalLinks
     nFlows := nFlows, nWaveLength := nWaveLength, WaveLengthBand := WaveLengthBand },
   readerNCons nFlows st.2 nOpticalLinks nWaveLength)

/-! ## The master problem (`SCIPprobdataCreate` of `probdata_OAAR.c`) -/

/-- A master constraint as created by `SCIPprobdataCreate`: a set-partitioning constraint
(`Cons1`), a knapsack constraint with its capacity (`Cons2`) or a set-packing constraint
(`Cons3`). -/
inductive MasterCons where
  | setpart
  | knapsack (capacity : Int)
  | setpack
deriving DecidableEq, Repr

/-- Return codes of the construction. -/
inductive SCIP_RETCODE where
  | SCIP_OKAY
  | SCIP_INVALIDDATA
deriving DecidableEq, Repr

/-- The array `conss` after the three loops `Set Cons1`, `Set Cons2`, `Set Cons3` of
`SCIPprobdataCreate`. The array is allocated with `nCons` entries; an entry that no loop
assigns is `none`. -/
def createConss (pd : SCIP_PricerData) (nCons : Nat) : List (Option MasterCons) :=
  let conss0 : List (Option MasterCons) := List.replicate nCons none
  let conss1 := (List.range pd.nFlows).foldl
    (fun conss i => conss.set i (some MasterCons.setpart)) conss0
  let conss2 := (List.range pd.nElecLinks).foldl
    (fun conss i => conss.set (i + pd.nFlows)
      (some (MasterCons.knapsack (pd.link (pd.nOpticalLinks + i)).Capacity))) conss1
  (List.range pd.nOpticalLinks).foldl
    (fun conss i => (List.range pd.nWaveLength).foldl
      (fun conss j => conss.set (pd.nFlows + pd.nElecLinks + i * pd.nWaveLength + j)
        (some MasterCons.setpack)) conss)
    conss2

/-- Library test of `SCIPaddCoefSetppc`: the constraint belongs to the set
partitioning / packing handler. -/
def isSetppc (cons : Option MasterCons) : Bool :=
  cons = some MasterCons.setpart || cons = some MasterCons.setpack

/-- Library call `SCIPgetCapacityKnapsack`, defined on knapsack constraints. -/
def SCIPgetCapacityKnapsack (cons : Option MasterCons) : Option Int :=
  match cons with
  | some (MasterCons.knapsack capacity) => some capacity
  | _ => none

/-- Outcome of `createInitialColumns`: the return code, the columns completed so far and
the flows for which the message `Initial column error!` was issued. -/
structure InitialColumns where
  retcode : SCIP_RETCODE
  vars : List MasterVar
  errors : List Nat
deriving DecidableEq

/-- The loop of `createInitialColumns` over the flows still to be treated.
`SCIPaddCoefSetppc` and `SCIPaddCoefKnapsack` return `SCIP_INVALIDDATA` for a constraint of
another handler, which `SCIP_CALL` passes on; a right-hand side different from the
capacity of the artificial link only issues the debug message. `buffers i` is the content
of the array `oriFlowVars` when the iteration of flow `i` allocates it. -/
def createInitialColumnsLoop (pd : SCIP_PricerData) (conss : List (Option MasterCons))
    (buffers : Nat → List Int) : List Nat → List MasterVar → List Nat → InitialColumns
  | [], vars, errors => { retcode := SCIP_RETCODE.SCIP_OKAY, vars := vars, errors := errors }
  | i :: rest, vars, errors =>
    let tempLink := pd.link (pd.nLinks - pd.nFlows + i)
    let capacity := SCIPgetCapacityKnapsack (conss.getD (pd.nLinks - pd.nOpticalLinks + i) none)
    if isSetppc (conss.getD i none) = false then
      { retcode := SCIP_RETCODE.SCIP_INVALIDDATA, vars := vars, errors := errors }
    else if capacity = none then
      { retcode := SCIP_RETCODE.SCIP_INVALIDDATA, vars := vars, errors := errors }
    else
      createInitialColumnsLoop pd conss buffers rest
        (vars ++ [createInitialColumn pd i (buffers i)])
        (if capacity ≠ some tempLink.Capacity then errors ++ [i] else errors)

/-- Function `createInitialColumns`: one column per flow `i = 0, …, nFlows - 1`. -/
def createInitialColumns (pd : SCIP_PricerData) (conss : List (Option MasterCons))
    (buffers : Nat → List Int) : InitialColumns :=
  createInitialColumnsLoop pd conss buffers (List.range pd.nFlows) [] []

/-- What `SCIPprobdataCreate` leaves behind: its return code, the constraint array, the
columns, the debug messages of `createInitialColumns`, and whether the pricer was
activated (the last step, reached only when every call before it returned `SCIP_OKAY`). -/
structure ProbdataResult where
  retcode : SCIP_RETCODE
  conss : List (Option MasterCons)
  vars : List MasterVar
  errors : List Nat
  pricerActive : Bool
deriving DecidableEq

/-- Function `SCIPprobdataCreate` on the data handed over by the reader. -/
def SCIPprobdataCreate (pd : SCIP_PricerData) (nCons : Nat) (buffers : Nat → List Int) :
    ProbdataResult :=
  let conss := createConss pd nCons
  let cols := createInitialColumns pd conss buffers
  { retcode := cols.retcode, conss := conss, vars := cols.vars, errors := cols.errors
    pricerActive := decide (cols.retcode = SCIP_RETCODE.SCIP_OKAY) }

/-- Array `gamma` filled by `pricerRedcostOAAR`, where `dual id` is the dual value of the
constraint `conss[id]`: `gamma[i]` is read from `conss[i]`. -/
def pricerGamma (pd : SCIP_PricerData) (dual : Nat → ℚ) : List ℚ :=
  (List.range pd.nFlows).map fun i => dual i

/-- Array `alpha` filled by `pricerRedcostOAAR`: `alpha[i]` is read from
`conss[i + nFlows]`. -/
def pricerAlpha (pd : SCIP_PricerData) (dual : Nat → ℚ) : List ℚ :=
  (List.range pd.nElecLinks).map fun i => dual (i + pd.nFlows)

/-- Array `beta` filled by `pricerRedcostOAAR`: `beta[i*nWaveLength + j]` is read from
`conss[i*nWaveLength + j + nFlows + nElecLinks]`. -/
def pricerBeta (pd : SCIP_PricerData) (dual : Nat → ℚ) : List ℚ :=
  (List.range pd.nOpticalLinks).flatMap fun i =>
    (List.range pd.nWaveLength).map fun j =>
      dual (i * pd.nWaveLength + j + pd.nFlows + pd.nElecLinks)

/-! ## Rows of the master problem under a weight vector -/

/-- Coefficient of a column in the master row `id`. -/
def MasterVar.coef (v : MasterVar) (id : Nat) : Int :=
  ((v.coefs.filter fun p => p.1 = id).map Prod.snd).sum

/-- Activity of the master row `id` when the column at position `p` has weight `w p`. -/
def rowActivity (vars : List MasterVar) (w : Nat → ℚ) (id : Nat) : ℚ :=
  ((List.range vars.length).map fun p => ((vars.getD p default).coef id : ℚ) * w p).sum

/-- A row activity satisfies the constraint: equal to one for set partitioning, at most
the capacity for a knapsack, at most one for set packing. -/
def MasterCons.holds (c : MasterCons) (a : ℚ) : Bool :=
  match c with
  | MasterCons.setpart => decide (a = 1)
  | MasterCons.knapsack capacity => decide (a ≤ (capacity : ℚ))
  | MasterCons.setpack => decide (a ≤ 1)

/-- Every constraint of the array is satisfied by the weights `w`. -/
def masterFeasible (conss : List (Option MasterCons)) (vars : List MasterVar) (w : Nat → ℚ) :
    Bool :=
  (List.range conss.length).all fun id =>
    match conss.getD id none with
    | none => true
    | some c => c.holds (rowActivity vars w id)

/-- How a column of the master problem came about: the initial column of flow `i`, built
over the buffer content `buffer`, or a column generated by the pricer for flow `k` from
the accepted assignment `sol`. -/
inductive ColumnOrigin where
  | initial (i : Nat) (buffer : List Int)
  | generated (k seq : Nat) (sol : Sol)

instance : Inhabited ColumnOrigin := ⟨ColumnOrigin.initial 0 []⟩

/-- The master variable of a column. -/
def ColumnOrigin.var (pd : SCIP_PricerData) : ColumnOrigin → MasterVar
  | ColumnOrigin.initial i buffer => createInitialColumn pd i buffer
  | ColumnOrigin.generated k seq sol => newColumn pd k seq sol

/-- The flow a column belongs to. -/
def ColumnOrigin.flow : ColumnOrigin → Nat
  | ColumnOrigin.initial i _ => i
  | ColumnOrigin.generated k _ _ => k

/-- The column uses link `l`: the initial column of flow `i` uses the artificial link
`nLinks - nFlows + i`, a generated column the links its assignment chooses. -/
def ColumnOrigin.usesLink (pd : SCIP_PricerData) (o : ColumnOrigin) (l : Nat) : Prop :=
  match o with
  | ColumnOrigin.initial i _ => l = pd.nLinks - pd.nFlows + i
  | ColumnOrigin.generated _ _ sol => sol l > 1 / 2

instance (pd : SCIP_PricerData) (o : ColumnOrigin) (l : Nat) : Decidable (o.usesLink pd l) := by
  cases o <;> unfold ColumnOrigin.usesLink <;> infer_instance

/-- Bandwidth that the columns using link `l` carry under the weights `w`. -/
def linkLoad (pd : SCIP_PricerData) (cols : List ColumnOrigin) (w : Nat → ℚ) (l : Nat) : ℚ :=
  ((List.range cols.length).map fun p =>
    if (cols.getD p default).usesLink pd l then
      ((pd.flow (cols.getD p default).flow).BandWidth : ℚ) * w p
    else 0).sum

/-! ## Example data for the reader and the master problem -/

/-- Link blocks of a file with one electronic link of capacity 7 from node 0 to node 1. -/
def exampleRecords : List LinkRecord :=
  [{ Capacity := 7, PropDelay := 0, BandCost := 1, IsOptical := 0, Head := 0, Tail := 1 }]

/-- Flow lines of the file: bandwidth 400 from node 0 to node 1 and bandwidth 300 back. -/
def exampleFlows : List OAARFlow :=
  [{ Source := 0, Destination := 1, Priority := 1, BandWidth := 400, DelayPrice := 200,
     JitterPrice := 500 },
   { Source := 1, Destination := 0, Priority := 1, BandWidth := 300, DelayPrice := 200,
     JitterPrice := 500 }]

/-- Content of a freshly allocated link array of `n` entries: every entry as some earlier
use of the memory left it, here with `TransDelay = 77`. -/
def exampleMem (n : Nat) : List OAARLink :=
  List.replicate n { Capacity := 99, PropDelay := 9, TransDelay := 77, BandCost := 9,
                     IsOptical := 5, Head := 8, Tail := 8 }

/-- What the reader hands over for the example file, with one wavelength of band 10 and
`MAX_PROPDELAY = MAX_BANDCOST = 1000`. -/
def exampleRead : SCIP_PricerData × Nat :=
  readerReadOAAR [default, default] (exampleMem 3) exampleRecords exampleFlows 2 0 1 0 2 1 10
    1000 1000

/-- The network `priorityNet` with an artificial link of capacity 5 for its flow of
bandwidth 10. -/
def mismatchNet : SCIP_PricerData :=
  { priorityNet with
    Links := [{ Capacity := 100, PropDelay := 1, TransDelay := 0, BandCost := 1, IsOptical := 0,
                Head := 0, Tail := 1 },
              { Capacity := 5, PropDelay := 1000, TransDelay := 0, BandCost := 1000,
                IsOptical := 0, Head := 0, Tail := 1 }] }

/-- Two flows of bandwidth 600 from node 0 to node 1, the electronic link 0 of capacity
1000 between these nodes and the two artificial links 1 and 2. -/
def bandwidthNet : SCIP_PricerData :=
  { Nodes := [default, default]
    Links := [{ Capacity := 1000, PropDelay := 1, TransDelay := 12, BandCost := 1, IsOptical := 0,
                Head := 0, Tail := 1 },
              { Capacity := 600, PropDelay := 1000, TransDelay := 0, BandCost := 1000,
                IsOptical := 0, Head := 0, Tail := 1 },
              { Capacity := 600, PropDelay := 1000, TransDelay := 0, BandCost := 1000,
                IsOptical := 0, Head := 0, Tail := 1 }]
    Flows := [{ Source := 0, Destination := 1, Priority := 1, BandWidth := 600, DelayPrice := 1,
                JitterPrice := 1 },
              { Source := 0, Destination := 1, Priority := 1, BandWidth := 600, DelayPrice := 1,
                JitterPrice := 1 }]
    nNodes := 2, nOpticalNodes := 0, nLinks := 3, nOpticalLinks := 0, nFlows := 2
    nWaveLength := 1, WaveLengthBand := 1 }

/-- Two generated columns over `bandwidthNet`, one per flow, each using link 0. -/
def bandwidthCols : List ColumnOrigin :=
  [ColumnOrigin.generated 0 1 solLink0, ColumnOrigin.generated 1 1 solLink0]

/-- Weight one for the column at position 0 and weight zero for the others. -/
def firstOnly : Nat → ℚ := fun p => if p = 0 then 1 else 0

/-- The assignment with `x_1 = 0` and every other variable equal to one: link 0 is chosen
on every wavelength. -/
def solOptical : Sol := fun idx => if idx = 1 then 0 else 1

/-- The assignment with `x_1 = 1` and every other variable equal to zero: only the
artificial link 1 is chosen. -/
def solFallback : Sol := fun idx => if idx = 1 then 1 else 0

/-! ## Debug check, activation and deactivation of a branching constraint -/

/-- Function `consdataCheck` (compiled when `NDEBUG` is not defined): the loop over all
columns. A column whose local lower bound is below one half is skipped; the function
returns `FALSE` at the first remaining column for which `sscanf` leaves `index1` in `tempI`
and whose incidence entry `index2` is one under the type `ZERO`, and `TRUE` when the loop
ends. `tempI` is a local of the function that is not initialised: it enters the loop with
the content given as argument and keeps, for a name the pattern does not match, the content
left by the column examined before. -/
def consdataCheck : List MasterVar → SCIP_ConsData → Int → Bool
  | [], _, _ => true
  | var :: rest, consdata, tempI =>
    if var.lb < 1 / 2 then consdataCheck rest consdata tempI
    else if sscanfLambda var tempI = (consdata.index1 : Int) ∧
        (consdata.type = CONSTYPE.ZERO ∧ var.bit consdata.index2 = 1) then false
    else consdataCheck rest consdata (sscanfLambda var tempI)

/-- Content of the local `tempI` of `consdataCheck` after the columns `pre` have been
passed without a return: a column with lower bound below one half is skipped before its
name is read. -/
def tempAfter (pre : List MasterVar) (tempI : Int) : Int :=
  pre.foldl (fun t w => if w.lb < 1 / 2 then t else sscanfLambda w t) tempI

/-- Callback `consDeactiveZeroone`: the number of propagated columns is set to the current
number of columns. -/
def consDeactiveZeroone (consdata : SCIP_ConsData) (nvars : Nat) : SCIP_ConsData :=
  { consdata with npropagatedvars := nvars }

/-- The states `(pool, constraint data)` a zeroone constraint goes through: it is created
over some pool; a column is added to the pool; local bounds of the columns change; the
handler propagates a list of constraints in which this one stands behind `before` and in
front of `after`; the constraint is activated; the constraint is deactivated. -/
inductive ConsReachable : List MasterVar → SCIP_ConsData → Prop
  | create (vars : List MasterVar) (index1 index2 : Nat) (type : CONSTYPE) :
      ConsReachable vars (consdataCreate index1 index2 type)
  | addVar (vars : List MasterVar) (cd : SCIP_ConsData) (var : MasterVar)
      (h : ConsReachable vars cd) : ConsReachable (vars ++ [var]) cd
  | chgBounds (vars vars' : List MasterVar) (cd : SCIP_ConsData) (h : ConsReachable vars cd)
      (hlen : vars'.length = vars.length) : ConsReachable vars' cd
  | propagate (vars : List MasterVar) (cd : SCIP_ConsData) (before after : List SCIP_ConsData)
      (uninit : Nat → Nat → Int) (h : ConsReachable vars cd) :
      ConsReachable (consPropZeroone (before ++ cd :: after) vars uninit).1
        ((consPropZeroone (before ++ cd :: after) vars uninit).2.1.getD before.length cd)
  | activate (vars : List MasterVar) (cd : SCIP_ConsData) (h : ConsReachable vars cd) :
      ConsReachable vars (consActiveZeroone cd vars.length)
  | deactivate (vars : List MasterVar) (cd : SCIP_ConsData) (h : ConsReachable vars cd) :
      ConsReachable vars (consDeactiveZeroone cd vars.length)

/-! ## The result of one pricing call (`pricerRedcostOAAR`) -/

/-- Solving status `SCIP_STATUS` of a subproblem. -/
inductive SCIP_STATUS where
  | UNKNOWN
  | USERINTERRUPT
  | NODELIMIT
  | TOTALNODELIMIT
  | STALLNODELIMIT
  | TIMELIMIT
  | MEMLIMIT
  | GAPLIMIT
  | SOLLIMIT
  | BESTSOLLIMIT
  | RESTARTLIMIT
  | OPTIMAL
  | INFEASIBLE
  | UNBOUNDED
  | INFORUNBD
deriving DecidableEq, Repr, Inhabited

/-- What `SCIPsolve` leaves for the subproblem of one flow: the status and the solutions
`sols`, best first. -/
structure SubOutcome where
  status : SCIP_STATUS
  sols : List Sol
deriving Inhabited

/-- The loop over the flows in `pricerRedcostOAAR`: the result starts as `SCIP_DIDNOTRUN`
and is set to `SCIP_SUCCESS` after a flow for which a column was added (`addvar`) or whose
subproblem ended with status `OPTIMAL`. `outcomes k` is what the solver returns for flow
`k`, `nFlowSol k` the number of columns flow `k` had before. The second component lists the
columns added. -/
def pricerRedcostOAAR (pd : SCIP_PricerData) (conshdlr : List ZerooneCons)
    (alpha beta gamma : Nat → ℚ) (outcomes : Nat → SubOutcome) (nFlowSol : Nat → Nat) :
    SCIP_RESULT × List MasterVar :=
  (List.range pd.nFlows).foldl
    (fun acc k =>
      let cols := pricerRedcostFlow pd conshdlr k alpha beta gamma (outcomes k).sols (nFlowSol k)
      let addvar := !cols.isEmpty
      (if addvar = true ∨ (outcomes k).status = SCIP_STATUS.OPTIMAL then SCIP_RESULT.SUCCESS
       else acc.1,
       acc.2 ++ cols))
    (SCIP_RESULT.DIDNOTRUN, [])

/-- The columns behind `sharedArcsCands`: the initial column of flow 0 and two columns
that share links 0 and 1 and differ on link 2. -/
def sharedArcsPool : List MasterVar :=
  [freshColumn 0 0 [0, 0, 0, 1], freshColumn 0 1 [1, 1, 1, 0], freshColumn 0 2 [1, 1, 0, 0]]

/-- The LP weights behind `sharedArcsCands`: zero for the initial column and one half for
each of the other two. -/
def sharedArcsWeights : List ℚ := [0, 1 / 2, 1 / 2]

/-- Outcomes of the subproblems of two flows: flow 0 is solved to optimality with the
assignment `solLink0`, every other flow stops on the time limit without a solution. -/
def limitOutcomes : Nat → SubOutcome := fun k =>
  if k = 0 then { status := SCIP_STATUS.OPTIMAL, sols := [solLink0] }
  else { status := SCIP_STATUS.TIMELIMIT, sols := [] }

/-- Number of wavelength slots `j` of optical link `i` that an assignment selects
(`y_ij > 1/2`). -/
def slotCount (pd : SCIP_PricerData) (sol : Sol) (i : Nat) : Nat :=
  ((List.range pd.nWaveLength).filter fun j => decide (sol (yIdx pd i j) > 1 / 2)).length

/-- The assignment in scenario A that chooses the artificial link 1 and the wavelength
variable of slot 0 of link 0 (index 2), but neither link 0 nor the bridging variable. -/
def solIdleSlot : Sol := fun idx => if idx = 1 ∨ idx = 2 then 1 else 0

/-! ## Paths and degree counts of the selected links -/

/-- Number of links with `x_i = 1` that leave node `v` (`Head = v`). -/
def leavingCount (pd : SCIP_PricerData) (sol : Sol) (v : Nat) : Nat :=
  ((List.range pd.nLinks).filter fun i => decide (sol i = 1 ∧ (pd.link i).Head = v)).length

/-- Number of links with `x_i = 1` that enter node `v` (`Tail = v`). -/
def enteringCount (pd : SCIP_PricerData) (sol : Sol) (v : Nat) : Nat :=
  ((List.range pd.nLinks).filter fun i => decide (sol i = 1 ∧ (pd.link i).Tail = v)).length

/-- Number of links with `x_i = 1` that both leave and enter node `v`. -/
def selfLoopCount (pd : SCIP_PricerData) (sol : Sol) (v : Nat) : Nat :=
  ((List.range pd.nLinks).filter fun i =>
    decide (sol i = 1 ∧ (pd.link i).Head = v ∧ (pd.link i).Tail = v)).length

/-- Whether the list of link indices is a directed path from node `a` to node `b` made of
links with `x_i = 1`, each followed from its `Head` to its `Tail`. -/
def isPath (pd : SCIP_PricerData) (sol : Sol) : Nat → List Nat → Nat → Bool
  | a, [], b => decide (a = b)
  | a, i :: rest, b =>
    decide (i < pd.nLinks) && decide (sol i = 1) && decide ((pd.link i).Head = a)
      && isPath pd sol (pd.link i).Tail rest b

/-- A node without delays, used by the examples below. -/
def plainNode : OAARNode :=
  { ProcDelay := 0, QueueDelay := 0, Jitter := 0, IsOptical := 0, ConnLinks := [] }

/-- An electronic link of capacity 100 from `head` to `tail`. -/
def plainLink (head tail : Nat) : OAARLink :=
  { Capacity := 100, PropDelay := 1, TransDelay := 0, BandCost := 1, IsOptical := 0,
    Head := head, Tail := tail }

/-- Three nodes, one flow from node 0 to node 1, the electronic links `0 -> 2`, `2 -> 2`,
`1 -> 1` and the artificial link 3 of the flow. -/
def selfLoopNet : SCIP_PricerData :=
  { Nodes := [plainNode, plainNode, plainNode]
    Links := [plainLink 0 2, plainLink 2 2, plainLink 1 1, plainLink 0 1]
    Flows := [{ Source := 0, Destination := 1, Priority := 1, BandWidth := 10, DelayPrice := 1,
                JitterPrice := 1 }]
    nNodes := 3, nOpticalNodes := 0, nLinks := 4, nOpticalLinks := 0, nFlows := 1
    nWaveLength := 1, WaveLengthBand := 1 }

/-- The assignment that chooses links 0, 1 and 2 of `selfLoopNet` and not the artificial
link. -/
def solSelfLoop : Sol := fun i => if i < 3 then 1 else 0

/-- Four nodes, one flow from node 0 to node 1, the electronic links `0 -> 2`, `2 -> 0`,
`1 -> 3`, `3 -> 1` (two links laid in both directions) and the artificial link 4 of the
flow. -/
def twoCyclesNet : SCIP_PricerData :=
  { Nodes := [plainNode, plainNode, plainNode, plainNode]
    Links := [plainLink 0 2, plainLink 2 0, plainLink 1 3, plainLink 3 1, plainLink 0 1]
    Flows := [{ Source := 0, Destination := 1, Priority := 1, BandWidth := 10, DelayPrice := 1,
                JitterPrice := 1 }]
    nNodes := 4, nOpticalNodes := 0, nLinks := 5, nOpticalLinks := 0, nFlows := 1
    nWaveLength := 1, WaveLengthBand := 1 }

/-- The assignment that chooses the four links of the two cycles of `twoCyclesNet` and not
the artificial link. -/
def solTwoCycles : Sol := fun i => if i < 4 then 1 else 0

/-- Three nodes in a row, one flow from node 0 to node 1 through node 2: the electronic
links `0 -> 2`, `2 -> 1` and the artificial link 2 of the flow. -/
def relayNet : SCIP_PricerData :=
  { Nodes := [plainNode, plainNode, plainNode]
    Links := [plainLink 0 2, plainLink 2 1, plainLink 0 1]
    Flows := [{ Source := 0, Destination := 1, Priority := 1, BandWidth := 10, DelayPrice := 1,
                JitterPrice := 1 }]
    nNodes := 3, nOpticalNodes := 0, nLinks := 3, nOpticalLinks := 0, nFlows := 1
    nWaveLength := 1, WaveLengthBand := 1 }

/-- The assignment that chooses links 0 and 1 of `relayNet` and not the artificial link. -/
def solRelay : Sol := fun i => if i < 2 then 1 else 0

/-! ## Pools at solving time -/

/-- The initial column of flow 0 over two links and the artificial link 2 as it stands
during solving: transformed by `probtransOAAR` and hence named `t_lambda_0_0`. -/
def initialColumn : MasterVar := { freshColumn 0 0 [0, 0, 1] with transformed := true }

/-- The pool of one flow over two links and its artificial link 2 during solving: the
transformed initial column and two columns of the pricer, one over each link. -/
def solvingPool : List MasterVar :=
  SCIPtransformVars [freshColumn 0 0 [0, 0, 1]]
    ++ [freshColumn 0 1 [1, 0, 0], freshColumn 0 2 [0, 1, 0]]

/-- A pool during solving in which the local lower bound of the transformed initial column
is one. -/
def forcedInitialPool : List MasterVar :=
  [{ initialColumn with lb := 1 }, freshColumn 0 1 [1, 0, 0]]

/-- A pool during solving whose two columns of the pricer share link 0, the second one
using link 1 as well. -/
def nearOnePool : List MasterVar :=
  SCIPtransformVars [freshColumn 0 0 [0, 0, 1]]
    ++ [freshColumn 0 1 [1, 0, 0], freshColumn 0 2 [1, 1, 0]]

/-- LP weights for `nearOnePool`: zero for the initial column, and for the two columns of
the pricer two weights that sum to one, the smaller one a little above `1e-6`. -/
def nearOneWeights : List ℚ := [0, 1999997 / 1999999, 2 / 1999999]

/-- LP weights for `solvingPool`: zero for the initial column, and for the two columns of
the pricer two weights that sum to one, the smaller one `5e-7`. -/
def splitWeights : List ℚ := [0, 1999999 / 2000000, 1 / 2000000]

/-! # Properties -/

set_option linter.unnecessarySeqFocus false

/-! ## The solution loop of the pricer -/

theorem solLoop_sublist (sub : SubScip) (g : ℚ) (l : List (Nat × Sol)) :
    (solLoop sub g l).Sublist l := by
  induction l with
  | nil => simp [solLoop]
  | cons p rest ih =>
    unfold solLoop
    split_ifs
    · exact ih.cons p
    · exact ih.cons₂ p
    · exact List.nil_sublist _

theorem solLoop_accepts (sub : SubScip) (g : ℚ) (l : List (Nat × Sol)) :
    ∀ p ∈ solLoop sub g l, SCIPcheckSolOrig sub p.2 = true ∧ SCIPgetSolOrigObj sub p.2 > -g := by
  induction l with
  | nil => simp [solLoop]
  | cons q rest ih =>
    intro p hp
    unfold solLoop at hp
    split_ifs at hp with h1 h2
    · exact ih p hp
    · rcases List.mem_cons.1 hp with rfl | hp
      · exact ⟨by simpa using h1, h2⟩
      · exact ih p hp
    · simp at hp

theorem solLoop_stops (sub : SubScip) (g : ℚ) (l : List (Nat × Sol))
    (hl : l.Pairwise fun a b => a.1 < b.1) (q : Nat × Sol) (hq : q ∈ l)
    (hfeas : SCIPcheckSolOrig sub q.2 = true) (hnp : ¬ SCIPgetSolOrigObj sub q.2 > -g) :
    ∀ p ∈ solLoop sub g l, p.1 < q.1 := by
  induction l with
  | nil => simp at hq
  | cons a rest ih =>
    intro p hp
    rw [List.pairwise_cons] at hl
    unfold solLoop at hp
    rcases List.mem_cons.1 hq with rfl | hq'
    · simp [hfeas, hnp] at hp
    · split_ifs at hp with h1 h2
      · exact ih hl.2 hq' p hp
      · rcases List.mem_cons.1 hp with rfl | hp
        · exact hl.1 q hq'
        · exact ih hl.2 hq' p hp
      · simp at hp

theorem enumFrom_pairwise_lt {α : Type} (l : List α) (n : Nat) :
    (l.enumFrom n).Pairwise fun a b => a.1 < b.1 := by
  induction l generalizing n with
  | nil => simp
  | cons a rest ih =>
    simp only [List.enumFrom_cons, List.pairwise_cons]
    refine ⟨?_, ih (n + 1)⟩
    intro p hp
    have := List.mem_enumFrom (x := p.2) (i := p.1) hp
    omega

theorem solLoop_complete (sub : SubScip) (g : ℚ) (l : List (Nat × Sol))
    (hl : l.Pairwise fun a b => a.1 < b.1) (p : Nat × Sol) (hp : p ∈ l)
    (hfeas : SCIPcheckSolOrig sub p.2 = true) (hprof : SCIPgetSolOrigObj sub p.2 > -g)
    (hbefore : ∀ q ∈ l, q.1 < p.1 → SCIPcheckSolOrig sub q.2 = true →
      SCIPgetSolOrigObj sub q.2 > -g) :
    p ∈ solLoop sub g l := by
  induction l with
  | nil => simp at hp
  | cons a rest ih =>
    rw [List.pairwise_cons] at hl
    unfold solLoop
    rcases List.mem_cons.1 hp with rfl | hp'
    · simp [hfeas, hprof]
    · have hlt : a.1 < p.1 := hl.1 p hp'
      have hrec := ih hl.2 hp' fun q hq => hbefore q (List.mem_cons_of_mem _ hq)
      by_cases ha : SCIPcheckSolOrig sub a.2 = true
      · have := hbefore a (List.mem_cons_self _ _) hlt ha
        simp only [ha, Bool.not_true, Bool.false_eq_true, if_false, this, if_true]
        exact List.mem_cons_of_mem _ hrec
      · simp only [ha, Bool.not_false, if_true]
        simpa using hrec

theorem acceptedSols_rank (pd : SCIP_PricerData) (conshdlr : List ZerooneCons) (k : Nat)
    (alpha beta gamma : Nat → ℚ) (sols : List Sol) :
    ∀ p ∈ acceptedSols pd conshdlr k alpha beta gamma sols, p.1 < 3 ∧ sols[p.1]? = some p.2 := by
  intro p hp
  have hmem : p ∈ (sols.take 3).enum := (solLoop_sublist _ _ _).subset hp
  have h1 := List.fst_lt_of_mem_enum hmem
  have h2 := List.mem_enum_iff_getElem?.1 hmem
  have h3 : p.1 < 3 := by
    have := List.length_take_le 3 sols
    omega
  refine ⟨h3, ?_⟩
  rw [List.getElem?_take] at h2
  simpa [h3] using h2

/-- Claim C10: one pricing call adds at most three columns for a flow, namely one column
per accepted solution, in their order; every accepted solution has rank below three, is
feasible on the re-check and has objective above `-gamma[k]`; a solution failing the
re-check gives no column; and every accepted solution ranks before any feasible solution
that is not profitable; conversely a feasible profitable solution of rank below three is
accepted when every feasible solution ranked before it is profitable. -/
theorem pricer_adds_at_most_three (pd : SCIP_PricerData) (conshdlr : List ZerooneCons) (k : Nat)
    (alpha beta gamma : Nat → ℚ) (sols : List Sol) (nFlowSol : Nat) :
    (pricerRedcostFlow pd conshdlr k alpha beta gamma sols nFlowSol).length ≤ 3 ∧
    (pricerRedcostFlow pd conshdlr k alpha beta gamma sols nFlowSol
      = (acceptedSols pd conshdlr k alpha beta gamma sols).enum.map fun p =>
          newColumn pd k (nFlowSol + p.1) p.2.2) ∧
    (∀ p ∈ acceptedSols pd conshdlr k alpha beta gamma sols,
      p.1 < 3 ∧ sols[p.1]? = some p.2 ∧
      SCIPcheckSolOrig (initPricing pd conshdlr k alpha beta) p.2 = true ∧
      SCIPgetSolOrigObj (initPricing pd conshdlr k alpha beta) p.2 > -(gamma k)) ∧
    (∀ s sol, sols[s]? = some sol →
      SCIPcheckSolOrig (initPricing pd conshdlr k alpha beta) sol = false →
      ∀ p ∈ acceptedSols pd conshdlr k alpha beta gamma sols, p.1 ≠ s) ∧
    (∀ s sol, sols[s]? = some sol →
      SCIPcheckSolOrig (initPricing pd conshdlr k alpha beta) sol = true →
      ¬ SCIPgetSolOrigObj (initPricing pd conshdlr k alpha beta) sol > -(gamma k) →
      ∀ p ∈ acceptedSols pd conshdlr k alpha beta gamma sols, p.1 < s) ∧
    (∀ s sol, s < 3 → sols[s]? = some sol →
      SCIPcheckSolOrig (initPricing pd conshdlr k alpha beta) sol = true →
      SCIPgetSolOrigObj (initPricing pd conshdlr k alpha beta) sol > -(gamma k) →
      (∀ t q, t < s → sols[t]? = some q →
        SCIPcheckSolOrig (initPricing pd conshdlr k alpha beta) q = true →
        SCIPgetSolOrigObj (initPricing pd conshdlr k alpha beta) q > -(gamma k)) →
      (s, sol) ∈ acceptedSols pd conshdlr k alpha beta gamma sols) := by
  have hsub : (acceptedSols pd conshdlr k alpha beta gamma sols).Sublist (sols.take 3).enum :=
    solLoop_sublist _ _ _
  have hlen : (acceptedSols pd conshdlr k alpha beta gamma sols).length ≤ 3 := by
    have h1 := hsub.length_le
    have h2 := List.length_take_le 3 sols
    rw [List.enum_length] at h1
    omega
  refine ⟨?_, ?_, ?_, ?_, ?_, ?_⟩
  · simpa [pricerRedcostFlow] using hlen
  · rfl
  · intro p hp
    have h1 := acceptedSols_rank pd conshdlr k alpha beta gamma sols p hp
    have h2 := solLoop_accepts _ _ _ p hp
    exact ⟨h1.1, h1.2, h2.1, h2.2⟩
  · intro s sol hs hinf p hp hps
    have h1 := acceptedSols_rank pd conshdlr k alpha beta gamma sols p hp
    have h2 := solLoop_accepts _ _ _ p hp
    rw [hps, hs] at h1
    have : sol = p.2 := by simpa using h1.2
    rw [this, h2.1] at hinf
    exact absurd hinf (by simp)
  · intro s sol hs hfeas hnp p hp
    by_cases h3 : s < 3
    · have hq : (s, sol) ∈ (sols.take 3).enum := by
        rw [List.mk_mem_enum_iff_getElem?, List.getElem?_take]
        simpa [h3] using hs
      exact solLoop_stops _ _ _ (enumFrom_pairwise_lt _ 0) (s, sol) hq hfeas hnp p hp
    · have h1 := acceptedSols_rank pd conshdlr k alpha beta gamma sols p hp
      omega
  · intro s sol hs3 hs hfeas hprof hbefore
    have hq : (s, sol) ∈ (sols.take 3).enum := by
      rw [List.mk_mem_enum_iff_getElem?, List.getElem?_take]
      simpa [hs3] using hs
    refine solLoop_complete _ _ _ (enumFrom_pairwise_lt _ 0) (s, sol) hq hfeas hprof ?_
    intro q hqm hlt hqf
    have h2 := List.mem_enum_iff_getElem?.1 hqm
    rw [List.getElem?_take] at h2
    have h3 : q.1 < 3 := by
      have : q.1 < s := hlt
      omega
    exact hbefore q.1 q.2 hlt (by simpa [h3] using h2) hqf

/-! ## Objective coefficient of a new column -/

theorem sumLinks_foldl (pd : SCIP_PricerData) (sol : Sol) (l : List Nat) (acc : ℚ × ℚ × ℚ) :
    l.foldl
      (fun acc i =>
        if sol i > 1 / 2 then
          let tempNode := pd.node (pd.link i).Head
          let tempLink := pd.link i
          (acc.1 + (tempNode.ProcDelay + tempNode.QueueDelay + tempLink.PropDelay
              + tempLink.TransDelay),
            acc.2.1 + tempNode.Jitter,
            acc.2.2 + tempLink.BandCost)
        else acc)
      acc
    = (acc.1 + (((l.filter fun i => decide (sol i > 1 / 2)).map fun i =>
          (pd.node (pd.link i).Head).ProcDelay + (pd.node (pd.link i).Head).QueueDelay
            + (pd.link i).PropDelay + (pd.link i).TransDelay).sum),
       acc.2.1 + (((l.filter fun i => decide (sol i > 1 / 2)).map fun i =>
          (pd.node (pd.link i).Head).Jitter).sum),
       acc.2.2 + (((l.filter fun i => decide (sol i > 1 / 2)).map fun i =>
          (pd.link i).BandCost).sum)) := by
  induction l generalizing acc with
  | nil => simp
  | cons a rest ih =>
    rw [List.foldl_cons]
    by_cases h : sol a > 1 / 2
    · rw [if_pos h, ih, List.filter_cons_of_pos (by simpa using h)]
      simp only [List.map_cons, List.sum_cons]
      refine Prod.ext ?_ (Prod.ext ?_ ?_) <;> simp only [] <;> ring
    · rw [if_neg h, ih, List.filter_cons_of_neg (by simpa using h)]

theorem sumLinks_eq (pd : SCIP_PricerData) (sol : Sol) :
    sumLinks pd sol = (sumDelays pd sol, sumJitters pd sol, sumBandCosts pd sol) := by
  unfold sumLinks sumDelays sumJitters sumBandCosts chosenLinks
  rw [sumLinks_foldl]
  simp

theorem added_column_of_accepted (pd : SCIP_PricerData) (conshdlr : List ZerooneCons) (k : Nat)
    (alpha beta gamma : Nat → ℚ) (sols : List Sol) (nFlowSol n : Nat) (p : Nat × Sol)
    (h : (acceptedSols pd conshdlr k alpha beta gamma sols)[n]? = some p) :
    (pricerRedcostFlow pd conshdlr k alpha beta gamma sols nFlowSol)[n]?
      = some (newColumn pd k (nFlowSol + n) p.2) := by
  unfold pricerRedcostFlow
  rw [List.getElem?_map, List.getElem?_enum, h]
  rfl

theorem added_length (pd : SCIP_PricerData) (conshdlr : List ZerooneCons) (k : Nat)
    (alpha beta gamma : Nat → ℚ) (sols : List Sol) (nFlowSol : Nat) :
    (pricerRedcostFlow pd conshdlr k alpha beta gamma sols nFlowSol).length
      = (acceptedSols pd conshdlr k alpha beta gamma sols).length := by
  simp [pricerRedcostFlow]

/-- Claim C9: the columns added for flow `k` are, in order, the columns built from the
accepted assignments; the column `lambda_k_<nFlowSol + n>` built from the `n`-th accepted
assignment has the objective coefficient
`Priority * (DelayPrice * D + JitterPrice * J + BandWidth * B)` with `D`, `J`, `B` the sums
over the links chosen by that assignment, an expression in which no dual value occurs; in
scenario A with only the optical link chosen it is
`1 * (200 * (procDelay + queueDelay + 0 + 0) + 500 * jitter + 400 * 1)`. -/
theorem column_cost (pd : SCIP_PricerData) (conshdlr : List ZerooneCons) (k : Nat)
    (alpha beta gamma : Nat → ℚ) (sols : List Sol) (nFlowSol : Nat) :
    (pricerRedcostFlow pd conshdlr k alpha beta gamma sols nFlowSol).length
      = (acceptedSols pd conshdlr k alpha beta gamma sols).length ∧
    (∀ (n s : Nat) (sol : Sol),
      (acceptedSols pd conshdlr k alpha beta gamma sols)[n]? = some (s, sol) →
      ∃ col, (pricerRedcostFlow pd conshdlr k alpha beta gamma sols nFlowSol)[n]? = some col ∧
        col.flow = k ∧ col.seq = nFlowSol + n ∧
        col.obj = (pd.flow k).Priority *
          ((pd.flow k).DelayPrice * sumDelays pd sol + (pd.flow k).JitterPrice * sumJitters pd sol
            + ((pd.flow k).BandWidth : ℚ) * sumBandCosts pd sol)) ∧
    (∀ (node0 node1 : OAARNode) (fallback : OAARLink) (nOpticalNodes nWaveLength : Nat)
      (WaveLengthBand : ℚ) (sol : Sol), sol 0 > 1 / 2 → ¬ sol 1 > 1 / 2 →
      columnObj (scenarioA node0 node1 fallback nOpticalNodes nWaveLength WaveLengthBand) 0 sol
        = 1 * (200 * (node0.ProcDelay + node0.QueueDelay + 0 + 0) + 500 * node0.Jitter
            + 400 * 1)) := by
  refine ⟨added_length pd conshdlr k alpha beta gamma sols nFlowSol, ?_, ?_⟩
  · intro n s sol h
    refine ⟨_, added_column_of_accepted pd conshdlr k alpha beta gamma sols nFlowSol n _ h,
      rfl, rfl, ?_⟩
    simp [newColumn, columnObj, sumLinks_eq]
  · intro node0 node1 fallback nOpticalNodes nWaveLength WaveLengthBand sol h0 h1
    have hch : chosenLinks (scenarioA node0 node1 fallback nOpticalNodes nWaveLength
        WaveLengthBand) sol = [0] := by
      have e : (scenarioA node0 node1 fallback nOpticalNodes nWaveLength WaveLengthBand).nLinks
          = 2 := rfl
      unfold chosenLinks
      rw [e]
      have r2 : List.range 2 = [0, 1] := rfl
      rw [r2, List.filter_cons_of_pos (by simpa using h0),
        List.filter_cons_of_neg (by simpa using h1)]
      rfl
    simp [columnObj, sumLinks_eq, sumDelays, sumJitters, sumBandCosts, hch]
    simp [scenarioA, SCIP_PricerData.node, SCIP_PricerData.link, SCIP_PricerData.flow]

/-! ## Membership list of a new column -/

theorem buildConsids_sorted (pd : SCIP_PricerData) (k : Nat) (sol : Sol) (hk : k < pd.nFlows) :
    (buildConsids pd k sol).Pairwise (· < ·) := by
  unfold buildConsids
  rw [List.append_assoc, List.pairwise_append]
  refine ⟨by simp, ?_, ?_⟩
  · rw [List.pairwise_append]
    refine ⟨?_, ?_, ?_⟩
    · refine List.Pairwise.filterMap _ ?_ (List.pairwise_lt_range pd.nElecLinks)
      intro a a' haa b hb b' hb'
      split_ifs at hb hb' <;> simp at hb hb'
      omega
    · rw [List.pairwise_flatMap]
      refine ⟨?_, ?_⟩
      · intro i _
        refine List.Pairwise.filterMap _ ?_ (List.pairwise_lt_range pd.nWaveLength)
        intro a a' haa b hb b' hb'
        split_ifs at hb hb' <;> simp at hb hb'
        omega
      · refine List.Pairwise.imp_of_mem ?_ (List.pairwise_lt_range pd.nOpticalLinks)
        intro i i' _ _ hii x hx y hy
        simp only [List.mem_filterMap, List.mem_range] at hx hy
        obtain ⟨j, hj, hx⟩ := hx
        obtain ⟨j', _, hy⟩ := hy
        split_ifs at hx hy <;> simp at hx hy
        subst hx hy
        have : i * pd.nWaveLength + pd.nWaveLength ≤ i' * pd.nWaveLength := by
          have := Nat.mul_le_mul_right pd.nWaveLength (Nat.succ_le_of_lt hii)
          rw [Nat.succ_mul] at this
          exact this
        omega
    · intro a ha b hb
      simp only [List.mem_filterMap, List.mem_flatMap, List.mem_range] at ha hb
      obtain ⟨i, hi, ha⟩ := ha
      obtain ⟨i', _, j, _, hb⟩ := hb
      split_ifs at ha hb <;> simp at ha hb
      omega
  · intro a ha b hb
    simp only [List.mem_singleton] at ha
    simp only [List.mem_append, List.mem_filterMap, List.mem_flatMap, List.mem_range] at hb
    rcases hb with ⟨i, _, hb⟩ | ⟨i', _, j, _, hb⟩
    · split_ifs at hb <;> simp at hb
      omega
    · split_ifs at hb <;> simp at hb
      omega

theorem buildConsids_mem (pd : SCIP_PricerData) (k : Nat) (sol : Sol) (id : Nat) :
    id ∈ buildConsids pd k sol ↔
      id = k ∨
      (∃ l, pd.nOpticalLinks ≤ l ∧ l < pd.nLinks ∧ sol l > 1 / 2 ∧
        id = pd.nFlows + (l - pd.nOpticalLinks)) ∨
      (∃ i j, i < pd.nOpticalLinks ∧ j < pd.nWaveLength ∧ sol (yIdx pd i j) > 1 / 2 ∧
        id = pd.nFlows + pd.nElecLinks + i * pd.nWaveLength + j) := by
  unfold buildConsids
  simp only [List.mem_append, List.mem_singleton, List.mem_filterMap, List.mem_flatMap,
    List.mem_range, or_assoc]
  refine or_congr Iff.rfl (or_congr ?_ ?_)
  · constructor
    · rintro ⟨i, hi, h⟩
      split_ifs at h with hs <;> simp at h
      refine ⟨pd.nOpticalLinks + i, by omega, ?_, hs, ?_⟩
      · unfold SCIP_PricerData.nElecLinks at hi; omega
      · omega
    · rintro ⟨l, h1, h2, h3, h4⟩
      refine ⟨l - pd.nOpticalLinks, ?_, ?_⟩
      · unfold SCIP_PricerData.nElecLinks; omega
      · have : pd.nOpticalLinks + (l - pd.nOpticalLinks) = l := by omega
        rw [this, if_pos h3, h4]
  · constructor
    · rintro ⟨i, hi, j, hj, h⟩
      split_ifs at h with hs <;> simp at h
      exact ⟨i, j, hi, hj, hs, h.symm⟩
    · rintro ⟨i, j, hi, hj, hs, h⟩
      exact ⟨i, hi, j, hj, by rw [if_pos hs, h]⟩

/-- Claim C8: for a flow `k < nFlows` the membership list stored with a new column holds
exactly `k`, the ids `nFlows + (l - nOpticalLinks)` of the chosen electronic links and the
ids `nFlows + nElecLinks + i * nWaveLength + j` of the chosen wavelength slots, and it is
strictly increasing; the list stored with an initial column is strictly increasing too
when the artificial links follow the optical ones. -/
theorem consids_sorted (pd : SCIP_PricerData) (k seq : Nat) (sol : Sol) (hk : k < pd.nFlows) :
    (∀ id, id ∈ (newColumn pd k seq sol).vardata.consids ↔
      id = k ∨
      (∃ l, pd.nOpticalLinks ≤ l ∧ l < pd.nLinks ∧ sol l > 1 / 2 ∧
        id = pd.nFlows + (l - pd.nOpticalLinks)) ∨
      (∃ i j, i < pd.nOpticalLinks ∧ j < pd.nWaveLength ∧ sol (yIdx pd i j) > 1 / 2 ∧
        id = pd.nFlows + pd.nElecLinks + i * pd.nWaveLength + j)) ∧
    (newColumn pd k seq sol).vardata.consids.Sorted (· < ·) ∧
    (∀ (i : Nat) (buffer : List Int), i < pd.nFlows → pd.nOpticalLinks + pd.nFlows ≤ pd.nLinks →
      (createInitialColumn pd i buffer).vardata.consids.Sorted (· < ·)) := by
  have hs := buildConsids_sorted pd k sol hk
  have hle : (buildConsids pd k sol).Sorted (· ≤ ·) := List.Sorted.le_of_lt hs
  refine ⟨?_, ?_, ?_⟩
  · intro id
    simp only [newColumn, vardataCreate, List.mem_insertionSort]
    exact buildConsids_mem pd k sol id
  · simp only [newColumn, vardataCreate]
    rw [List.Sorted.insertionSort_eq hle]
    exact hs
  · intro i buffer hi hn
    have hlt : i < pd.nLinks - pd.nOpticalLinks + i := by omega
    have h2 : [i, pd.nLinks - pd.nOpticalLinks + i].Sorted (· ≤ ·) := by
      simp [List.Sorted]
    simp only [createInitialColumn, vardataCreate]
    rw [List.Sorted.insertionSort_eq h2]
    simp [List.Sorted]; omega

/-! ## One column under one branching constraint -/

theorem conflicts_ub (cd : SCIP_ConsData) (v : MasterVar) (h : conflicts cd v) : ¬ v.ub < 0 := by
  have h2 := h.2.1
  unfold MasterVar.unfixed at h2
  intro h3
  apply h2
  linarith

theorem sscanfLambda_named (v : MasterVar) (t : Int) (hname : v.transformed = false) :
    sscanfLambda v t = (v.flow : Int) := by
  unfold sscanfLambda
  rw [hname]
  rfl

theorem sscanfLambda_transformed (v : MasterVar) (t : Int) (htr : v.transformed = true) :
    sscanfLambda v t = t := by
  unfold sscanfLambda
  rw [htr]
  rfl

/-- For a column whose name has the form `lambda_<flow>_<seq>` the content of the
uninitialised local does not matter. -/
theorem checkVariable_named (cd : SCIP_ConsData) (v : MasterVar) (t t' : Int) (n : Nat)
    (c : Bool) (hname : v.transformed = false) :
    checkVariable cd v t n c = checkVariable cd v t' n c := by
  unfold checkVariable
  rw [sscanfLambda_named v t hname, sscanfLambda_named v t' hname]

/-- A column whose name has the form `t_lambda_<flow>_<seq>` is left as it is, whatever
its flow, its bounds and its incidence vector, when the uninitialised local holds a number
other than `index1`. -/
theorem checkVariable_transformed (cd : SCIP_ConsData) (v : MasterVar) (t : Int) (n : Nat)
    (c : Bool) (htr : v.transformed = true) (ht : t ≠ (cd.index1 : Int)) :
    checkVariable cd v t n c = (v, n, c) := by
  unfold checkVariable
  rw [sscanfLambda_transformed v t htr]
  by_cases hu : v.ub < 1 / 2
  · rw [if_pos hu]
  · rw [if_neg hu, if_neg ht]

theorem checkVariable_keeps_name (cd : SCIP_ConsData) (v : MasterVar) (t : Int) (n : Nat)
    (c : Bool) : (checkVariable cd v t n c).1.transformed = v.transformed := by
  have hfix : ∀ w : MasterVar, (SCIPfixVarZero w).1.transformed = w.transformed := by
    intro w
    unfold SCIPfixVarZero
    split_ifs <;> rfl
  unfold checkVariable
  dsimp only
  split_ifs <;> simp [hfix]

theorem checkVariable_fix (cd : SCIP_ConsData) (v : MasterVar) (t : Int) (n : Nat) (c : Bool)
    (hname : v.transformed = false) (h : conflicts cd v) (hlb : ¬ 0 < v.lb) :
    checkVariable cd v t n c = (v.fixedToZero, n + 1, c) := by
  have hub := conflicts_ub cd v h
  obtain ⟨hf, hu, ht⟩ := h
  unfold MasterVar.unfixed at hu
  have hs : sscanfLambda v t = (cd.index1 : Int) := by
    rw [sscanfLambda_named v t hname, hf]
  unfold checkVariable
  rw [if_neg hu, if_pos hs]
  rcases ht with ⟨ht, hb⟩ | ⟨ht, hb⟩
  · simp [ht, hb, SCIPfixVarZero, hlb, hub, MasterVar.fixedToZero]
  · simp [ht, hb, SCIPfixVarZero, hlb, hub, MasterVar.fixedToZero]

theorem checkVariable_cutoff (cd : SCIP_ConsData) (v : MasterVar) (t : Int) (n : Nat)
    (c : Bool) (hname : v.transformed = false) (h : conflicts cd v) (hlb : 0 < v.lb) :
    checkVariable cd v t n c = (v, n, true) := by
  obtain ⟨hf, hu, ht⟩ := h
  unfold MasterVar.unfixed at hu
  have hs : sscanfLambda v t = (cd.index1 : Int) := by
    rw [sscanfLambda_named v t hname, hf]
  unfold checkVariable
  rw [if_neg hu, if_pos hs]
  rcases ht with ⟨ht, hb⟩ | ⟨ht, hb⟩
  · simp [ht, hb, SCIPfixVarZero, hlb]
  · simp [ht, hb, SCIPfixVarZero, hlb]

theorem checkVariable_skip (cd : SCIP_ConsData) (v : MasterVar) (t : Int) (n : Nat) (c : Bool)
    (hname : v.transformed = false) (h : ¬ conflicts cd v) :
    checkVariable cd v t n c = (v, n, c) := by
  unfold checkVariable
  by_cases hu : v.ub < 1 / 2
  · rw [if_pos hu]
  · rw [if_neg hu]
    by_cases hs : sscanfLambda v t = (cd.index1 : Int)
    · rw [if_pos hs]
      have hf : v.flow = cd.index1 := by
        rw [sscanfLambda_named v t hname] at hs
        exact_mod_cast hs
      have h1 : ¬ (cd.type = CONSTYPE.ZERO ∧ v.bit cd.index2 = 1) := fun h' =>
        h ⟨hf, hu, Or.inl h'⟩
      have h2 : ¬ (cd.type = CONSTYPE.ONE ∧ v.bit cd.index2 = 0) := fun h' =>
        h ⟨hf, hu, Or.inr h'⟩
      simp only [if_neg h1, if_neg h2]
    · rw [if_neg hs]

theorem fixLoop_no_cutoff (cd : SCIP_ConsData) (l : List MasterVar) (u : Nat → Int) (n : Nat)
    (hname : ∀ v ∈ l, v.transformed = false)
    (h : ∀ v ∈ l, ¬ (conflicts cd v ∧ 0 < v.lb)) :
    fixLoop cd l u n = (l.map (fixIfConflict cd), n + l.countP (fun v => decide (conflicts cd v)),
      false) := by
  induction l generalizing u n with
  | nil => simp [fixLoop]
  | cons v rest ih =>
    have hv := h v (List.mem_cons_self _ _)
    have hnv := hname v (List.mem_cons_self _ _)
    have hrest : ∀ w ∈ rest, ¬ (conflicts cd w ∧ 0 < w.lb) := fun w hw =>
      h w (List.mem_cons_of_mem _ hw)
    have hnrest : ∀ w ∈ rest, w.transformed = false := fun w hw =>
      hname w (List.mem_cons_of_mem _ hw)
    unfold fixLoop
    by_cases hc : conflicts cd v
    · have hlb : ¬ 0 < v.lb := fun h' => hv ⟨hc, h'⟩
      rw [checkVariable_fix cd v (u 0) n false hnv hc hlb]
      simp only [Bool.false_eq_true, if_false]
      rw [ih _ (n + 1) hnrest hrest]
      simp [fixIfConflict, hc, List.countP_cons]
      omega
    · rw [checkVariable_skip cd v (u 0) n false hnv hc]
      simp only [Bool.false_eq_true, if_false]
      rw [ih _ n hnrest hrest]
      simp [fixIfConflict, hc, List.countP_cons]

theorem fixLoop_first_cutoff (cd : SCIP_ConsData) (pre : List MasterVar) (v : MasterVar)
    (post : List MasterVar) (u : Nat → Int) (n : Nat)
    (hname : ∀ w ∈ pre ++ v :: post, w.transformed = false)
    (hpre : ∀ w ∈ pre, ¬ (conflicts cd w ∧ 0 < w.lb)) (hv : conflicts cd v ∧ 0 < v.lb) :
    fixLoop cd (pre ++ v :: post) u n
      = (pre.map (fixIfConflict cd) ++ v :: post,
          n + pre.countP (fun w => decide (conflicts cd w)), true) := by
  induction pre generalizing u n with
  | nil =>
    simp only [List.nil_append, List.map_nil, List.countP_nil, Nat.add_zero]
    unfold fixLoop
    rw [checkVariable_cutoff cd v (u 0) n false (hname v (by simp)) hv.1 hv.2]
    simp
  | cons w rest ih =>
    have hw := hpre w (List.mem_cons_self _ _)
    have hnw := hname w (by simp)
    have hrest : ∀ x ∈ rest, ¬ (conflicts cd x ∧ 0 < x.lb) := fun x hx =>
      hpre x (List.mem_cons_of_mem _ hx)
    have hnrest : ∀ x ∈ rest ++ v :: post, x.transformed = false := fun x hx =>
      hname x (by rw [List.cons_append]; exact List.mem_cons_of_mem _ hx)
    rw [List.cons_append]
    unfold fixLoop
    by_cases hc : conflicts cd w
    · have hlb : ¬ 0 < w.lb := fun h' => hw ⟨hc, h'⟩
      rw [checkVariable_fix cd w (u 0) n false hnw hc hlb]
      simp only [Bool.false_eq_true, if_false]
      rw [ih _ (n + 1) hnrest hrest]
      simp [fixIfConflict, hc, List.countP_cons]
      omega
    · rw [checkVariable_skip cd w (u 0) n false hnw hc]
      simp only [Bool.false_eq_true, if_false]
      rw [ih _ n hnrest hrest]
      simp [fixIfConflict, hc, List.countP_cons]

theorem exists_first {α : Type} (p : α → Prop) [DecidablePred p] (l : List α)
    (h : ∃ v ∈ l, p v) :
    ∃ pre v post, l = pre ++ v :: post ∧ (∀ u ∈ pre, ¬ p u) ∧ p v := by
  induction l with
  | nil => simp at h
  | cons a rest ih =>
    by_cases ha : p a
    · exact ⟨[], a, rest, rfl, by simp, ha⟩
    · have : ∃ v ∈ rest, p v := by
        obtain ⟨v, hv, hp⟩ := h
        rcases List.mem_cons.1 hv with rfl | hv
        · exact absurd hp ha
        · exact ⟨v, hv, hp⟩
      obtain ⟨pre, v, post, he, hpre, hv⟩ := ih this
      refine ⟨a :: pre, v, post, by rw [he]; rfl, ?_, hv⟩
      intro u hu
      rcases List.mem_cons.1 hu with rfl | hu
      · exact ha
      · exact hpre u hu

theorem fixLoop_cutoff_iff (cd : SCIP_ConsData) (l : List MasterVar) (u : Nat → Int) (n : Nat)
    (hname : ∀ v ∈ l, v.transformed = false) :
    (fixLoop cd l u n).2.2 = true ↔ ∃ v ∈ l, conflicts cd v ∧ 0 < v.lb := by
  constructor
  · intro h
    by_contra hne
    have : ∀ v ∈ l, ¬ (conflicts cd v ∧ 0 < v.lb) := fun v hv hc => hne ⟨v, hv, hc⟩
    rw [fixLoop_no_cutoff cd l u n hname this] at h
    simp at h
  · intro h
    obtain ⟨pre, v, post, he, hpre, hv⟩ := exists_first (fun v => conflicts cd v ∧ 0 < v.lb) l h
    subst he
    rw [fixLoop_first_cutoff cd pre v post u n hname hpre hv]

theorem fixedToZero_not_unfixed (c : MasterVar) : ¬ c.fixedToZero.unfixed := by
  unfold MasterVar.unfixed MasterVar.fixedToZero
  norm_num

/-- Partition of the columns of flow `i` by the two constraints on `(i, j)`, for a pool of
columns named `lambda_<flow>_<seq>` whose columns of flow `i` have a 0/1 incidence entry `j`
and a lower bound not forced to one. -/
theorem partition_of_unforced (i j : Nat) (pool : List MasterVar) (t0 t1 : Int)
    (hname : ∀ c ∈ pool, c.transformed = false)
    (hbit : ∀ c ∈ pool, c.flow = i → c.bit j = 0 ∨ c.bit j = 1)
    (hlb : ∀ c ∈ pool, c.flow = i → c.lb ≤ 0) :
    ∀ c ∈ pool,
      (c.flow = i →
        ¬ ((checkVariable (branchChildren i j).1 c t0 0 false).1.unfixed ∧
           (checkVariable (branchChildren i j).2 c t1 0 false).1.unfixed) ∧
        (c.unfixed ↔ ((checkVariable (branchChildren i j).1 c t0 0 false).1.unfixed ∨
                      (checkVariable (branchChildren i j).2 c t1 0 false).1.unfixed))) ∧
      (c.flow ≠ i → ∀ n cut,
        checkVariable (branchChildren i j).1 c t0 n cut = (c, n, cut) ∧
        checkVariable (branchChildren i j).2 c t1 n cut = (c, n, cut)) := by
  intro c hc
  have hn := hname c hc
  constructor
  · intro hf
    have hl : ¬ 0 < c.lb := not_lt.2 (hlb c hc hf)
    by_cases hu : c.unfixed
    · rcases hbit c hc hf with hb | hb
      · have h0 : ¬ conflicts (branchChildren i j).1 c := by
          simp [conflicts, branchChildren, consdataCreate, hb]
        have h1 : conflicts (branchChildren i j).2 c := by
          simp [conflicts, branchChildren, consdataCreate, hb, hf, hu]
        rw [checkVariable_skip _ c t0 0 false hn h0, checkVariable_fix _ c t1 0 false hn h1 hl]
        simp [hu, fixedToZero_not_unfixed]
      · have h0 : conflicts (branchChildren i j).1 c := by
          simp [conflicts, branchChildren, consdataCreate, hb, hf, hu]
        have h1 : ¬ conflicts (branchChildren i j).2 c := by
          simp [conflicts, branchChildren, consdataCreate, hb]
        rw [checkVariable_skip _ c t1 0 false hn h1, checkVariable_fix _ c t0 0 false hn h0 hl]
        simp [hu, fixedToZero_not_unfixed]
    · have h0 : ¬ conflicts (branchChildren i j).1 c := fun h => hu h.2.1
      have h1 : ¬ conflicts (branchChildren i j).2 c := fun h => hu h.2.1
      rw [checkVariable_skip _ c t0 0 false hn h0, checkVariable_skip _ c t1 0 false hn h1]
      simp [hu]
  · intro hf n cut
    have h0 : ¬ conflicts (branchChildren i j).1 c := fun h => hf h.1
    have h1 : ¬ conflicts (branchChildren i j).2 c := fun h => hf h.1
    exact ⟨checkVariable_skip _ c t0 n cut hn h0, checkVariable_skip _ c t1 n cut hn h1⟩

theorem two_le_sum {α : Type} (g : α → ℚ) (l : List α) (hnn : ∀ x ∈ l, 0 ≤ g x) (a b : α)
    (ha : a ∈ l) (hb : b ∈ l) (hab : a ≠ b) : g a + g b ≤ (l.map g).sum := by
  have single : ∀ (t : List α), (∀ x ∈ t, 0 ≤ g x) → ∀ x ∈ t, g x ≤ (t.map g).sum := by
    intro t ht x hx
    apply List.single_le_sum
    · intro y hy
      obtain ⟨z, hz, rfl⟩ := List.mem_map.1 hy
      exact ht z hz
    · exact List.mem_map_of_mem g hx
  induction l with
  | nil => simp at ha
  | cons h t ih =>
    have hh : 0 ≤ g h := hnn h (List.mem_cons_self _ _)
    have ht : ∀ x ∈ t, 0 ≤ g x := fun x hx => hnn x (List.mem_cons_of_mem _ hx)
    simp only [List.map_cons, List.sum_cons]
    rcases List.mem_cons.1 ha with rfl | ha'
    · rcases List.mem_cons.1 hb with rfl | hb'
      · exact absurd rfl hab
      · have := single t ht b hb'
        linarith
    · rcases List.mem_cons.1 hb with rfl | hb'
      · have := single t ht a ha'
        linarith
      · have := ih ht ha' hb'
        linarith

/-! ## Columns named by the pricer: the uninitialised local is not read -/

theorem fixLoop_named (cd : SCIP_ConsData) (l : List MasterVar) (u u' : Nat → Int) (n : Nat)
    (hname : ∀ v ∈ l, v.transformed = false) : fixLoop cd l u n = fixLoop cd l u' n := by
  induction l generalizing u u' n with
  | nil => rfl
  | cons v rest ih =>
    have hnv := hname v (List.mem_cons_self _ _)
    have hnrest : ∀ w ∈ rest, w.transformed = false := fun w hw =>
      hname w (List.mem_cons_of_mem _ hw)
    unfold fixLoop
    rw [checkVariable_named cd v (u 0) (u' 0) n false hnv]
    dsimp only
    rw [ih (fun n => u (n + 1)) (fun n => u' (n + 1)) (checkVariable cd v (u' 0) n false).2.1
      hnrest]

theorem fixLoop_keeps_names (cd : SCIP_ConsData) (l : List MasterVar) (u : Nat → Int) (n : Nat) :
    (fixLoop cd l u n).1.map (fun v => v.transformed) = l.map (fun v => v.transformed) := by
  induction l generalizing u n with
  | nil => rfl
  | cons v rest ih =>
    unfold fixLoop
    by_cases h : (checkVariable cd v (u 0) n false).2.2 = true
    · simp [h, checkVariable_keeps_name]
    · simp [h, checkVariable_keeps_name, ih]

theorem consdataFixVariables_named (cd : SCIP_ConsData) (vars : List MasterVar)
    (u u' : Nat → Int) (r0 : SCIP_RESULT) (hname : ∀ v ∈ vars, v.transformed = false) :
    consdataFixVariables cd vars u r0 = consdataFixVariables cd vars u' r0 := by
  unfold consdataFixVariables
  rw [fixLoop_named cd _ (fun n => u (cd.npropagatedvars + n))
    (fun n => u' (cd.npropagatedvars + n)) 0 fun v hv => hname v (List.mem_of_mem_drop hv)]

theorem consdataFixVariables_keeps_names (cd : SCIP_ConsData) (vars : List MasterVar)
    (u : Nat → Int) (r0 : SCIP_RESULT) (hname : ∀ v ∈ vars, v.transformed = false) :
    ∀ v ∈ (consdataFixVariables cd vars u r0).1, v.transformed = false := by
  have hmap : (consdataFixVariables cd vars u r0).1.map (fun v => v.transformed)
      = vars.map (fun v => v.transformed) := by
    unfold consdataFixVariables
    simp only [List.map_append, fixLoop_keeps_names]
    rw [← List.map_append, List.take_append_drop]
  intro v hv
  have h1 : v.transformed ∈ (consdataFixVariables cd vars u r0).1.map (fun v => v.transformed) :=
    List.mem_map_of_mem _ hv
  rw [hmap] at h1
  obtain ⟨w, hw, hwe⟩ := List.mem_map.1 h1
  rw [← hwe]
  exact hname w hw

theorem consPropLoop_named (conss : List SCIP_ConsData) (vars : List MasterVar)
    (u u' : Nat → Nat → Int) (r0 : SCIP_RESULT) (hname : ∀ v ∈ vars, v.transformed = false) :
    consPropLoop conss vars u r0 = consPropLoop conss vars u' r0 := by
  induction conss generalizing vars u u' r0 with
  | nil => rfl
  | cons cd rest ih =>
    unfold consPropLoop
    rw [consdataFixVariables_named cd vars (u 0) (u' 0) r0 hname]
    dsimp only
    rw [ih vars (fun c => u (c + 1)) (fun c => u' (c + 1)) r0 hname,
      ih (consdataFixVariables cd vars (u' 0) r0).1 (fun c => u (c + 1)) (fun c => u' (c + 1))
        (consdataFixVariables cd vars (u' 0) r0).2
        (consdataFixVariables_keeps_names cd vars (u' 0) r0 hname)]

theorem enterChild_named (st : TreeState) (cd : SCIP_ConsData) (u u' : Nat → Nat → Int)
    (hname : ∀ v ∈ st.vars, v.transformed = false) : enterChild st cd u = enterChild st cd u' :=
  consPropLoop_named _ _ u u' _ hname

theorem selectLambda_named (i : Nat) (l : List (MasterVar × ℚ)) (t t' : Int)
    (hname : ∀ c ∈ l, c.1.transformed = false) :
    (selectLambda i l t).1 = (selectLambda i l t').1 := by
  induction l generalizing t t' with
  | nil => rfl
  | cons c rest ih =>
    have hc := hname c (List.mem_cons_self _ _)
    have hrest : ∀ d ∈ rest, d.1.transformed = false := fun d hd =>
      hname d (List.mem_cons_of_mem _ hd)
    unfold selectLambda
    simp only [sscanfLambda_named c.1 t hc, sscanfLambda_named c.1 t' hc]

theorem searchFlow_named (feastol : ℚ) (lpcands : List (MasterVar × ℚ)) (n : Nat)
    (l : List Nat) (t t' : Int) (hname : ∀ c ∈ lpcands, c.1.transformed = false) :
    searchFlow feastol lpcands n l t = searchFlow feastol lpcands n l t' := by
  induction l generalizing t t' with
  | nil => rfl
  | cons i rest ih =>
    unfold searchFlow
    simp only [selectLambda_named i lpcands t t' hname]
    rw [ih (selectLambda i lpcands t).2 (selectLambda i lpcands t').2]

theorem branch_named (feastol : ℚ) (t t' : Int) (nFlows nLinks nOpticalLinks nWaveLength : Nat)
    (lpcands : List (MasterVar × ℚ)) (hname : ∀ c ∈ lpcands, c.1.transformed = false) :
    branchExeclpOriginalvar feastol t nFlows nLinks nOpticalLinks nWaveLength lpcands
      = branchExeclpOriginalvar feastol t' nFlows nLinks nOpticalLinks nWaveLength lpcands :=
  searchFlow_named feastol lpcands _ _ t t' hname

/-! ## Fixing the columns of one constraint -/

theorem getElem?_take_append_map_drop {α : Type} (l : List α) (n v : Nat) (f : α → α) :
    (l.take n ++ (l.drop n).map f)[v]? = (l[v]?).map (fun c => if n ≤ v then f c else c) := by
  by_cases h : v < n
  · have hn : ¬ n ≤ v := by omega
    by_cases hv : v < l.length
    · rw [List.getElem?_append_left (by simp; omega), List.getElem?_take]
      simp [h, hn]
    · have h1 : l[v]? = none := by simp; omega
      have h2 : (l.take n ++ (l.drop n).map f)[v]? = none := by simp; omega
      rw [h1, h2]; rfl
  · have hn : n ≤ v := by omega
    by_cases hl : n ≤ l.length
    · rw [List.getElem?_append_right (by simp; omega)]
      simp only [List.length_take, Nat.min_eq_left hl, List.getElem?_map, List.getElem?_drop]
      have : n + (v - n) = v := by omega
      rw [this]
      simp [hn]
    · have h1 : l[v]? = none := by simp; omega
      have h2 : (l.take n ++ (l.drop n).map f)[v]? = none := by simp; omega
      rw [h1, h2]; rfl

theorem consdataFixVariables_no_cutoff (cd : SCIP_ConsData) (vars : List MasterVar)
    (u : Nat → Int) (r0 : SCIP_RESULT)
    (hname : ∀ v ∈ vars.drop cd.npropagatedvars, v.transformed = false)
    (h : (consdataFixVariables cd vars u r0).2 ≠ SCIP_RESULT.CUTOFF) :
    ∀ v ∈ vars.drop cd.npropagatedvars, ¬ (conflicts cd v ∧ 0 < v.lb) := by
  intro v hv hc
  apply h
  have := (fixLoop_cutoff_iff cd (vars.drop cd.npropagatedvars)
    (fun n => u (cd.npropagatedvars + n)) 0 hname).2 ⟨v, hv, hc⟩
  simp [consdataFixVariables, this]

/-- Frame of `consdataFixVariables` over a range of columns named `lambda_<flow>_<seq>`:
when the run ends without cutoff, the column at every position `v` is the old one with both
bounds zero if `v` is at least `npropagatedvars` and the column conflicts with the
constraint, and is the old column otherwise; the result is `REDUCEDDOM` exactly when some
column in the range conflicted (and was fixed) or the result on entry was `REDUCEDDOM`
already. -/
theorem fixVariables_frame (cd : SCIP_ConsData) (vars : List MasterVar) (u : Nat → Int)
    (r0 : SCIP_RESULT)
    (hname : ∀ v ∈ vars.drop cd.npropagatedvars, v.transformed = false)
    (h : (consdataFixVariables cd vars u r0).2 ≠ SCIP_RESULT.CUTOFF) :
    (∀ v : Nat, (consdataFixVariables cd vars u r0).1[v]? =
      (vars[v]?).map fun c =>
        if cd.npropagatedvars ≤ v ∧ conflicts cd c then c.fixedToZero else c) ∧
    ((consdataFixVariables cd vars u r0).2 = SCIP_RESULT.REDUCEDDOM ↔
      (∃ v c, cd.npropagatedvars ≤ v ∧ vars[v]? = some c ∧ conflicts cd c) ∨
        r0 = SCIP_RESULT.REDUCEDDOM) := by
  have hno := consdataFixVariables_no_cutoff cd vars u r0 hname h
  have hloop := fixLoop_no_cutoff cd (vars.drop cd.npropagatedvars)
    (fun n => u (cd.npropagatedvars + n)) 0 hname hno
  constructor
  · intro v
    simp only [consdataFixVariables, hloop]
    rw [getElem?_take_append_map_drop]
    cases hv : vars[v]? with
    | none => rfl
    | some c =>
      simp only [Option.map_some', fixIfConflict]
      by_cases h1 : cd.npropagatedvars ≤ v
      · by_cases h2 : conflicts cd c <;> simp [h1, h2]
      · simp [h1]
  · have hex : (∃ v c, cd.npropagatedvars ≤ v ∧ vars[v]? = some c ∧ conflicts cd c) ↔
        0 < (vars.drop cd.npropagatedvars).countP (fun v => decide (conflicts cd v)) := by
      rw [List.countP_pos_iff]
      constructor
      · rintro ⟨v, c, h1, h2, h3⟩
        refine ⟨c, ?_, by simpa using h3⟩
        rw [List.mem_iff_getElem?]
        refine ⟨v - cd.npropagatedvars, ?_⟩
        rw [List.getElem?_drop]
        have : cd.npropagatedvars + (v - cd.npropagatedvars) = v := by omega
        rw [this, h2]
      · rintro ⟨c, hc, h3⟩
        rw [List.mem_iff_getElem?] at hc
        obtain ⟨n, hn⟩ := hc
        rw [List.getElem?_drop] at hn
        exact ⟨cd.npropagatedvars + n, c, by omega, hn, by simpa using h3⟩
    rw [hex]
    simp only [consdataFixVariables, hloop, Nat.zero_add, Bool.false_eq_true, if_false]
    by_cases hp : 0 < (vars.drop cd.npropagatedvars).countP (fun v => decide (conflicts cd v))
    · simp [hp]
    · have : ¬ (vars.drop cd.npropagatedvars).countP (fun v => decide (conflicts cd v)) > 0 := hp
      rw [if_neg this]
      simp [hp]

/-! ## Cutoff -/

theorem consPropLoop_cutoff (conss : List SCIP_ConsData) (vars : List MasterVar)
    (u : Nat → Nat → Int) (r0 : SCIP_RESULT) (hr0 : r0 ≠ SCIP_RESULT.CUTOFF)
    (h : (consPropLoop conss vars u r0).2.2 = SCIP_RESULT.CUTOFF) :
    ∃ (pre : List SCIP_ConsData) (cd : SCIP_ConsData) (post pre' : List SCIP_ConsData)
      (vars' : List MasterVar) (r' : SCIP_RESULT),
      conss = pre ++ cd :: post ∧ cd.propagated = false ∧
      (consdataFixVariables cd vars' (u pre.length) r').2 = SCIP_RESULT.CUTOFF ∧
      (consPropLoop conss vars u r0).1 = (consdataFixVariables cd vars' (u pre.length) r').1 ∧
      (consPropLoop conss vars u r0).2.1
        = pre' ++ { cd with npropagations := cd.npropagations + 1 } :: post ∧
      pre'.length = pre.length := by
  induction conss generalizing vars u r0 with
  | nil => exact absurd h hr0
  | cons cd rest ih =>
    unfold consPropLoop at h ⊢
    by_cases hp : cd.propagated = true
    · simp only [hp, Bool.not_true, Bool.false_eq_true, if_false] at h ⊢
      obtain ⟨pre, cd', post, pre', vars', r', h1, h2, h3, h4, h5, h6⟩ := ih vars _ r0 hr0 h
      exact ⟨cd :: pre, cd', post, cd :: pre', vars', r', by rw [h1]; rfl, h2, h3, h4,
        by rw [h5]; rfl, by simp [h6]⟩
    · have hp' : cd.propagated = false := by simpa using hp
      simp only [hp', Bool.not_false, if_true] at h ⊢
      by_cases hc : (consdataFixVariables cd vars (u 0) r0).2 = SCIP_RESULT.CUTOFF
      · simp only [hc, ne_eq, not_true_eq_false, if_false] at h ⊢
        exact ⟨[], cd, rest, [], vars, r0, rfl, hp', hc, rfl, by simp [hp'], rfl⟩
      · simp only [ne_eq, hc, not_false_eq_true, if_true] at h ⊢
        obtain ⟨pre, cd', post, pre', vars', r', h1, h2, h3, h4, h5, h6⟩ := ih _ _ _ hc h
        exact ⟨cd :: pre, cd', post, _ :: pre', vars', r', by rw [h1]; rfl, h2, h3, h4,
          by rw [h5]; rfl, by simp [h6]⟩

theorem lb_pos_iff (v : MasterVar) (h : v.lb = 0 ∨ v.lb = 1) : 0 < v.lb ↔ v.lb = 1 := by
  rcases h with h | h <;> rw [h] <;> norm_num

/-- Cutoff of `consdataFixVariables` over a range of columns named `lambda_<flow>_<seq>`
with binary lower bounds, for a result on entry other than `CUTOFF`: the run reports
`CUTOFF` exactly when some position from `npropagatedvars` on holds a conflicting column
with lower bound one; the columns after the first such column (and that column) are left as
they are; and when `consPropZeroone` ends with `CUTOFF`, the constraint that was cut off
keeps its `propagated` flag and `npropagatedvars`, and the constraints after it are left as
they are. -/
theorem cutoff_iff (cd : SCIP_ConsData) (vars : List MasterVar) (u : Nat → Int)
    (r0 : SCIP_RESULT)
    (hname : ∀ v ∈ vars.drop cd.npropagatedvars, v.transformed = false)
    (hbin : ∀ v ∈ vars, v.lb = 0 ∨ v.lb = 1) (hr0 : r0 ≠ SCIP_RESULT.CUTOFF) :
    ((consdataFixVariables cd vars u r0).2 = SCIP_RESULT.CUTOFF ↔
      ∃ v c, cd.npropagatedvars ≤ v ∧ vars[v]? = some c ∧ conflicts cd c ∧ c.lb = 1) ∧
    (∀ pre c post, vars.drop cd.npropagatedvars = pre ++ c :: post →
      (∀ w ∈ pre, ¬ (conflicts cd w ∧ w.lb = 1)) → conflicts cd c ∧ c.lb = 1 →
      (consdataFixVariables cd vars u r0).1
        = vars.take cd.npropagatedvars ++ (pre.map (fixIfConflict cd) ++ c :: post)) ∧
    (∀ (conss : List SCIP_ConsData) (uc : Nat → Nat → Int),
      (consPropZeroone conss vars uc).2.2 = SCIP_RESULT.CUTOFF →
      ∃ (pre : List SCIP_ConsData) (cd' : SCIP_ConsData) (post pre' : List SCIP_ConsData)
        (vars' : List MasterVar) (r' : SCIP_RESULT),
        conss = pre ++ cd' :: post ∧ cd'.propagated = false ∧
        (consdataFixVariables cd' vars' (uc pre.length) r').2 = SCIP_RESULT.CUTOFF ∧
        (consPropZeroone conss vars uc).1 = (consdataFixVariables cd' vars' (uc pre.length) r').1 ∧
        (consPropZeroone conss vars uc).2.1
          = pre' ++ { cd' with npropagations := cd'.npropagations + 1 } :: post ∧
        pre'.length = pre.length) := by
  have hdrop : ∀ v ∈ vars.drop cd.npropagatedvars, v.lb = 0 ∨ v.lb = 1 := fun v hv =>
    hbin v (List.mem_of_mem_drop hv)
  refine ⟨?_, ?_, ?_⟩
  · have h1 : (consdataFixVariables cd vars u r0).2 = SCIP_RESULT.CUTOFF ↔
        (fixLoop cd (vars.drop cd.npropagatedvars) (fun n => u (cd.npropagatedvars + n)) 0).2.2
          = true := by
      simp only [consdataFixVariables]
      by_cases hc : (fixLoop cd (vars.drop cd.npropagatedvars)
          (fun n => u (cd.npropagatedvars + n)) 0).2.2 = true
      · simp [hc]
      · simp only [hc, Bool.false_eq_true, if_false, iff_false]
        split_ifs
        · simp
        · exact hr0
    rw [h1, fixLoop_cutoff_iff _ _ _ _ hname]
    constructor
    · rintro ⟨c, hc, h2, h3⟩
      rw [List.mem_iff_getElem?] at hc
      obtain ⟨n, hn⟩ := hc
      rw [List.getElem?_drop] at hn
      have hm : c ∈ vars := List.mem_iff_getElem?.2 ⟨_, hn⟩
      exact ⟨cd.npropagatedvars + n, c, by omega, hn, h2, (lb_pos_iff c (hbin c hm)).1 h3⟩
    · rintro ⟨v, c, h2, h3, h4, h5⟩
      refine ⟨c, ?_, h4, by rw [h5]; norm_num⟩
      rw [List.mem_iff_getElem?]
      refine ⟨v - cd.npropagatedvars, ?_⟩
      rw [List.getElem?_drop]
      have : cd.npropagatedvars + (v - cd.npropagatedvars) = v := by omega
      rw [this, h3]
  · intro pre c post he hpre hc
    have hpre' : ∀ w ∈ pre, ¬ (conflicts cd w ∧ 0 < w.lb) := by
      intro w hw hcw
      have hm : w ∈ vars.drop cd.npropagatedvars := by rw [he]; simp [hw]
      exact hpre w hw ⟨hcw.1, (lb_pos_iff w (hdrop w hm)).1 hcw.2⟩
    have hc' : conflicts cd c ∧ 0 < c.lb := ⟨hc.1, by rw [hc.2]; norm_num⟩
    have hname' : ∀ w ∈ pre ++ c :: post, w.transformed = false := by
      rw [← he]; exact hname
    simp only [consdataFixVariables, he,
      fixLoop_first_cutoff cd pre c post _ 0 hname' hpre' hc']
  · intro conss uc h
    exact consPropLoop_cutoff conss vars uc SCIP_RESULT.DIDNOTFIND (by decide) h

/-! ## Branching decisions in the pricing subproblem -/

theorem addBranching_step (vs : List SubVar) (c : ZerooneCons) (k idx : Nat) :
    (applyBranchingDecision k vs c)[idx]?
      = (vs[idx]?).map fun v => if concerns k idx c then fixBy c v else v := by
  unfold applyBranchingDecision
  by_cases ha : c.active = true
  · by_cases hk : c.data.index1 = k
    · simp only [ha, Bool.not_true, Bool.false_eq_true, if_false, hk, ne_eq, not_true_eq_false]
      have hfix : (if c.data.type = CONSTYPE.ZERO then fixSubVar vs c.data.index2 0
          else fixSubVar vs c.data.index2 1)
          = fixSubVar vs c.data.index2 c.data.type.val := by
        cases h : c.data.type <;> simp [CONSTYPE.val]
      rw [hfix]
      unfold fixSubVar
      rw [List.getElem?_modify]
      cases hv : vs[idx]? with
      | none => rfl
      | some v =>
        by_cases hi : c.data.index2 = idx
        · simp [concerns, ha, hk, hi, fixBy]
        · simp [concerns, ha, hk, hi, fixBy]
    · have : concerns k idx c = false := by simp [concerns, hk]
      simp [ha, hk, this]
  · have ha' : c.active = false := by simpa using ha
    have : concerns k idx c = false := by simp [concerns, ha']
    simp [ha', this]

theorem addBranching_getElem? (vs : List SubVar) (cs : List ZerooneCons) (k idx : Nat) :
    (addBranchingDecisionConss vs cs k)[idx]?
      = (vs[idx]?).map fun v => (cs.filter (concerns k idx)).foldl (fun v c => fixBy c v) v := by
  induction cs generalizing vs with
  | nil => simp [addBranchingDecisionConss]
  | cons c rest ih =>
    unfold addBranchingDecisionConss at ih ⊢
    rw [List.foldl_cons, ih, addBranching_step]
    cases hv : vs[idx]? with
    | none => rfl
    | some v =>
      by_cases hc : concerns k idx c = true
      · simp [hc, List.filter_cons]
      · simp [hc, List.filter_cons]

theorem foldl_fixBy_same (l : List ZerooneCons) (c : ZerooneCons) (v : SubVar)
    (h : ∀ c' ∈ l, c'.data.type = c.data.type) :
    (c :: l).foldl (fun v c => fixBy c v) v = fixBy c v := by
  induction l generalizing v with
  | nil => rfl
  | cons a rest ih =>
    have ha := h a (List.mem_cons_self _ _)
    have hrest : ∀ c' ∈ rest, c'.data.type = c.data.type := fun c' hc' =>
      h c' (List.mem_cons_of_mem _ hc')
    have := ih (fixBy a v) hrest
    simp only [List.foldl_cons] at this ⊢
    have e : fixBy c (fixBy a v) = fixBy c v := by simp [fixBy]
    have e2 : fixBy a (fixBy c v) = fixBy c v := by simp [fixBy, ha]
    rw [e2]
    rw [e] at this
    have h3 := ih v hrest
    simp only [List.foldl_cons] at h3
    exact h3

theorem length_createYZ (n m : Nat) (f : Nat → Nat → SubVar) :
    ((List.range n).flatMap fun i => (List.range m).map fun j => f i j).length = n * m := by
  induction n with
  | zero => simp
  | succ n ih =>
    rw [List.range_succ, List.flatMap_append, List.length_append, ih]
    simp [Nat.succ_mul]

theorem length_subvars (pd : SCIP_PricerData) (conshdlr : List ZerooneCons) (k : Nat)
    (alpha beta : Nat → ℚ) :
    (initPricing pd conshdlr k alpha beta).vars.length = pd.nOriFlowVars := by
  have hy : (createY pd beta).length = pd.nOpticalLinks * pd.nWaveLength :=
    length_createYZ _ _ _
  have hz : (createZ pd).length = pd.nOpticalLinks * pd.nWaveLength :=
    length_createYZ _ _ (fun _ _ => { lb := 0, ub := 1, obj := 0 })
  have hlen : ∀ (vs : List SubVar) (cs : List ZerooneCons),
      (addBranchingDecisionConss vs cs k).length = vs.length := by
    intro vs cs
    induction cs generalizing vs with
    | nil => rfl
    | cons c rest ih =>
      unfold addBranchingDecisionConss at ih ⊢
      rw [List.foldl_cons, ih]
      unfold applyBranchingDecision
      split_ifs <;> simp [fixSubVar]
  simp only [initPricing, hlen, List.length_append, hy, hz, createX, List.length_map,
    List.length_range, SCIP_PricerData.nOriFlowVars]
  ring


theorem addBranching_fixed (vs : List SubVar) (cs : List ZerooneCons) (k : Nat)
    (hcons : ∀ c ∈ cs, ∀ c' ∈ cs, c.active = true → c'.active = true → c.data.index1 = k →
      c'.data.index1 = k → c.data.index2 = c'.data.index2 → c.data.type = c'.data.type)
    (c : ZerooneCons) (hc : c ∈ cs) (ha : c.active = true) (hk : c.data.index1 = k) :
    (addBranchingDecisionConss vs cs k)[c.data.index2]? = (vs[c.data.index2]?).map (fixBy c) := by
  rw [addBranching_getElem?]
  have hmem : c ∈ cs.filter (concerns k c.data.index2) := by
    rw [List.mem_filter]
    exact ⟨hc, by simp [concerns, ha, hk]⟩
  have hall : ∀ c' ∈ cs.filter (concerns k c.data.index2), c'.data.type = c.data.type := by
    intro c' hc'
    rw [List.mem_filter] at hc'
    have h2 := hc'.2
    simp only [concerns, Bool.and_eq_true, decide_eq_true_eq] at h2
    exact hcons c' hc'.1 c hc h2.1.1 ha h2.1.2 hk h2.2
  cases hl : cs.filter (concerns k c.data.index2) with
  | nil => rw [hl] at hmem; simp at hmem
  | cons a rest =>
    rw [hl] at hall
    have hrest : ∀ c' ∈ rest, c'.data.type = a.data.type := fun c' hc' =>
      (hall c' (List.mem_cons_of_mem _ hc')).trans (hall a (List.mem_cons_self _ _)).symm
    have hfa : ∀ v, fixBy a v = fixBy c v := fun v => by
      simp [fixBy, hall a (List.mem_cons_self _ _)]
    congr 1
    funext v
    rw [foldl_fixBy_same rest a v hrest, hfa]

theorem addBranching_untouched (vs : List SubVar) (cs : List ZerooneCons) (k idx : Nat)
    (h : ∀ c ∈ cs, concerns k idx c = false) :
    (addBranchingDecisionConss vs cs k)[idx]? = vs[idx]? := by
  rw [addBranching_getElem?]
  have : cs.filter (concerns k idx) = [] := by
    rw [List.filter_eq_nil_iff]
    intro c hc
    simp [h c hc]
  rw [this]
  simp

theorem checkSol_bounds (sub : SubScip) (sol : Sol) (h : SCIPcheckSolOrig sub sol = true)
    (i : Nat) (v : SubVar) (hv : sub.vars[i]? = some v) : v.lb ≤ sol i ∧ sol i ≤ v.ub := by
  unfold SCIPcheckSolOrig at h
  rw [Bool.and_eq_true, List.all_eq_true] at h
  have hi : i < sub.vars.length := by
    by_contra hn
    have : sub.vars[i]? = none := by simp; omega
    rw [this] at hv
    exact absurd hv (by simp)
  have h1 := h.1 i (List.mem_range.2 hi)
  have hd : sub.vars.getD i default = v := by
    rw [List.getD_eq_getElem?_getD, hv]; rfl
  rw [hd] at h1
  simp only [Bool.and_eq_true, decide_eq_true_eq] at h1
  exact ⟨h1.1.1, h1.1.2⟩

theorem newColumn_bit (pd : SCIP_PricerData) (k seq : Nat) (sol : Sol) (idx : Nat)
    (h : idx < pd.nOriFlowVars) :
    (newColumn pd k seq sol).bit idx = if sol idx > 1 / 2 then 1 else 0 := by
  simp only [MasterVar.bit, newColumn, vardataCreate, buildOriFlowVars]
  rw [List.getD_eq_getElem?_getD, List.getElem?_map, List.getElem?_range h]
  rfl

/-- Claim C5 (amended): when no two active constraints of flow `k` fix the same variable
with different polarity, `addBranchingDecisionConss` sets both bounds of `vars[index2]` to
the polarity value for every active constraint of flow `k`, leaves every variable that no
such constraint names as created, and every column accepted for flow `k` has incidence
entry `index2` equal to the polarity of each active constraint of flow `k`, so that
`checkVariable` of that constraint leaves the fresh column as it is. -/
theorem branching_decisions_priced (pd : SCIP_PricerData) (conshdlr : List ZerooneCons)
    (k : Nat) (alpha beta gamma : Nat → ℚ) (sols : List Sol)
    (hcons : ∀ c ∈ conshdlr, ∀ c' ∈ conshdlr, c.active = true → c'.active = true →
      c.data.index1 = k → c'.data.index1 = k → c.data.index2 = c'.data.index2 →
      c.data.type = c'.data.type) :
    (∀ c ∈ conshdlr, c.active = true → c.data.index1 = k →
      (initPricing pd conshdlr k alpha beta).vars[c.data.index2]?
        = ((createX pd k alpha ++ createY pd beta ++ createZ pd)[c.data.index2]?).map
            fun v => { v with lb := c.data.type.val, ub := c.data.type.val }) ∧
    (∀ idx, (∀ c ∈ conshdlr, ¬ (c.active = true ∧ c.data.index1 = k ∧ c.data.index2 = idx)) →
      (initPricing pd conshdlr k alpha beta).vars[idx]?
        = (createX pd k alpha ++ createY pd beta ++ createZ pd)[idx]?) ∧
    (∀ p ∈ acceptedSols pd conshdlr k alpha beta gamma sols, ∀ c ∈ conshdlr,
      c.active = true → c.data.index1 = k → c.data.index2 < pd.nOriFlowVars →
      ∀ seq tempI n cut,
        ((newColumn pd k seq p.2).bit c.data.index2 : ℚ) = c.data.type.val ∧
        checkVariable c.data (newColumn pd k seq p.2) tempI n cut
          = (newColumn pd k seq p.2, n, cut)) := by
  have ha := fun c hc h1 h2 =>
    addBranching_fixed (createX pd k alpha ++ createY pd beta ++ createZ pd) conshdlr k hcons c hc
      h1 h2
  refine ⟨?_, ?_, ?_⟩
  · intro c hc h1 h2
    exact ha c hc h1 h2
  · intro idx h
    apply addBranching_untouched
    intro c hc
    have := h c hc
    simp only [concerns]
    by_contra hne
    apply this
    simpa [Bool.and_eq_true] using hne
  · intro p hp c hc h1 h2 h3 seq tempI n cut
    have hacc := solLoop_accepts _ _ _ p hp
    have hlen := length_subvars pd conshdlr k alpha beta
    have hidx : c.data.index2 < (initPricing pd conshdlr k alpha beta).vars.length := by
      rw [hlen]; exact h3
    have hfix := ha c hc h1 h2
    have hget : (initPricing pd conshdlr k alpha beta).vars[c.data.index2]?
        = some ((initPricing pd conshdlr k alpha beta).vars[c.data.index2]) :=
      List.getElem?_eq_getElem hidx
    have hinit : (initPricing pd conshdlr k alpha beta).vars
        = addBranchingDecisionConss (createX pd k alpha ++ createY pd beta ++ createZ pd)
            conshdlr k := rfl
    rw [← hinit] at hfix
    rw [hget] at hfix
    cases hb : (createX pd k alpha ++ createY pd beta ++ createZ pd)[c.data.index2]? with
    | none => rw [hb] at hfix; simp at hfix
    | some v0 =>
      rw [hb] at hfix
      simp only [Option.map_some', Option.some.injEq] at hfix
      have hbd := checkSol_bounds _ _ hacc.1 c.data.index2 _ hget
      rw [hfix] at hbd
      simp only [fixBy] at hbd
      have hval : p.2 c.data.index2 = c.data.type.val := le_antisymm hbd.2 hbd.1
      have hbit := newColumn_bit pd k seq p.2 c.data.index2 h3
      have hbitv : (newColumn pd k seq p.2).bit c.data.index2
          = (if c.data.type = CONSTYPE.ZERO then 0 else 1) := by
        rw [hbit, hval]
        cases c.data.type
        · norm_num [CONSTYPE.val]
        · norm_num [CONSTYPE.val]
          simp
      constructor
      · rw [hbitv]
        cases c.data.type <;> simp [CONSTYPE.val]
      · apply checkVariable_skip _ _ _ _ _ rfl
        intro hcf
        rcases hcf.2.2 with ⟨ht, hb1⟩ | ⟨ht, hb1⟩
        · rw [hbitv, ht] at hb1; simp at hb1
        · rw [hbitv, ht] at hb1; simp at hb1

/-! ## Reduced cost of a new column -/

theorem flatMap_range_map {β : Type} (n m : Nat) (f : Nat → β) :
    ((List.range n).flatMap fun i => (List.range m).map fun j => f (i * m + j))
      = (List.range (n * m)).map f := by
  induction n with
  | zero => simp
  | succ n ih =>
    rw [List.range_succ, List.flatMap_append, ih, Nat.succ_mul, List.range_add, List.map_append]
    simp [List.map_map, Function.comp_def]

theorem flatMap_range_filterMap {β : Type} (n m : Nat) (f : Nat → Option β) :
    ((List.range n).flatMap fun i => (List.range m).filterMap fun j => f (i * m + j))
      = (List.range (n * m)).filterMap f := by
  induction n with
  | zero => simp
  | succ n ih =>
    rw [List.range_succ, List.flatMap_append, ih, Nat.succ_mul, List.range_add,
      List.filterMap_append]
    simp [List.filterMap_map, Function.comp_def]

theorem createY_eq (pd : SCIP_PricerData) (beta : Nat → ℚ) :
    createY pd beta = (List.range (pd.nOpticalLinks * pd.nWaveLength)).map fun t =>
      { lb := 0, ub := 1, obj := beta t } :=
  flatMap_range_map pd.nOpticalLinks pd.nWaveLength
    fun t => ({ lb := 0, ub := 1, obj := beta t } : SubVar)

theorem createZ_eq (pd : SCIP_PricerData) :
    createZ pd = (List.range (pd.nOpticalLinks * pd.nWaveLength)).map fun _ =>
      { lb := 0, ub := 1, obj := 0 } :=
  flatMap_range_map pd.nOpticalLinks pd.nWaveLength
    fun _ => ({ lb := 0, ub := 1, obj := 0 } : SubVar)

theorem buildConsids_eq (pd : SCIP_PricerData) (k : Nat) (sol : Sol) :
    buildConsids pd k sol = [k] ++
      ((List.range pd.nElecLinks).filterMap fun i =>
        if sol (pd.nOpticalLinks + i) > 1 / 2 then some (pd.nFlows + i) else none) ++
      ((List.range (pd.nOpticalLinks * pd.nWaveLength)).filterMap fun t =>
        if sol (pd.nLinks + t) > 1 / 2 then some (pd.nFlows + pd.nElecLinks + t) else none) := by
  unfold buildConsids
  congr 1
  have := flatMap_range_filterMap pd.nOpticalLinks pd.nWaveLength fun t =>
    if sol (pd.nLinks + t) > 1 / 2 then some (pd.nFlows + pd.nElecLinks + t) else none
  rw [← this]
  simp only [yIdx, Nat.add_assoc]

theorem created_getElem? (pd : SCIP_PricerData) (k : Nat) (alpha beta : Nat → ℚ) (idx : Nat)
    (h : idx < pd.nOriFlowVars) :
    (createX pd k alpha ++ createY pd beta ++ createZ pd)[idx]?
      = some { lb := 0, ub := 1, obj := createdObj pd k alpha beta idx } := by
  have hx : (createX pd k alpha).length = pd.nLinks := by simp [createX]
  have hy : (createY pd beta).length = pd.nOpticalLinks * pd.nWaveLength := by
    simp [createY_eq]
  unfold SCIP_PricerData.nOriFlowVars at h
  unfold createdObj
  by_cases h1 : idx < pd.nLinks
  · rw [List.append_assoc, List.getElem?_append_left (by omega)]
    simp [createX, h1, List.getElem?_range h1]
  · by_cases h2 : idx < pd.nLinks + pd.nOpticalLinks * pd.nWaveLength
    · rw [List.append_assoc, List.getElem?_append_right (by omega),
        List.getElem?_append_left (by omega), hx, createY_eq]
      have h3 : idx - pd.nLinks < pd.nOpticalLinks * pd.nWaveLength := by omega
      simp [h1, h2, List.getElem?_range h3]
    · rw [List.getElem?_append_right (by simp [hx, hy]; omega), createZ_eq]
      have h3 : idx - (createX pd k alpha ++ createY pd beta).length
          < pd.nOpticalLinks * pd.nWaveLength := by
        simp only [List.length_append, hx, hy]
        have : 2 * pd.nOpticalLinks * pd.nWaveLength
            = pd.nOpticalLinks * pd.nWaveLength + pd.nOpticalLinks * pd.nWaveLength := by ring
        omega
      rw [List.getElem?_map, List.getElem?_range h3]
      simp [h1, h2]


theorem foldl_fixBy_inv (l : List ZerooneCons) (v : SubVar) (h : 0 ≤ v.lb ∧ v.ub ≤ 1) :
    (l.foldl (fun v c => fixBy c v) v).obj = v.obj ∧
    0 ≤ (l.foldl (fun v c => fixBy c v) v).lb ∧ (l.foldl (fun v c => fixBy c v) v).ub ≤ 1 := by
  induction l generalizing v with
  | nil => exact ⟨rfl, h⟩
  | cons c rest ih =>
    rw [List.foldl_cons]
    have hb : 0 ≤ (fixBy c v).lb ∧ (fixBy c v).ub ≤ 1 := by
      cases hc : c.data.type <;> simp [fixBy, hc, CONSTYPE.val]
    have := ih (fixBy c v) hb
    exact ⟨this.1.trans rfl, this.2⟩

theorem initPricing_var (pd : SCIP_PricerData) (conshdlr : List ZerooneCons) (k : Nat)
    (alpha beta : Nat → ℚ) (idx : Nat) (h : idx < pd.nOriFlowVars) :
    ∃ v, (initPricing pd conshdlr k alpha beta).vars[idx]? = some v ∧
      v.obj = createdObj pd k alpha beta idx ∧ 0 ≤ v.lb ∧ v.ub ≤ 1 := by
  have h1 : (initPricing pd conshdlr k alpha beta).vars[idx]?
      = ((createX pd k alpha ++ createY pd beta ++ createZ pd)[idx]?).map fun v =>
          (conshdlr.filter (concerns k idx)).foldl (fun v c => fixBy c v) v :=
    addBranching_getElem? _ conshdlr k idx
  rw [created_getElem? pd k alpha beta idx h] at h1
  refine ⟨_, h1, ?_⟩
  exact foldl_fixBy_inv _ _ (by norm_num)

theorem rat_binary (q : ℚ) (hint : q.isInt = true) (h0 : 0 ≤ q) (h1 : q ≤ 1) :
    q = 0 ∨ q = 1 := by
  have hq : ((q.num : ℤ) : ℚ) = q := by
    have hden : q.den = 1 := by simpa [Rat.isInt] using hint
    exact Rat.coe_int_num_of_den_eq_one hden
  have hn0 : (0 : ℚ) ≤ (q.num : ℚ) := by rw [hq]; exact h0
  have hn1 : (q.num : ℚ) ≤ 1 := by rw [hq]; exact h1
  have hn0' : (0 : ℤ) ≤ q.num := by exact_mod_cast hn0
  have hn1' : q.num ≤ 1 := by exact_mod_cast hn1
  have : q.num = 0 ∨ q.num = 1 := by omega
  rcases this with h | h
  · left; rw [← hq, h]; norm_num
  · right; rw [← hq, h]; norm_num

theorem feasible_binary (pd : SCIP_PricerData) (conshdlr : List ZerooneCons) (k : Nat)
    (alpha beta : Nat → ℚ) (sol : Sol)
    (hfeas : SCIPcheckSolOrig (initPricing pd conshdlr k alpha beta) sol = true) (idx : Nat)
    (h : idx < pd.nOriFlowVars) : sol idx = if sol idx > 1 / 2 then 1 else 0 := by
  obtain ⟨v, hv, _, hlb, hub⟩ := initPricing_var pd conshdlr k alpha beta idx h
  have hb := checkSol_bounds _ _ hfeas idx v hv
  have hint : (sol idx).isInt = true := by
    unfold SCIPcheckSolOrig at hfeas
    rw [Bool.and_eq_true, List.all_eq_true] at hfeas
    have hi : idx < (initPricing pd conshdlr k alpha beta).vars.length := by
      rw [length_subvars]; exact h
    have := hfeas.1 idx (List.mem_range.2 hi)
    simp only [Bool.and_eq_true] at this
    exact this.2
  rcases rat_binary (sol idx) hint (le_trans hlb hb.1) (le_trans hb.2 hub) with h0 | h1
  · rw [h0]; norm_num
  · rw [h1]; norm_num

theorem solObj_eq (pd : SCIP_PricerData) (conshdlr : List ZerooneCons) (k : Nat)
    (alpha beta : Nat → ℚ) (sol : Sol) :
    SCIPgetSolOrigObj (initPricing pd conshdlr k alpha beta) sol
      = ((List.range pd.nOriFlowVars).map fun idx =>
          createdObj pd k alpha beta idx * sol idx).sum := by
  unfold SCIPgetSolOrigObj
  rw [length_subvars]
  congr 1
  apply List.map_congr_left
  intro idx hidx
  obtain ⟨v, hv, hobj, _⟩ :=
    initPricing_var pd conshdlr k alpha beta idx (List.mem_range.1 hidx)
  rw [List.getD_eq_getElem?_getD, hv]
  simp [hobj]


theorem sum_filter_ite (l : List Nat) (c : Nat → Prop) [DecidablePred c] (h : Nat → ℚ) :
    ((l.filter fun i => decide (c i)).map h).sum = (l.map fun i => if c i then h i else 0).sum := by
  induction l with
  | nil => rfl
  | cons a rest ih =>
    by_cases ha : c a
    · rw [List.filter_cons_of_pos (by simpa using ha)]
      simp only [List.map_cons, List.sum_cons, if_pos ha, ih]
    · rw [List.filter_cons_of_neg (by simpa using ha)]
      simp only [List.map_cons, List.sum_cons, if_neg ha, ih, zero_add]

theorem sum_filterMap_ite (l : List Nat) (c : Nat → Prop) [DecidablePred c] (e : Nat → Nat)
    (h : Nat → ℚ) :
    ((l.filterMap fun i => if c i then some (e i) else none).map h).sum
      = (l.map fun i => if c i then h (e i) else 0).sum := by
  induction l with
  | nil => rfl
  | cons a rest ih =>
    by_cases ha : c a
    · simp only [List.filterMap_cons, if_pos ha, List.map_cons, List.sum_cons, ih]
    · simp only [List.filterMap_cons, if_neg ha, List.map_cons, List.sum_cons, ih, zero_add]

theorem sum_linkCost (pd : SCIP_PricerData) (k : Nat) (sol : Sol) :
    (pd.flow k).DelayPrice * sumDelays pd sol + (pd.flow k).JitterPrice * sumJitters pd sol
        + ((pd.flow k).BandWidth : ℚ) * sumBandCosts pd sol
      = ((List.range pd.nLinks).map fun i =>
          if sol i > 1 / 2 then linkCost pd k i else 0).sum := by
  unfold sumDelays sumJitters sumBandCosts chosenLinks
  rw [sum_filter_ite, sum_filter_ite, sum_filter_ite]
  generalize List.range pd.nLinks = l
  induction l with
  | nil => simp
  | cons a rest ih =>
    simp only [List.map_cons, List.sum_cons]
    rw [← ih]
    by_cases ha : sol a > 1 / 2
    · simp only [if_pos ha, linkCost]; ring
    · simp only [if_neg ha]; ring

theorem sum_tempC (pd : SCIP_PricerData) (k : Nat) (alpha : Nat → ℚ) (sol : Sol)
    (hn : pd.nOpticalLinks ≤ pd.nLinks) :
    ((List.range pd.nLinks).map fun i => if sol i > 1 / 2 then tempC pd k alpha i else 0).sum
      = ((List.range pd.nLinks).map fun i => if sol i > 1 / 2 then linkCost pd k i else 0).sum
        - ((List.range pd.nElecLinks).map fun i =>
            if sol (pd.nOpticalLinks + i) > 1 / 2
            then alpha i * ((pd.flow k).BandWidth : ℚ) else 0).sum := by
  have hsplit : pd.nLinks = pd.nOpticalLinks + pd.nElecLinks := by
    unfold SCIP_PricerData.nElecLinks; omega
  have e1 : ∀ l : List Nat, (∀ i ∈ l, i < pd.nOpticalLinks) →
      (l.map fun i => if sol i > 1 / 2 then tempC pd k alpha i else 0).sum
        = (l.map fun i => if sol i > 1 / 2 then linkCost pd k i else 0).sum := by
    intro l hl
    congr 1
    apply List.map_congr_left
    intro i hi
    have := hl i hi
    simp [tempC, Nat.not_le.2 this]
  have e2 : ∀ l : List Nat,
      (l.map fun i => if sol (pd.nOpticalLinks + i) > 1 / 2
          then tempC pd k alpha (pd.nOpticalLinks + i) else 0).sum
        = (l.map fun i => if sol (pd.nOpticalLinks + i) > 1 / 2
            then linkCost pd k (pd.nOpticalLinks + i) else 0).sum
          - (l.map fun i => if sol (pd.nOpticalLinks + i) > 1 / 2
              then alpha i * ((pd.flow k).BandWidth : ℚ) else 0).sum := by
    intro l
    induction l with
    | nil => simp
    | cons a rest ih =>
      simp only [List.map_cons, List.sum_cons, ih]
      by_cases ha : sol (pd.nOpticalLinks + a) > 1 / 2
      · simp only [if_pos ha, tempC, if_pos (Nat.le_add_right _ _), Nat.add_sub_cancel_left]
        ring
      · simp only [if_neg ha]; ring
  rw [hsplit, List.range_add, List.map_append, List.map_append, List.sum_append, List.sum_append,
    List.map_map, List.map_map]
  rw [e1 _ (fun i hi => List.mem_range.1 hi)]
  have := e2 (List.range pd.nElecLinks)
  simp only [Function.comp_def] at this ⊢
  rw [this]
  ring


theorem solObj_split (pd : SCIP_PricerData) (conshdlr : List ZerooneCons) (k : Nat)
    (alpha beta : Nat → ℚ) (sol : Sol)
    (hfeas : SCIPcheckSolOrig (initPricing pd conshdlr k alpha beta) sol = true) :
    SCIPgetSolOrigObj (initPricing pd conshdlr k alpha beta) sol
      = -((List.range pd.nLinks).map fun i =>
            if sol i > 1 / 2 then tempC pd k alpha i else 0).sum
        + ((List.range (pd.nOpticalLinks * pd.nWaveLength)).map fun t =>
            if sol (pd.nLinks + t) > 1 / 2 then beta t else 0).sum := by
  rw [solObj_eq]
  have hN : pd.nOriFlowVars = pd.nLinks + pd.nOpticalLinks * pd.nWaveLength
      + pd.nOpticalLinks * pd.nWaveLength := by
    unfold SCIP_PricerData.nOriFlowVars; ring
  have hbin := feasible_binary pd conshdlr k alpha beta sol hfeas
  have hmul : ∀ c s : ℚ, (s = if s > 1 / 2 then 1 else 0) →
      c * s = if s > 1 / 2 then c else 0 := by
    intro c s hs
    by_cases h : s > 1 / 2
    · rw [if_pos h] at hs ⊢
      rw [hs, mul_one]
    · rw [if_neg h] at hs ⊢
      rw [hs, mul_zero]
  have hneg : ∀ (l : List Nat) (f : Nat → ℚ), (l.map fun i => -f i).sum = -(l.map f).sum := by
    intro l f
    induction l with
    | nil => simp
    | cons a rest ih => simp only [List.map_cons, List.sum_cons, ih]; ring
  have hx : ((List.range pd.nLinks).map fun idx => createdObj pd k alpha beta idx * sol idx).sum
      = -((List.range pd.nLinks).map fun i =>
            if sol i > 1 / 2 then tempC pd k alpha i else 0).sum := by
    rw [← hneg]
    congr 1
    apply List.map_congr_left
    intro i hi
    have hi' := List.mem_range.1 hi
    rw [hmul _ _ (hbin i (by rw [hN]; omega))]
    by_cases hs : sol i > 1 / 2
    · rw [if_pos hs, if_pos hs]; simp [createdObj, hi']
    · rw [if_neg hs, if_neg hs, neg_zero]
  have hy : ((List.range (pd.nOpticalLinks * pd.nWaveLength)).map fun t =>
        createdObj pd k alpha beta (pd.nLinks + t) * sol (pd.nLinks + t)).sum
      = ((List.range (pd.nOpticalLinks * pd.nWaveLength)).map fun t =>
            if sol (pd.nLinks + t) > 1 / 2 then beta t else 0).sum := by
    congr 1
    apply List.map_congr_left
    intro t ht
    have ht' := List.mem_range.1 ht
    rw [hmul _ _ (hbin (pd.nLinks + t) (by rw [hN]; omega))]
    by_cases hs : sol (pd.nLinks + t) > 1 / 2
    · rw [if_pos hs, if_pos hs]; simp [createdObj, ht']
    · rw [if_neg hs, if_neg hs]
  have hz : ((List.range (pd.nOpticalLinks * pd.nWaveLength)).map fun t =>
        createdObj pd k alpha beta (pd.nLinks + pd.nOpticalLinks * pd.nWaveLength + t)
          * sol (pd.nLinks + pd.nOpticalLinks * pd.nWaveLength + t)).sum = 0 := by
    apply List.sum_eq_zero
    intro x hx'
    obtain ⟨t, _, rfl⟩ := List.mem_map.1 hx'
    have h1 : ¬ pd.nLinks + pd.nOpticalLinks * pd.nWaveLength + t < pd.nLinks := by omega
    have h2 : ¬ pd.nLinks + pd.nOpticalLinks * pd.nWaveLength + t
        < pd.nLinks + pd.nOpticalLinks * pd.nWaveLength := by omega
    simp only [createdObj, if_neg h1, if_neg h2, zero_mul]
  rw [hN, List.range_add, List.range_add, List.map_append, List.map_append, List.sum_append,
    List.sum_append, List.map_map, List.map_map]
  simp only [Function.comp_def]
  rw [hx, hy, hz, add_zero]

theorem enumFrom_map_pos {β : Type} (l : List Nat) (n : Nat) (hn : 0 < n) (g1 g2 : Nat → β) :
    (l.enumFrom n).map (fun p => if p.1 = 0 then g1 p.2 else g2 p.2) = l.map g2 := by
  induction l generalizing n with
  | nil => rfl
  | cons a rest ih =>
    simp only [List.enumFrom_cons, List.map_cons]
    rw [ih (n + 1) (by omega), if_neg (by omega)]

theorem coefs_sum (pd : SCIP_PricerData) (k : Nat) (alpha beta gamma : Nat → ℚ) (sol : Sol)
    (hk : k < pd.nFlows) :
    ((columnCoefs pd k (buildConsids pd k sol)).map fun p =>
        dualOf pd alpha beta gamma p.1 * (p.2 : ℚ)).sum
      = gamma k
        + ((List.range pd.nElecLinks).map fun i =>
            if sol (pd.nOpticalLinks + i) > 1 / 2
            then alpha i * ((pd.flow k).BandWidth : ℚ) else 0).sum
        + ((List.range (pd.nOpticalLinks * pd.nWaveLength)).map fun t =>
            if sol (pd.nLinks + t) > 1 / 2 then beta t else 0).sum := by
  rw [buildConsids_eq]
  unfold columnCoefs
  rw [List.append_assoc, List.singleton_append, List.enum_cons, List.map_cons]
  have hg := enumFrom_map_pos
    (((List.range pd.nElecLinks).filterMap fun i =>
        if sol (pd.nOpticalLinks + i) > 1 / 2 then some (pd.nFlows + i) else none) ++
      ((List.range (pd.nOpticalLinks * pd.nWaveLength)).filterMap fun t =>
        if sol (pd.nLinks + t) > 1 / 2 then some (pd.nFlows + pd.nElecLinks + t) else none))
    1 (by omega) (fun id => ((id, (1 : Int)) : Nat × Int))
    (fun id => if id < pd.nFlows + pd.nElecLinks then (id, (pd.flow k).BandWidth) else (id, 1))
  rw [hg]
  simp only [if_true, List.map_cons, List.sum_cons, List.map_append, List.sum_append,
    List.map_map, Function.comp_def]
  have h1 := sum_filterMap_ite (List.range pd.nElecLinks)
    (fun i => sol (pd.nOpticalLinks + i) > 1 / 2) (fun i => pd.nFlows + i)
    (fun id => dualOf pd alpha beta gamma
        (if id < pd.nFlows + pd.nElecLinks then (id, (pd.flow k).BandWidth) else (id, 1)).1
      * (((if id < pd.nFlows + pd.nElecLinks then (id, (pd.flow k).BandWidth)
          else (id, (1 : Int))).2 : Int) : ℚ))
  have h2 := sum_filterMap_ite (List.range (pd.nOpticalLinks * pd.nWaveLength))
    (fun t => sol (pd.nLinks + t) > 1 / 2) (fun t => pd.nFlows + pd.nElecLinks + t)
    (fun id => dualOf pd alpha beta gamma
        (if id < pd.nFlows + pd.nElecLinks then (id, (pd.flow k).BandWidth) else (id, 1)).1
      * (((if id < pd.nFlows + pd.nElecLinks then (id, (pd.flow k).BandWidth)
          else (id, (1 : Int))).2 : Int) : ℚ))
  rw [h1, h2]
  have e0 : dualOf pd alpha beta gamma k * ((1 : Int) : ℚ) = gamma k := by
    simp [dualOf, hk]
  have e1 : ((List.range pd.nElecLinks).map fun i =>
        if sol (pd.nOpticalLinks + i) > 1 / 2 then
          dualOf pd alpha beta gamma
            (if pd.nFlows + i < pd.nFlows + pd.nElecLinks then
              (pd.nFlows + i, (pd.flow k).BandWidth) else (pd.nFlows + i, 1)).1
          * (((if pd.nFlows + i < pd.nFlows + pd.nElecLinks then
              (pd.nFlows + i, (pd.flow k).BandWidth) else (pd.nFlows + i, (1 : Int))).2 : Int) : ℚ)
        else 0)
      = (List.range pd.nElecLinks).map fun i =>
        if sol (pd.nOpticalLinks + i) > 1 / 2
        then alpha i * ((pd.flow k).BandWidth : ℚ) else 0 := by
    apply List.map_congr_left
    intro i hi
    have hi' := List.mem_range.1 hi
    have hlt : pd.nFlows + i < pd.nFlows + pd.nElecLinks := by omega
    simp [hlt, dualOf]
  have e2 : ((List.range (pd.nOpticalLinks * pd.nWaveLength)).map fun t =>
        if sol (pd.nLinks + t) > 1 / 2 then
          dualOf pd alpha beta gamma
            (if pd.nFlows + pd.nElecLinks + t < pd.nFlows + pd.nElecLinks then
              (pd.nFlows + pd.nElecLinks + t, (pd.flow k).BandWidth)
              else (pd.nFlows + pd.nElecLinks + t, 1)).1
          * (((if pd.nFlows + pd.nElecLinks + t < pd.nFlows + pd.nElecLinks then
              (pd.nFlows + pd.nElecLinks + t, (pd.flow k).BandWidth)
              else (pd.nFlows + pd.nElecLinks + t, (1 : Int))).2 : Int) : ℚ)
        else 0)
      = (List.range (pd.nOpticalLinks * pd.nWaveLength)).map fun t =>
        if sol (pd.nLinks + t) > 1 / 2 then beta t else 0 := by
    apply List.map_congr_left
    intro t _
    have hlt : ¬ pd.nFlows + pd.nElecLinks + t < pd.nFlows + pd.nElecLinks := by omega
    have hlt2 : ¬ pd.nFlows + pd.nElecLinks + t < pd.nFlows := by omega
    have hsub : pd.nFlows + pd.nElecLinks + t - pd.nFlows - pd.nElecLinks = t := by omega
    simp [hlt, hlt2, dualOf, hsub]
  rw [e0, e1, e2]
  ring


/-- Reduced cost of the column created for a feasible assignment: `Priority - 1` times the
cost sum of the chosen links, minus the subproblem objective plus `gamma[k]`. -/
theorem reducedCost_eq (pd : SCIP_PricerData) (conshdlr : List ZerooneCons) (k seq : Nat)
    (alpha beta gamma : Nat → ℚ) (sol : Sol) (hk : k < pd.nFlows)
    (hn : pd.nOpticalLinks ≤ pd.nLinks)
    (hfeas : SCIPcheckSolOrig (initPricing pd conshdlr k alpha beta) sol = true) :
    reducedCost pd alpha beta gamma (newColumn pd k seq sol)
      = ((pd.flow k).Priority - 1)
          * ((pd.flow k).DelayPrice * sumDelays pd sol
              + (pd.flow k).JitterPrice * sumJitters pd sol
              + ((pd.flow k).BandWidth : ℚ) * sumBandCosts pd sol)
        - (SCIPgetSolOrigObj (initPricing pd conshdlr k alpha beta) sol + gamma k) := by
  have h1 := solObj_split pd conshdlr k alpha beta sol hfeas
  have h2 := sum_tempC pd k alpha sol hn
  have h3 := sum_linkCost pd k sol
  have h4 := coefs_sum pd k alpha beta gamma sol hk
  unfold reducedCost
  have hc : (newColumn pd k seq sol).coefs = columnCoefs pd k (buildConsids pd k sol) := rfl
  have ho : (newColumn pd k seq sol).obj = (pd.flow k).Priority
      * ((pd.flow k).DelayPrice * sumDelays pd sol
          + (pd.flow k).JitterPrice * sumJitters pd sol
          + ((pd.flow k).BandWidth : ℚ) * sumBandCosts pd sol) := by
    simp [newColumn, columnObj, sumLinks_eq]
  rw [hc, ho, h4, h1, h2, ← h3]
  ring

/-- For a flow of priority one every accepted assignment gives a column of negative reduced
cost. -/
theorem reducedCost_neg_of_unit_priority (pd : SCIP_PricerData) (conshdlr : List ZerooneCons)
    (k seq : Nat) (alpha beta gamma : Nat → ℚ) (sol : Sol) (hk : k < pd.nFlows)
    (hn : pd.nOpticalLinks ≤ pd.nLinks) (hP : (pd.flow k).Priority = 1)
    (hfeas : SCIPcheckSolOrig (initPricing pd conshdlr k alpha beta) sol = true)
    (hobj : SCIPgetSolOrigObj (initPricing pd conshdlr k alpha beta) sol > -(gamma k)) :
    reducedCost pd alpha beta gamma (newColumn pd k seq sol) < 0 := by
  rw [reducedCost_eq pd conshdlr k seq alpha beta gamma sol hk hn hfeas, hP]
  linarith

/-! ## Evaluation of the code on concrete data -/

/-- Claim C1, evaluated where it fails: for the flow of priority two of `priorityNet`, no
dual on the links and `gamma[0] = 20`, the assignment choosing link 0 is feasible and has
subproblem objective `-14 > -20`, so it is accepted; the column added for it costs 28 and
its reduced cost is `28 - 20 = 8`, which is not negative. -/
theorem reducedCost_positive_at_priority_two :
    SCIPcheckSolOrig (initPricing priorityNet [] 0 (fun _ => 0) (fun _ => 0)) solLink0 = true ∧
    SCIPgetSolOrigObj (initPricing priorityNet [] 0 (fun _ => 0) (fun _ => 0)) solLink0 = -14 ∧
    SCIPgetSolOrigObj (initPricing priorityNet [] 0 (fun _ => 0) (fun _ => 0)) solLink0 > -20 ∧
    (acceptedSols priorityNet [] 0 (fun _ => 0) (fun _ => 0) (fun _ => 20) [solLink0]).map
        Prod.fst = [0] ∧
    (pricerRedcostFlow priorityNet [] 0 (fun _ => 0) (fun _ => 0) (fun _ => 20) [solLink0] 1).map
        (fun c => (c.obj, reducedCost priorityNet (fun _ => 0) (fun _ => 0) (fun _ => 20) c))
      = [(28, 8)] := by
  refine ⟨by decide!, by decide!, by decide!, by decide!, by decide!⟩

/-- Claim C2, evaluated where it fails: two columns of flow 0 at weight one half differ on
link 2 only, the aggregate usages of links 0 to 3 are 1, 1, 1/2, 0, so the first pair with a
usage other than 0 and 1 is (0, 2); the candidate search returns (0, 1), because
`fracOriVal` still holds the usage of link 0 when the usage of link 1 is added. -/
theorem branch_selects_shared_arc :
    sharedArcsCands.map (fun c => (c.1.seq, c.1.vardata.oriFlowVars, c.2))
      = [(1, [1, 1, 1, 0], 1 / 2), (2, [1, 1, 0, 0], 1 / 2)] ∧
    (List.range 4).map (aggUsage sharedArcsCands 0) = [1, 1, 1 / 2, 0] ∧
    firstFractionalPair 1 4 sharedArcsCands = some (0, 2) ∧
    ∀ tempI, branchExeclpOriginalvar defaultFeastol tempI 1 4 0 1 sharedArcsCands
      = some (0, 1) := by
  refine ⟨by decide!, by decide!, by decide!, fun tempI => ?_⟩
  rw [branch_named defaultFeastol tempI 0 1 4 0 1 sharedArcsCands (by decide!)]
  decide!

/-- The `ONE` child of the root over `forkPool` is reachable: the two routes carry weight
one half each, the search returns (0, 1), and propagation fixes the initial column. -/
theorem forkChild_reachable : Reachable defaultFeastol 1 6 0 1 forkChild :=
  Reachable.child forkRoot [0, 1 / 2, 1 / 2] 0 1 (branchChildren 0 1).2 0 (fun _ _ => 0)
    (Reachable.root forkPool (by decide!)) (by decide!) (by decide!) (Or.inr rfl) (by decide!)

/-- Claim C6, evaluated where it fails: in the `ONE` child for (0, 1) both routes stay
unfixed and may again carry one half each, all aggregate usages of the flow being 1 or 1/2;
the search returns (0, 1) once more, so the states reached next hold the pair (0, 1) twice,
with equal polarity in one child and with opposite polarity in the other. -/
theorem duplicate_pair_reachable :
    Reachable defaultFeastol 1 6 0 1 forkGrandchild ∧
    forkGrandchild.conss.map (fun c => (c.index1, c.index2, c.type))
      = [(0, 1, CONSTYPE.ONE), (0, 1, CONSTYPE.ONE)] ∧
    Reachable defaultFeastol 1 6 0 1 forkGrandchildZero ∧
    forkGrandchildZero.conss.map (fun c => (c.index1, c.index2, c.type))
      = [(0, 1, CONSTYPE.ONE), (0, 1, CONSTYPE.ZERO)] ∧
    (List.range 6).map (aggUsage (SCIPgetLPBranchCands forkChild.vars [0, 1 / 2, 1 / 2]) 0)
      = [1, 1, 1 / 2, 1 / 2, 1 / 2, 0] := by
  refine ⟨?_, by decide!, ?_, by decide!, by decide!⟩
  · exact Reachable.child forkChild [0, 1 / 2, 1 / 2] 0 1 (branchChildren 0 1).2 0
      (fun _ _ => 0) forkChild_reachable (by decide!) (by decide!) (Or.inr rfl) (by decide!)
  · exact Reachable.child forkChild [0, 1 / 2, 1 / 2] 0 1 (branchChildren 0 1).1 0
      (fun _ _ => 0) forkChild_reachable (by decide!) (by decide!) (Or.inl rfl) (by decide!)

/-- Counterexample to claim C5 as stated: with two active constraints of flow 0 on
variable 0, `ZERO` first and `ONE` second, the subproblem variable ends fixed to one, the
assignment choosing link 0 is accepted, the new column has incidence entry 1, and
`checkVariable` of the active `ZERO` constraint fixes the fresh column to zero. -/
theorem opposite_constraints_fix_fresh_column :
    (∀ c ∈ oppositeConss, c.active = true ∧ c.data.index1 = 0 ∧ c.data.index2 = 0) ∧
    (initPricing priorityNet oppositeConss 0 (fun _ => 0) (fun _ => 0)).vars.map
        (fun v => (v.lb, v.ub)) = [(1, 1), (0, 1)] ∧
    (acceptedSols priorityNet oppositeConss 0 (fun _ => 0) (fun _ => 0) (fun _ => 20)
        [solLink0]).map Prod.fst = [0] ∧
    (newColumn priorityNet 0 1 solLink0).bit 0 = 1 ∧
    ∀ tempI, checkVariable (consdataCreate 0 0 CONSTYPE.ZERO)
        (newColumn priorityNet 0 1 solLink0) tempI 0 false
      = ((newColumn priorityNet 0 1 solLink0).fixedToZero, 1, false) := by
  refine ⟨by decide!, by decide!, by decide!, by decide!, fun tempI => ?_⟩
  rw [checkVariable_named _ _ tempI 0 0 false rfl]
  decide!

/-- The result of `consdataFixVariables` is the value passed in when nothing is fixed:
after the `ZERO` constraint on (0, 0) has fixed the first of two columns (result
`REDUCEDDOM`), the run for the `ZERO` constraint on (0, 1) meets no conflicting column,
fixes nothing, leaves the pool as it is, and still ends with `REDUCEDDOM`; these are the two
runs that `consPropZeroone` makes for the two constraints. -/
theorem result_kept_without_fixing :
    consdataFixVariables (consdataCreate 0 0 CONSTYPE.ZERO)
        [freshColumn 0 1 [1, 0], freshColumn 0 2 [0, 0]] (fun _ => 0) SCIP_RESULT.DIDNOTFIND
      = ([(freshColumn 0 1 [1, 0]).fixedToZero, freshColumn 0 2 [0, 0]],
          SCIP_RESULT.REDUCEDDOM) ∧
    (∀ c ∈ [(freshColumn 0 1 [1, 0]).fixedToZero, freshColumn 0 2 [0, 0]],
      ¬ conflicts (consdataCreate 0 1 CONSTYPE.ZERO) c) ∧
    consdataFixVariables (consdataCreate 0 1 CONSTYPE.ZERO)
        [(freshColumn 0 1 [1, 0]).fixedToZero, freshColumn 0 2 [0, 0]] (fun _ => 0)
        SCIP_RESULT.REDUCEDDOM
      = ([(freshColumn 0 1 [1, 0]).fixedToZero, freshColumn 0 2 [0, 0]],
          SCIP_RESULT.REDUCEDDOM) ∧
    (consPropZeroone [consdataCreate 0 0 CONSTYPE.ZERO, consdataCreate 0 1 CONSTYPE.ZERO]
        [freshColumn 0 1 [1, 0], freshColumn 0 2 [0, 0]] (fun _ _ => 0)).2.2
      = SCIP_RESULT.REDUCEDDOM := by
  refine ⟨by decide!, by decide!, by decide!, by decide!⟩

/-! ## Transformed initial columns under a branching constraint -/

theorem fixLoop_solvingPool (cd : SCIP_ConsData) (u : Nat → Int) (rest : List MasterVar)
    (hrest : ∀ v ∈ rest, v.transformed = false) (ht : u 0 ≠ (cd.index1 : Int)) (lb : ℚ) :
    fixLoop cd ({ initialColumn with lb := lb } :: rest) u 0
      = ({ initialColumn with lb := lb } :: (fixLoop cd rest (fun _ => 0) 0).1,
          (fixLoop cd rest (fun _ => 0) 0).2.1, (fixLoop cd rest (fun _ => 0) 0).2.2) := by
  rw [fixLoop]
  dsimp only
  rw [checkVariable_transformed cd _ (u 0) 0 false rfl ht]
  simp only [Bool.false_eq_true, if_false]
  rw [fixLoop_named cd rest (fun n => u (n + 1)) (fun _ => 0) 0 hrest]

/-- Claim C3 fails on the code: `checkVariable` takes the flow of a column from its name
with `sscanf(name, "lambda_%d_%d", ...)`. The initial columns of the pool are the
transformed copies named `t_lambda_<flow>_0`, the pattern does not match them, and the
number compared with `index1` is the content of the uninitialised local `tempI`; whenever
that differs from `index1`, a transformed column is left as it is by either polarity.
Over `solvingPool` with the weights 0, 1/2, 1/2 the branching rule returns the candidate
(0, 0); the initial column of flow 0 is unfixed in the parent and has incidence entry 0
equal to zero, so it conflicts with the `ONE` constraint, and it is left unfixed both by the
`ZERO` and by the `ONE` constraint: the two sets of unfixed columns of flow 0 are not
disjoint. -/
theorem initial_column_unfixed_in_both_children :
    (∀ (cd : SCIP_ConsData) (v : MasterVar) (tempI : Int) (n : Nat) (cut : Bool),
      v.transformed = true → tempI ≠ (cd.index1 : Int) →
      checkVariable cd v tempI n cut = (v, n, cut)) ∧
    solvingPool.map (fun v => (v.transformed, v.flow, v.seq, v.vardata.oriFlowVars))
      = [(true, 0, 0, [0, 0, 1]), (false, 0, 1, [1, 0, 0]), (false, 0, 2, [0, 1, 0])] ∧
    lpAdmissible 1 solvingPool [0, 1 / 2, 1 / 2] ∧
    (∀ tempI, branchExeclpOriginalvar defaultFeastol tempI 1 3 0 0
      (SCIPgetLPBranchCands solvingPool [0, 1 / 2, 1 / 2]) = some (0, 0)) ∧
    initialColumn ∈ solvingPool ∧ initialColumn.flow = 0 ∧ initialColumn.unfixed ∧
    conflicts (branchChildren 0 0).2 initialColumn ∧
    (∀ tempI : Int, tempI ≠ 0 →
      (checkVariable (branchChildren 0 0).1 initialColumn tempI 0 false).1.unfixed ∧
      (checkVariable (branchChildren 0 0).2 initialColumn tempI 0 false).1.unfixed) := by
  refine ⟨fun cd v tempI n cut htr ht => checkVariable_transformed cd v tempI n cut htr ht,
    by decide!, by decide!, fun tempI => ?_, by decide!, rfl, by decide!, by decide!,
    fun tempI ht => ?_⟩
  · rw [branch_named defaultFeastol tempI 0 1 3 0 0 _ (by decide!)]
    decide!
  · rw [checkVariable_transformed (branchChildren 0 0).1 initialColumn tempI 0 false rfl
        (by simpa [branchChildren, consdataCreate] using ht),
      checkVariable_transformed (branchChildren 0 0).2 initialColumn tempI 0 false rfl
        (by simpa [branchChildren, consdataCreate] using ht)]
    exact ⟨by decide!, by decide!⟩

/-- Claim C4 fails on the code: the run of `consdataFixVariables` for the `ONE` constraint
on (0, 0) over `solvingPool`, from position `npropagatedvars = 0`, ends without cutoff with
the result `REDUCEDDOM`; the transformed initial column `t_lambda_0_0` at position 0 belongs
to flow 0, is not fixed to zero and has incidence entry 0 equal to zero, and it keeps its
upper bound one, whenever the uninitialised local of `checkVariable` holds a number other
than 0 in the call for it. The column `lambda_0_2` of the pricer with the same incidence
entry is fixed to zero by the same run. -/
theorem initial_column_escapes_fixing :
    (consdataCreate 0 0 CONSTYPE.ONE).npropagatedvars = 0 ∧
    solvingPool[0]? = some initialColumn ∧
    initialColumn.flow = 0 ∧ initialColumn.unfixed ∧ initialColumn.bit 0 = 0 ∧
    conflicts (consdataCreate 0 0 CONSTYPE.ONE) initialColumn ∧
    (∀ uninit : Nat → Int, uninit 0 ≠ 0 →
      consdataFixVariables (consdataCreate 0 0 CONSTYPE.ONE) solvingPool uninit
          SCIP_RESULT.DIDNOTFIND
        = ([initialColumn, freshColumn 0 1 [1, 0, 0], (freshColumn 0 2 [0, 1, 0]).fixedToZero],
            SCIP_RESULT.REDUCEDDOM)) ∧
    initialColumn.ub = 1 ∧ (freshColumn 0 2 [0, 1, 0]).fixedToZero.ub = 0 := by
  refine ⟨rfl, rfl, rfl, by decide!, by decide!, by decide!, fun uninit hu => ?_, rfl, rfl⟩
  have h := fixLoop_solvingPool (consdataCreate 0 0 CONSTYPE.ONE) uninit
    [freshColumn 0 1 [1, 0, 0], freshColumn 0 2 [0, 1, 0]] (by decide!)
    (by simpa [consdataCreate] using hu) 0
  have hl : fixLoop (consdataCreate 0 0 CONSTYPE.ONE)
      [freshColumn 0 1 [1, 0, 0], freshColumn 0 2 [0, 1, 0]] (fun _ => 0) 0
      = ([freshColumn 0 1 [1, 0, 0], (freshColumn 0 2 [0, 1, 0]).fixedToZero], 1, false) := by
    decide!
  rw [hl] at h
  have hp : solvingPool.drop (consdataCreate 0 0 CONSTYPE.ONE).npropagatedvars
      = { initialColumn with lb := 0 }
          :: [freshColumn 0 1 [1, 0, 0], freshColumn 0 2 [0, 1, 0]] := by decide!
  have hu0 : (fun n => uninit ((consdataCreate 0 0 CONSTYPE.ONE).npropagatedvars + n))
      = uninit := by
    funext n
    show uninit (0 + n) = uninit n
    rw [Nat.zero_add]
  unfold consdataFixVariables
  rw [hp, hu0, h]
  have hi : ({ initialColumn with lb := 0 } : MasterVar) = initialColumn := by decide!
  rw [hi]
  rfl

/-- Claim C7 fails on the code: in `forcedInitialPool` the transformed initial column
`t_lambda_0_0` at position 0 belongs to flow 0, is not fixed to zero, has incidence entry 0
equal to zero, which conflicts with the `ONE` constraint on (0, 0), and has lower bound one;
the run of `consdataFixVariables` from position 0 does not report `CUTOFF`, and
`consPropZeroone` marks the constraint as propagated over both columns, whenever the
uninitialised local of `checkVariable` holds a number other than 0 in the call for that
column. -/
theorem forced_initial_column_no_cutoff :
    (consdataCreate 0 0 CONSTYPE.ONE).npropagatedvars = 0 ∧
    forcedInitialPool[0]? = some { initialColumn with lb := 1 } ∧
    ({ initialColumn with lb := 1 } : MasterVar).flow = 0 ∧
    ({ initialColumn with lb := 1 } : MasterVar).unfixed ∧
    conflicts (consdataCreate 0 0 CONSTYPE.ONE) { initialColumn with lb := 1 } ∧
    ({ initialColumn with lb := 1 } : MasterVar).lb = 1 ∧
    (∀ uninit : Nat → Int, uninit 0 ≠ 0 →
      consdataFixVariables (consdataCreate 0 0 CONSTYPE.ONE) forcedInitialPool uninit
          SCIP_RESULT.DIDNOTFIND
        = (forcedInitialPool, SCIP_RESULT.DIDNOTFIND)) ∧
    (∀ uninit : Nat → Nat → Int, uninit 0 0 ≠ 0 →
      consPropZeroone [consdataCreate 0 0 CONSTYPE.ONE] forcedInitialPool uninit
        = (forcedInitialPool,
            [{ consdataCreate 0 0 CONSTYPE.ONE with
                npropagations := 1, propagated := true, npropagatedvars := 2 }],
            SCIP_RESULT.DIDNOTFIND)) := by
  have hfix : ∀ uninit : Nat → Int, uninit 0 ≠ 0 →
      consdataFixVariables (consdataCreate 0 0 CONSTYPE.ONE) forcedInitialPool uninit
          SCIP_RESULT.DIDNOTFIND
        = (forcedInitialPool, SCIP_RESULT.DIDNOTFIND) := by
    intro uninit hu
    have h := fixLoop_solvingPool (consdataCreate 0 0 CONSTYPE.ONE) uninit
      [freshColumn 0 1 [1, 0, 0]] (by decide!) (by simpa [consdataCreate] using hu) 1
    have hl : fixLoop (consdataCreate 0 0 CONSTYPE.ONE) [freshColumn 0 1 [1, 0, 0]]
        (fun _ => 0) 0 = ([freshColumn 0 1 [1, 0, 0]], 0, false) := by decide!
    rw [hl] at h
    have hp : forcedInitialPool.drop (consdataCreate 0 0 CONSTYPE.ONE).npropagatedvars
        = { initialColumn with lb := 1 } :: [freshColumn 0 1 [1, 0, 0]] := rfl
    have hu0 : (fun n => uninit ((consdataCreate 0 0 CONSTYPE.ONE).npropagatedvars + n))
        = uninit := by
      funext n
      show uninit (0 + n) = uninit n
      rw [Nat.zero_add]
    unfold consdataFixVariables
    rw [hp, hu0, h]
    rfl
  refine ⟨rfl, rfl, rfl, by decide!, by decide!, rfl, hfix, fun uninit hu => ?_⟩
  unfold consPropZeroone consPropLoop
  rw [hfix (uninit 0) hu]
  rfl

/-! ## Instances of the general statements -/

/-- Instance of `branching_decisions_priced` on `priorityNet` with one `ONE` constraint. -/
theorem branching_decisions_priced_witness :
    (∀ c ∈ oneConss, ∀ c' ∈ oneConss, c.active = true → c'.active = true →
      c.data.index1 = 0 → c'.data.index1 = 0 → c.data.index2 = c'.data.index2 →
      c.data.type = c'.data.type) ∧
    (acceptedSols priorityNet oneConss 0 (fun _ => 0) (fun _ => 0) (fun _ => 20)
        [solLink0]).map Prod.fst = [0] ∧
    (initPricing priorityNet oneConss 0 (fun _ => 0) (fun _ => 0)).vars[0]?
      = ((createX priorityNet 0 (fun _ => 0) ++ createY priorityNet (fun _ => 0)
            ++ createZ priorityNet)[0]?).map
          fun v => { v with lb := CONSTYPE.ONE.val, ub := CONSTYPE.ONE.val } :=
  ⟨by decide!, by decide!,
    (branching_decisions_priced priorityNet oneConss 0 (fun _ => 0) (fun _ => 0) (fun _ => 20)
      [solLink0] (by decide!)).1 { data := consdataCreate 0 0 CONSTYPE.ONE, active := true }
      (by decide!) rfl rfl⟩

/-- Instance of `consids_sorted` on `priorityNet` for the assignment choosing link 0. -/
theorem consids_sorted_witness :
    0 < priorityNet.nFlows ∧
    (newColumn priorityNet 0 1 solLink0).vardata.consids = [0, 1] ∧
    (newColumn priorityNet 0 1 solLink0).vardata.consids.Sorted (· < ·) :=
  ⟨by decide, by decide!, (consids_sorted priorityNet 0 1 solLink0 (by decide)).2.1⟩

theorem accepted_link0 :
    acceptedSols priorityNet [] 0 (fun _ => 0) (fun _ => 0) (fun _ => 20) [solLink0]
      = [(0, solLink0)] := by
  show solLoop _ _ [(0, solLink0)] = _
  rw [solLoop, if_neg (by decide!), if_pos (by decide!), solLoop]

/-- Instance of `column_cost`: the assignment choosing link 0 of `priorityNet` is accepted
and the column `lambda_0_1` built from it costs `2 * (1 * 3 + 1 * 1 + 10 * 1) = 28`; and
scenario A with delays 3 and 4 and jitter 5 at node 0. -/
theorem column_cost_witness :
    (acceptedSols priorityNet [] 0 (fun _ => 0) (fun _ => 0) (fun _ => 20) [solLink0])[0]?
      = some (0, solLink0) ∧
    (∃ col, (pricerRedcostFlow priorityNet [] 0 (fun _ => 0) (fun _ => 0) (fun _ => 20)
        [solLink0] 1)[0]? = some col ∧ col.flow = 0 ∧ col.seq = 1 + 0 ∧
      col.obj = (priorityNet.flow 0).Priority *
        ((priorityNet.flow 0).DelayPrice * sumDelays priorityNet solLink0
          + (priorityNet.flow 0).JitterPrice * sumJitters priorityNet solLink0
          + ((priorityNet.flow 0).BandWidth : ℚ) * sumBandCosts priorityNet solLink0)) ∧
    (priorityNet.flow 0).Priority *
        ((priorityNet.flow 0).DelayPrice * sumDelays priorityNet solLink0
          + (priorityNet.flow 0).JitterPrice * sumJitters priorityNet solLink0
          + ((priorityNet.flow 0).BandWidth : ℚ) * sumBandCosts priorityNet solLink0) = 28 ∧
    solLink0 0 > 1 / 2 ∧ ¬ solLink0 1 > 1 / 2 ∧
    columnObj (scenarioA ⟨3, 4, 5, 1, [0]⟩ ⟨0, 0, 0, 1, [0]⟩ ⟨400, 1000, 0, 1000, 0, 0, 1⟩ 2 4 100)
        0 solLink0
      = 1 * (200 * (3 + 4 + 0 + 0) + 500 * 5 + 400 * 1) :=
  have h : (acceptedSols priorityNet [] 0 (fun _ => 0) (fun _ => 0) (fun _ => 20)
      [solLink0])[0]? = some (0, solLink0) := by rw [accepted_link0]; rfl
  ⟨h,
    (column_cost priorityNet [] 0 (fun _ => 0) (fun _ => 0) (fun _ => 20) [solLink0] 1).2.1
      0 0 solLink0 h,
    by decide!, by decide!, by decide!,
    (column_cost priorityNet [] 0 (fun _ => 0) (fun _ => 0) (fun _ => 0) [] 0).2.2
      ⟨3, 4, 5, 1, [0]⟩ ⟨0, 0, 0, 1, [0]⟩ ⟨400, 1000, 0, 1000, 0, 0, 1⟩ 2 4 100 solLink0
      (by decide!) (by decide!)⟩

/-- Instance of `pricer_adds_at_most_three` with four copies of a profitable solution. -/
theorem pricer_adds_at_most_three_witness :
    (pricerRedcostFlow priorityNet [] 0 (fun _ => 0) (fun _ => 0) (fun _ => 20)
        [solLink0, solLink0, solLink0, solLink0] 1).length = 3 ∧
    (pricerRedcostFlow priorityNet [] 0 (fun _ => 0) (fun _ => 0) (fun _ => 20)
        [solLink0, solLink0, solLink0, solLink0] 1).length ≤ 3 :=
  ⟨by decide!,
    (pricer_adds_at_most_three priorityNet [] 0 (fun _ => 0) (fun _ => 0) (fun _ => 20)
      [solLink0, solLink0, solLink0, solLink0] 1).1⟩

/-! ## Array writes of the reader and of `SCIPprobdataCreate` -/

theorem foldl_modify_getElem? {β : Type} (g : Nat → β → β) (n s : Nat) (L : List β) (j : Nat) :
    ((List.range' s n).foldl (fun L i => L.modify (g i) i) L)[j]?
      = if s ≤ j ∧ j < s + n then (L[j]?).map (g j) else L[j]? := by
  induction n generalizing s L with
  | zero =>
    have : ¬ (s ≤ j ∧ j < s + 0) := by omega
    rw [if_neg this]; rfl
  | succ n ih =>
    rw [List.range'_succ, List.foldl_cons, ih, List.getElem?_modify]
    by_cases hj : s = j
    · subst hj
      simp
    · have h1 : (s + 1 ≤ j ∧ j < s + 1 + n) ↔ (s ≤ j ∧ j < s + (n + 1)) := by omega
      simp only [h1, hj, if_false]
      cases L[j]? <;> simp

theorem foldl_modify_length {β : Type} (g : Nat → β → β) (l : List Nat) (L : List β) :
    (l.foldl (fun L i => L.modify (g i) i) L).length = L.length := by
  induction l generalizing L with
  | nil => rfl
  | cons a t ih => rw [List.foldl_cons, ih, List.length_modify]

theorem foldl_set_length {β : Type} (f : Nat → Nat) (g : Nat → β) (l : List Nat) (L : List β) :
    (l.foldl (fun L i => L.set (f i) (g i)) L).length = L.length := by
  induction l generalizing L with
  | nil => rfl
  | cons a t ih => rw [List.foldl_cons, ih, List.length_set]

theorem foldl_set_getElem? {β : Type} (f : Nat → Nat) (g : Nat → β) (off : Nat)
    (hf : ∀ i, f i = off + i) (n : Nat) (L : List β) (j : Nat) :
    ((List.range n).foldl (fun L i => L.set (f i) (g i)) L)[j]?
      = if off ≤ j ∧ j < off + n ∧ j < L.length then some (g (j - off)) else L[j]? := by
  induction n with
  | zero =>
    have : ¬ (off ≤ j ∧ j < off + 0 ∧ j < L.length) := by omega
    rw [if_neg this]; rfl
  | succ n ih =>
    rw [List.range_succ, List.foldl_append, List.foldl_cons, List.foldl_nil, List.getElem?_set,
      foldl_set_length, ih, hf]
    by_cases hj : off + n = j
    · subst hj
      by_cases hl : off + n < L.length
      · simp [hl]
      · simp [hl]
        omega
    · simp only [hj, if_false]
      by_cases hc : off ≤ j ∧ j < off + n ∧ j < L.length
      · rw [if_pos hc, if_pos (by omega)]
      · rw [if_neg hc, if_neg (by omega)]

theorem foldl_nested_range {β : Type} (F : β → Nat → β) (n m : Nat) (a : β) :
    (List.range n).foldl (fun c i => (List.range m).foldl (fun c j => F c (i * m + j)) c) a
      = (List.range (n * m)).foldl F a := by
  induction n with
  | zero => simp
  | succ n ih =>
    rw [List.range_succ, List.foldl_append, ih, Nat.succ_mul, List.range_add, List.foldl_append,
      List.foldl_map]
    simp


theorem createConss_getElem? (pd : SCIP_PricerData) (nCons id : Nat) :
    (createConss pd nCons)[id]? =
      if id < nCons then
        some (if id < pd.nFlows then some MasterCons.setpart
          else if id < pd.nFlows + pd.nElecLinks then
            some (MasterCons.knapsack (pd.link (pd.nOpticalLinks + (id - pd.nFlows))).Capacity)
          else if id < pd.nFlows + pd.nElecLinks + pd.nOpticalLinks * pd.nWaveLength then
            some MasterCons.setpack
          else none)
      else none := by
  unfold createConss
  simp only []
  have h3 : (fun (conss : List (Option MasterCons)) i => (List.range pd.nWaveLength).foldl
        (fun conss j => conss.set (pd.nFlows + pd.nElecLinks + i * pd.nWaveLength + j)
          (some MasterCons.setpack)) conss)
      = (fun c i => (List.range pd.nWaveLength).foldl
        (fun c j => (fun (c : List (Option MasterCons)) t =>
          c.set (pd.nFlows + pd.nElecLinks + t) (some MasterCons.setpack)) c
            (i * pd.nWaveLength + j)) c) := by
    simp only [Nat.add_assoc]
  rw [h3, foldl_nested_range (fun (c : List (Option MasterCons)) t =>
      c.set (pd.nFlows + pd.nElecLinks + t) (some MasterCons.setpack)),
    foldl_set_getElem? (fun t => pd.nFlows + pd.nElecLinks + t) (fun _ => some MasterCons.setpack)
      (pd.nFlows + pd.nElecLinks) (fun _ => rfl),
    foldl_set_getElem? (fun i => i + pd.nFlows)
      (fun i => some (MasterCons.knapsack (pd.link (pd.nOpticalLinks + i)).Capacity))
      pd.nFlows (fun i => Nat.add_comm _ _),
    foldl_set_getElem? (fun i => i) (fun _ => some MasterCons.setpart) 0 (fun i => by simp),
    foldl_set_length, foldl_set_length, List.length_replicate, List.getElem?_replicate]
  by_cases h : id < nCons
  · simp only [h, and_true, if_true]
    split_ifs <;> first | rfl | omega
  · simp only [h, and_false, if_false]

theorem readLinks_getElem? (mem : List OAARLink) (records : List LinkRecord) (nLinks j : Nat) :
    (readLinks mem records nLinks)[j]?
      = if j < nLinks then (mem[j]?).map fun _ => readLink (records.getD j default)
        else mem[j]? := by
  unfold readLinks
  rw [foldl_modify_getElem? (fun i _ => readLink (records.getD i default))]
  simp

theorem setArtificialLinks_getElem? (MAX_PROPDELAY MAX_BANDCOST : ℚ) (Flows : List OAARFlow)
    (nFlows : Nat) (Links : List OAARLink) (nLinks j : Nat) :
    (setArtificialLinks MAX_PROPDELAY MAX_BANDCOST Flows nFlows Links nLinks)[j]?
      = if nLinks ≤ j ∧ j < nLinks + nFlows then
          (Links[j]?).map
            (setArtificialLink MAX_PROPDELAY MAX_BANDCOST (Flows.getD (j - nLinks) default))
        else Links[j]? := by
  unfold setArtificialLinks
  rw [foldl_modify_getElem? (fun i =>
    setArtificialLink MAX_PROPDELAY MAX_BANDCOST (Flows.getD (i - nLinks) default))]

theorem setArtificialLinks_length (MAX_PROPDELAY MAX_BANDCOST : ℚ) (Flows : List OAARFlow)
    (nFlows : Nat) (Links : List OAARLink) (nLinks : Nat) :
    (setArtificialLinks MAX_PROPDELAY MAX_BANDCOST Flows nFlows Links nLinks).length
      = Links.length := by
  unfold setArtificialLinks
  rw [foldl_modify_length (fun i =>
    setArtificialLink MAX_PROPDELAY MAX_BANDCOST (Flows.getD (i - nLinks) default))]

theorem readLinks_length (mem : List OAARLink) (records : List LinkRecord) (nLinks : Nat) :
    (readLinks mem records nLinks).length = mem.length := by
  unfold readLinks
  rw [foldl_modify_length (fun i _ => readLink (records.getD i default))]

/-- Entry `nLinks + i` of the array handed over by the reader. -/
theorem reader_artificial_link (Nodes : List OAARNode) (mem : List OAARLink)
    (records : List LinkRecord) (Flows : List OAARFlow)
    (nNodes nOpticalNodes nLinks nOpticalLinks nFlows nWaveLength : Nat)
    (WaveLengthBand MAX_PROPDELAY MAX_BANDCOST : ℚ) (hmem : mem.length = nLinks + nFlows)
    (i : Nat) (hi : i < nFlows) :
    (readerReadOAAR Nodes mem records Flows nNodes nOpticalNodes nLinks nOpticalLinks nFlows
        nWaveLength WaveLengthBand MAX_PROPDELAY MAX_BANDCOST).1.link (nLinks + i)
      = setArtificialLink MAX_PROPDELAY MAX_BANDCOST (Flows.getD i default)
          (mem.getD (nLinks + i) default) := by
  unfold SCIP_PricerData.link readerReadOAAR augment
  simp only []
  rw [List.getD_eq_getElem?_getD, setArtificialLinks_getElem?, if_pos (by omega),
    readLinks_getElem?, if_neg (by omega), List.getD_eq_getElem?_getD]
  have : nLinks + i < mem.length := by omega
  simp [List.getElem?_eq_getElem this]

/-- Entry `j < nLinks` of the array handed over by the reader. -/
theorem reader_loaded_link (Nodes : List OAARNode) (mem : List OAARLink)
    (records : List LinkRecord) (Flows : List OAARFlow)
    (nNodes nOpticalNodes nLinks nOpticalLinks nFlows nWaveLength : Nat)
    (WaveLengthBand MAX_PROPDELAY MAX_BANDCOST : ℚ) (hmem : mem.length = nLinks + nFlows)
    (j : Nat) (hj : j < nLinks) :
    (readerReadOAAR Nodes mem records Flows nNodes nOpticalNodes nLinks nOpticalLinks nFlows
        nWaveLength WaveLengthBand MAX_PROPDELAY MAX_BANDCOST).1.link j
      = readLink (records.getD j default) := by
  unfold SCIP_PricerData.link readerReadOAAR augment
  simp only []
  rw [List.getD_eq_getElem?_getD, setArtificialLinks_getElem?, if_neg (by omega),
    readLinks_getElem?, if_pos hj]
  have : j < mem.length := by omega
  rw [List.getElem?_eq_getElem this]
  simp


/-- Claim C14: the reader hands over a link array of length `nLinks + nFlows` and the count
`nLinks + nFlows`; the first `nLinks` entries are the loaded links, left as the reading
loop stored them; entry `nLinks + i` has the capacity `BandWidth` of flow `i`, propagation
delay `MAX_PROPDELAY`, bandwidth cost `MAX_BANDCOST`, optical flag `0`, head `Source` and
tail `Destination` of flow `i`. -/
theorem reader_augmentation (Nodes : List OAARNode) (mem : List OAARLink)
    (records : List LinkRecord) (Flows : List OAARFlow)
    (nNodes nOpticalNodes nLinks nOpticalLinks nFlows nWaveLength : Nat)
    (WaveLengthBand MAX_PROPDELAY MAX_BANDCOST : ℚ) (hmem : mem.length = nLinks + nFlows) :
    (readerReadOAAR Nodes mem records Flows nNodes nOpticalNodes nLinks nOpticalLinks nFlows
        nWaveLength WaveLengthBand MAX_PROPDELAY MAX_BANDCOST).1.Links.length = nLinks + nFlows ∧
    (readerReadOAAR Nodes mem records Flows nNodes nOpticalNodes nLinks nOpticalLinks nFlows
        nWaveLength WaveLengthBand MAX_PROPDELAY MAX_BANDCOST).1.nLinks = nLinks + nFlows ∧
    (∀ j, j < nLinks →
      (readerReadOAAR Nodes mem records Flows nNodes nOpticalNodes nLinks nOpticalLinks nFlows
          nWaveLength WaveLengthBand MAX_PROPDELAY MAX_BANDCOST).1.Links[j]?
        = (readLinks mem records nLinks)[j]? ∧
      (readLinks mem records nLinks)[j]? = some (readLink (records.getD j default))) ∧
    (∀ i, i < nFlows →
      ((readerReadOAAR Nodes mem records Flows nNodes nOpticalNodes nLinks nOpticalLinks nFlows
          nWaveLength WaveLengthBand MAX_PROPDELAY MAX_BANDCOST).1.link (nLinks + i)).Capacity
        = (Flows.getD i default).BandWidth ∧
      ((readerReadOAAR Nodes mem records Flows nNodes nOpticalNodes nLinks nOpticalLinks nFlows
          nWaveLength WaveLengthBand MAX_PROPDELAY MAX_BANDCOST).1.link (nLinks + i)).PropDelay
        = MAX_PROPDELAY ∧
      ((readerReadOAAR Nodes mem records Flows nNodes nOpticalNodes nLinks nOpticalLinks nFlows
          nWaveLength WaveLengthBand MAX_PROPDELAY MAX_BANDCOST).1.link (nLinks + i)).BandCost
        = MAX_BANDCOST ∧
      ((readerReadOAAR Nodes mem records Flows nNodes nOpticalNodes nLinks nOpticalLinks nFlows
          nWaveLength WaveLengthBand MAX_PROPDELAY MAX_BANDCOST).1.link (nLinks + i)).IsOptical
        = 0 ∧
      ((readerReadOAAR Nodes mem records Flows nNodes nOpticalNodes nLinks nOpticalLinks nFlows
          nWaveLength WaveLengthBand MAX_PROPDELAY MAX_BANDCOST).1.link (nLinks + i)).Head
        = (Flows.getD i default).Source ∧
      ((readerReadOAAR Nodes mem records Flows nNodes nOpticalNodes nLinks nOpticalLinks nFlows
          nWaveLength WaveLengthBand MAX_PROPDELAY MAX_BANDCOST).1.link (nLinks + i)).Tail
        = (Flows.getD i default).Destination) := by
  refine ⟨?_, rfl, ?_, ?_⟩
  · unfold readerReadOAAR augment
    simp only []
    rw [setArtificialLinks_length, readLinks_length, hmem]
  · intro j hj
    constructor
    · unfold readerReadOAAR augment
      simp only []
      rw [setArtificialLinks_getElem?, if_neg (by omega)]
    · rw [readLinks_getElem?, if_pos hj, List.getElem?_eq_getElem (by omega)]
      rfl
  · intro i hi
    rw [reader_artificial_link Nodes mem records Flows nNodes nOpticalNodes nLinks nOpticalLinks
      nFlows nWaveLength WaveLengthBand MAX_PROPDELAY MAX_BANDCOST hmem i hi]
    exact ⟨rfl, rfl, rfl, rfl, rfl, rfl⟩

theorem augment_iterate (MAX_PROPDELAY MAX_BANDCOST : ℚ) (Flows : List OAARFlow)
    (nFlows : Nat) (Links : List OAARLink) (nLinks n : Nat) :
    ((augment MAX_PROPDELAY MAX_BANDCOST Flows nFlows)^[n] (Links, nLinks)).2
        = nLinks + n * nFlows ∧
    (∀ j, nLinks + n * nFlows ≤ j →
      ((augment MAX_PROPDELAY MAX_BANDCOST Flows nFlows)^[n] (Links, nLinks)).1[j]?
        = Links[j]?) ∧
    (∀ t i, t < n → i < nFlows →
      ((augment MAX_PROPDELAY MAX_BANDCOST Flows nFlows)^[n]
          (Links, nLinks)).1[nLinks + t * nFlows + i]?
        = (Links[nLinks + t * nFlows + i]?).map
            (setArtificialLink MAX_PROPDELAY MAX_BANDCOST (Flows.getD i default))) := by
  induction n with
  | zero => simp
  | succ n ih =>
    obtain ⟨ih1, ih2, ih3⟩ := ih
    rw [Function.iterate_succ_apply']
    have hmul : (n + 1) * nFlows = n * nFlows + nFlows := Nat.succ_mul n nFlows
    refine ⟨?_, ?_, ?_⟩
    · show _ + nFlows = _
      rw [ih1, hmul]; omega
    · intro j hj
      show (setArtificialLinks _ _ _ _ _ _)[j]? = _
      rw [setArtificialLinks_getElem?, ih1, if_neg (by omega), ih2 j (by omega)]
    · intro t i ht hi
      show (setArtificialLinks _ _ _ _ _ _)[_]? = _
      rw [setArtificialLinks_getElem?, ih1]
      by_cases htn : t < n
      · have : nLinks + t * nFlows + nFlows ≤ nLinks + n * nFlows := by
          have := Nat.mul_le_mul_right nFlows (Nat.succ_le_of_lt htn)
          rw [Nat.succ_mul] at this
          omega
        rw [if_neg (by omega), ih3 t i htn hi]
      · have htn' : t = n := by omega
        subst htn'
        rw [if_pos (by omega), ih2 _ (by omega)]
        rw [show nLinks + t * nFlows + i - (nLinks + t * nFlows) = i from by omega]

/-! ## Initial columns and the return code of the construction -/

theorem createConss_getD (pd : SCIP_PricerData) (nCons id : Nat) (h : id < nCons) :
    (createConss pd nCons).getD id none =
      if id < pd.nFlows then some MasterCons.setpart
      else if id < pd.nFlows + pd.nElecLinks then
        some (MasterCons.knapsack (pd.link (pd.nOpticalLinks + (id - pd.nFlows))).Capacity)
      else if id < pd.nFlows + pd.nElecLinks + pd.nOpticalLinks * pd.nWaveLength then
        some MasterCons.setpack
      else none := by
  rw [List.getD_eq_getElem?_getD, createConss_getElem?, if_pos h]
  rfl

theorem createInitialColumnsLoop_eq (pd : SCIP_PricerData) (nCons : Nat)
    (buffers : Nat → List Int) (hwf : pd.nOpticalLinks + pd.nFlows ≤ pd.nLinks)
    (hn : pd.nFlows + pd.nElecLinks ≤ nCons) (l : List Nat) (hl : ∀ i ∈ l, i < pd.nFlows)
    (vars : List MasterVar) (errors : List Nat) :
    createInitialColumnsLoop pd (createConss pd nCons) buffers l vars errors
      = { retcode := SCIP_RETCODE.SCIP_OKAY
          vars := vars ++ l.map fun i => createInitialColumn pd i (buffers i)
          errors := errors } := by
  induction l generalizing vars errors with
  | nil => simp [createInitialColumnsLoop]
  | cons i rest ih =>
    have hi : i < pd.nFlows := hl i (List.mem_cons_self _ _)
    have he : pd.nElecLinks = pd.nLinks - pd.nOpticalLinks := rfl
    have h1 : (createConss pd nCons).getD i none = some MasterCons.setpart := by
      rw [createConss_getD pd nCons i (by omega), if_pos hi]
    have h2 : (createConss pd nCons).getD (pd.nLinks - pd.nOpticalLinks + i) none
        = some (MasterCons.knapsack (pd.link (pd.nLinks - pd.nFlows + i)).Capacity) := by
      rw [createConss_getD pd nCons _ (by omega), if_neg (by omega), if_pos (by omega),
        show pd.nOpticalLinks + (pd.nLinks - pd.nOpticalLinks + i - pd.nFlows)
          = pd.nLinks - pd.nFlows + i from by omega]
    unfold createInitialColumnsLoop
    simp only [h1, h2, isSetppc, SCIPgetCapacityKnapsack]
    simp only [ne_eq, not_true_eq_false, if_false]
    rw [if_neg (by simp), if_neg (by simp), ih (fun j hj => hl j (List.mem_cons_of_mem _ hj))]
    simp

theorem SCIPprobdataCreate_eq (pd : SCIP_PricerData) (nCons : Nat)
    (buffers : Nat → List Int) (hwf : pd.nOpticalLinks + pd.nFlows ≤ pd.nLinks)
    (hn : pd.nFlows + pd.nElecLinks ≤ nCons) :
    SCIPprobdataCreate pd nCons buffers
      = { retcode := SCIP_RETCODE.SCIP_OKAY
          conss := createConss pd nCons
          vars := (List.range pd.nFlows).map fun i => createInitialColumn pd i (buffers i)
          errors := []
          pricerActive := true } := by
  unfold SCIPprobdataCreate createInitialColumns
  simp only []
  rw [createInitialColumnsLoop_eq pd nCons buffers hwf hn _ (fun i hi => List.mem_range.1 hi)]
  simp


theorem filter_flow_length (g : Nat → MasterVar) (hg : ∀ j, (g j).flow = j) (n i : Nat)
    (hi : i < n) :
    (((List.range n).map g).filter fun v => decide (v.flow = i)).length = 1 := by
  rw [List.filter_map, List.length_map]
  have h : (List.range n).filter ((fun v => decide (v.flow = i)) ∘ g)
      = (List.range n).filter (fun j => j == i) := by
    congr 1
    funext j
    by_cases h : j = i <;> simp [hg, h]
  rw [h, ← List.countP_eq_length_filter]
  exact List.count_eq_one_of_mem (List.nodup_range n) (List.mem_range.2 hi)

theorem initial_coef (pd : SCIP_PricerData) (i : Nat) (buffer : List Int) (id : Nat) :
    (createInitialColumn pd i buffer).coef id
      = (if i = id then 1 else 0)
        + (if pd.nLinks - pd.nOpticalLinks + i = id then (pd.flow i).BandWidth else 0) := by
  unfold MasterVar.coef createInitialColumn
  simp only [List.filter_cons, List.filter_nil, decide_eq_true_eq]
  split_ifs <;> simp

/-- Claim C11: for counts with `nOpticalLinks + nFlows ≤ nLinks` and a flow `i < nFlows`,
`SCIPprobdataCreate` leaves exactly one column of flow `i`, the column `lambda_i_0` at
position `i`; its membership list is `[i, nLinks - nOpticalLinks + i]`, where the first id
is the partition constraint of flow `i` and the second is `nFlows + (l - nOpticalLinks)` for
the artificial link `l = nLinks - nFlows + i`, a knapsack whose capacity is that of the
link; the column has coefficient `1` in the first row, `BandWidth` of flow `i` in the
second and `0` in every other row. -/
theorem initial_column_membership (pd : SCIP_PricerData) (nCons : Nat)
    (buffers : Nat → List Int) (i : Nat) (hi : i < pd.nFlows)
    (hwf : pd.nOpticalLinks + pd.nFlows ≤ pd.nLinks)
    (hn : nCons = readerNCons pd.nFlows pd.nLinks pd.nOpticalLinks pd.nWaveLength) :
    (SCIPprobdataCreate pd nCons buffers).retcode = SCIP_RETCODE.SCIP_OKAY ∧
    ((SCIPprobdataCreate pd nCons buffers).vars.filter fun v => decide (v.flow = i)).length = 1 ∧
    (SCIPprobdataCreate pd nCons buffers).vars[i]?
      = some (createInitialColumn pd i (buffers i)) ∧
    (createInitialColumn pd i (buffers i)).flow = i ∧
    (createInitialColumn pd i (buffers i)).vardata.consids
      = [i, pd.nLinks - pd.nOpticalLinks + i] ∧
    pd.nLinks - pd.nOpticalLinks + i
      = pd.nFlows + ((pd.nLinks - pd.nFlows + i) - pd.nOpticalLinks) ∧
    (SCIPprobdataCreate pd nCons buffers).conss[i]? = some (some MasterCons.setpart) ∧
    (SCIPprobdataCreate pd nCons buffers).conss[pd.nLinks - pd.nOpticalLinks + i]?
      = some (some (MasterCons.knapsack (pd.link (pd.nLinks - pd.nFlows + i)).Capacity)) ∧
    (createInitialColumn pd i (buffers i)).coef i = 1 ∧
    (createInitialColumn pd i (buffers i)).coef (pd.nLinks - pd.nOpticalLinks + i)
      = (pd.flow i).BandWidth ∧
    (∀ id, id ≠ i → id ≠ pd.nLinks - pd.nOpticalLinks + i →
      (createInitialColumn pd i (buffers i)).coef id = 0) := by
  have he : pd.nElecLinks = pd.nLinks - pd.nOpticalLinks := rfl
  have hn' : pd.nFlows + pd.nElecLinks ≤ nCons := by
    rw [hn]; unfold readerNCons; omega
  rw [SCIPprobdataCreate_eq pd nCons buffers hwf hn']
  refine ⟨rfl, ?_, ?_, rfl, ?_, by omega, ?_, ?_, ?_, ?_, ?_⟩
  · exact filter_flow_length (fun j => createInitialColumn pd j (buffers j)) (fun _ => rfl) _ _ hi
  · simp [List.getElem?_range hi, hi]
  · have : i ≤ pd.nLinks - pd.nOpticalLinks + i := by omega
    simp [createInitialColumn, vardataCreate, List.insertionSort, List.orderedInsert, this]
  · show (createConss pd nCons)[i]? = _
    rw [createConss_getElem?, if_pos (by omega), if_pos hi]
  · show (createConss pd nCons)[_]? = _
    rw [createConss_getElem?, if_pos (by omega), if_neg (by omega), if_pos (by omega),
      show pd.nOpticalLinks + (pd.nLinks - pd.nOpticalLinks + i - pd.nFlows)
        = pd.nLinks - pd.nFlows + i from by omega]
  · rw [initial_coef, if_pos rfl, if_neg (by omega)]; rfl
  · rw [initial_coef, if_neg (by omega), if_pos rfl]; simp
  · intro id h1 h2
    rw [initial_coef, if_neg (fun h => h1 h.symm), if_neg (fun h => h2 h.symm)]; rfl

/-- Claim C16 (amended): for counts with `nOpticalLinks + nFlows ≤ nLinks` and the
constraint count of the reader, `SCIPprobdataCreate` returns `SCIP_OKAY`, creates the
initial column of every flow and activates the pricer, whatever the capacities of the
artificial links are; the test in `createInitialColumns` compares the right-hand side of
the capacity row with the capacity of the artificial link itself and issues no message. -/
theorem probdataCreate_returns_okay (pd : SCIP_PricerData) (nCons : Nat)
    (buffers : Nat → List Int) (hwf : pd.nOpticalLinks + pd.nFlows ≤ pd.nLinks)
    (hn : nCons = readerNCons pd.nFlows pd.nLinks pd.nOpticalLinks pd.nWaveLength) :
    (SCIPprobdataCreate pd nCons buffers).retcode = SCIP_RETCODE.SCIP_OKAY ∧
    (SCIPprobdataCreate pd nCons buffers).pricerActive = true ∧
    (SCIPprobdataCreate pd nCons buffers).errors = [] ∧
    (SCIPprobdataCreate pd nCons buffers).vars.length = pd.nFlows ∧
    (∀ i, i < pd.nFlows →
      (SCIPprobdataCreate pd nCons buffers).vars[i]?
        = some (createInitialColumn pd i (buffers i))) := by
  have he : pd.nElecLinks = pd.nLinks - pd.nOpticalLinks := rfl
  have hn' : pd.nFlows + pd.nElecLinks ≤ nCons := by
    rw [hn]; unfold readerNCons; omega
  rw [SCIPprobdataCreate_eq pd nCons buffers hwf hn']
  refine ⟨rfl, rfl, rfl, by simp, ?_⟩
  intro i hi
  simp [List.getElem?_range hi, hi]

/-- Counterexample to claim C16: the artificial link of `mismatchNet` has capacity 5, its
flow has bandwidth 10, and `SCIPprobdataCreate` returns `SCIP_OKAY` with the column
created and the pricer activated. -/
theorem capacity_mismatch_accepted :
    (mismatchNet.link (mismatchNet.nLinks - mismatchNet.nFlows + 0)).Capacity = 5 ∧
    (mismatchNet.flow 0).BandWidth = 10 ∧
    (SCIPprobdataCreate mismatchNet 3 fun _ => [0, 0]).retcode = SCIP_RETCODE.SCIP_OKAY ∧
    (SCIPprobdataCreate mismatchNet 3 fun _ => [0, 0]).pricerActive = true ∧
    (SCIPprobdataCreate mismatchNet 3 fun _ => [0, 0]).errors = [] ∧
    ((SCIPprobdataCreate mismatchNet 3 fun _ => [0, 0]).vars.map fun v => v.coefs)
      = [[(0, 1), (2, 10)]] ∧
    (SCIPprobdataCreate mismatchNet 3 fun _ => [0, 0]).conss
      = [some MasterCons.setpart, some (MasterCons.knapsack 100), some (MasterCons.knapsack 5)] := by
  decide!

/-- Instance of `initial_column_membership` for flow 0 of the example file. -/
theorem initial_column_membership_witness :
    0 < exampleRead.1.nFlows ∧
    exampleRead.1.nOpticalLinks + exampleRead.1.nFlows ≤ exampleRead.1.nLinks ∧
    exampleRead.2 = readerNCons exampleRead.1.nFlows exampleRead.1.nLinks
      exampleRead.1.nOpticalLinks exampleRead.1.nWaveLength ∧
    (createInitialColumn exampleRead.1 0 [5, 5, 5]).vardata.consids = [0, 3] :=
  ⟨by decide, by decide, by decide,
    (initial_column_membership exampleRead.1 exampleRead.2 (fun _ => [5, 5, 5]) 0 (by decide)
      (by decide) (by decide)).2.2.2.2.1⟩

/-- Instance of `probdataCreate_returns_okay` for `mismatchNet`. -/
theorem probdataCreate_returns_okay_witness :
    mismatchNet.nOpticalLinks + mismatchNet.nFlows ≤ mismatchNet.nLinks ∧
    3 = readerNCons mismatchNet.nFlows mismatchNet.nLinks mismatchNet.nOpticalLinks
      mismatchNet.nWaveLength ∧
    (SCIPprobdataCreate mismatchNet 3 fun _ => [0, 0]).retcode = SCIP_RETCODE.SCIP_OKAY :=
  ⟨by decide, by decide, (probdataCreate_returns_okay mismatchNet 3 (fun _ => [0, 0]) (by decide)
    (by decide)).1⟩

/-! ## Constraint ids -/

theorem slot_lt (n m i j : Nat) (hi : i < n) (hj : j < m) : i * m + j < n * m := by
  have := Nat.mul_le_mul_right m (Nat.succ_le_of_lt hi)
  rw [Nat.succ_mul] at this
  omega

theorem slot_inj (m i j i' j' : Nat) (hj : j < m) (hj' : j' < m)
    (h : i * m + j = i' * m + j') : i = i' ∧ j = j' := by
  have hm : 0 < m := by omega
  have h1 : (i * m + j) / m = i := by
    rw [Nat.add_comm, Nat.add_mul_div_right _ _ hm, Nat.div_eq_of_lt hj, Nat.zero_add]
  have h2 : (i' * m + j') / m = i' := by
    rw [Nat.add_comm, Nat.add_mul_div_right _ _ hm, Nat.div_eq_of_lt hj', Nat.zero_add]
  have hi : i = i' := by rw [← h1, ← h2, h]
  subst hi
  exact ⟨rfl, by omega⟩

theorem createConss_length (pd : SCIP_PricerData) (nCons : Nat) :
    (createConss pd nCons).length = nCons := by
  rcases Nat.lt_trichotomy (createConss pd nCons).length nCons with h | h | h
  · have h1 := createConss_getElem? pd nCons (createConss pd nCons).length
    rw [if_pos h, List.getElem?_eq_none (Nat.le_refl _)] at h1
    exact absurd h1 (by simp)
  · exact h
  · have h1 := createConss_getElem? pd nCons nCons
    rw [if_neg (Nat.lt_irrefl _)] at h1
    have := List.getElem?_eq_none_iff.1 h1
    omega

theorem pricerBeta_eq (pd : SCIP_PricerData) (dual : Nat → ℚ) :
    pricerBeta pd dual = (List.range (pd.nOpticalLinks * pd.nWaveLength)).map fun t =>
      dual (t + pd.nFlows + pd.nElecLinks) := by
  unfold pricerBeta
  exact flatMap_range_map pd.nOpticalLinks pd.nWaveLength fun t =>
    dual (t + pd.nFlows + pd.nElecLinks)


/-- Claim C13: with `nOpticalLinks ≤ nLinks` and the constraint count of the reader,
`SCIPprobdataCreate` puts the partition constraint of flow `f` at id `f`, the capacity
constraint of the electronic link `l`, with the capacity of `l` as right-hand side, at id
`nFlows + (l - nOpticalLinks)` and the exclusivity constraint of `(i, j)` at id
`nFlows + nElecLinks + i * nWaveLength + j`; the pricer reads `gamma[f]`,
`alpha[l - nOpticalLinks]` and `beta[i * nWaveLength + j]` from these ids; the ids are
exactly the numbers below `nCons`, and different constraints have different ids. -/
theorem constraint_ids (pd : SCIP_PricerData) (nCons : Nat) (buffers : Nat → List Int)
    (dual : Nat → ℚ) (hle : pd.nOpticalLinks ≤ pd.nLinks)
    (hn : nCons = readerNCons pd.nFlows pd.nLinks pd.nOpticalLinks pd.nWaveLength) :
    (SCIPprobdataCreate pd nCons buffers).conss.length = nCons ∧
    (∀ f, f < pd.nFlows →
      (SCIPprobdataCreate pd nCons buffers).conss[f]? = some (some MasterCons.setpart) ∧
      (pricerGamma pd dual)[f]? = some (dual f)) ∧
    (∀ l, pd.nOpticalLinks ≤ l → l < pd.nLinks →
      (SCIPprobdataCreate pd nCons buffers).conss[pd.nFlows + (l - pd.nOpticalLinks)]?
        = some (some (MasterCons.knapsack (pd.link l).Capacity)) ∧
      (pricerAlpha pd dual)[l - pd.nOpticalLinks]?
        = some (dual (pd.nFlows + (l - pd.nOpticalLinks)))) ∧
    (∀ i j, i < pd.nOpticalLinks → j < pd.nWaveLength →
      (SCIPprobdataCreate pd nCons buffers).conss[
          pd.nFlows + pd.nElecLinks + i * pd.nWaveLength + j]?
        = some (some MasterCons.setpack) ∧
      (pricerBeta pd dual)[i * pd.nWaveLength + j]?
        = some (dual (pd.nFlows + pd.nElecLinks + i * pd.nWaveLength + j))) ∧
    (∀ id, id < nCons ↔
      (id < pd.nFlows ∨
       (∃ l, pd.nOpticalLinks ≤ l ∧ l < pd.nLinks ∧ id = pd.nFlows + (l - pd.nOpticalLinks)) ∨
       (∃ i j, i < pd.nOpticalLinks ∧ j < pd.nWaveLength ∧
          id = pd.nFlows + pd.nElecLinks + i * pd.nWaveLength + j))) ∧
    (∀ f l, f < pd.nFlows → f ≠ pd.nFlows + (l - pd.nOpticalLinks)) ∧
    (∀ f i j, f < pd.nFlows → f ≠ pd.nFlows + pd.nElecLinks + i * pd.nWaveLength + j) ∧
    (∀ l i j, pd.nOpticalLinks ≤ l → l < pd.nLinks →
      pd.nFlows + (l - pd.nOpticalLinks)
        ≠ pd.nFlows + pd.nElecLinks + i * pd.nWaveLength + j) ∧
    (∀ l l', pd.nOpticalLinks ≤ l → pd.nOpticalLinks ≤ l' →
      pd.nFlows + (l - pd.nOpticalLinks) = pd.nFlows + (l' - pd.nOpticalLinks) → l = l') ∧
    (∀ i j i' j', j < pd.nWaveLength → j' < pd.nWaveLength →
      pd.nFlows + pd.nElecLinks + i * pd.nWaveLength + j
        = pd.nFlows + pd.nElecLinks + i' * pd.nWaveLength + j' → i = i' ∧ j = j') := by
  have he : pd.nElecLinks = pd.nLinks - pd.nOpticalLinks := rfl
  have hc : (SCIPprobdataCreate pd nCons buffers).conss = createConss pd nCons := rfl
  have hN : nCons = pd.nFlows + pd.nElecLinks + pd.nOpticalLinks * pd.nWaveLength := by
    rw [hn]; rfl
  rw [hc]
  refine ⟨createConss_length pd nCons, ?_, ?_, ?_, ?_, ?_, ?_, ?_, ?_, ?_⟩
  · intro f hf
    constructor
    · rw [createConss_getElem?, if_pos (by omega), if_pos hf]
    · simp [pricerGamma, List.getElem?_range hf, hf]
  · intro l h1 h2
    constructor
    · rw [createConss_getElem?, if_pos (by omega), if_neg (by omega), if_pos (by omega),
        show pd.nOpticalLinks + (pd.nFlows + (l - pd.nOpticalLinks) - pd.nFlows) = l from by omega]
    · have hl : l - pd.nOpticalLinks < pd.nElecLinks := by omega
      simp [pricerAlpha, List.getElem?_range hl, hl, Nat.add_comm]
  · intro i j hi hj
    have ht := slot_lt pd.nOpticalLinks pd.nWaveLength i j hi hj
    constructor
    · rw [createConss_getElem?, if_pos (by omega), if_neg (by omega), if_neg (by omega),
        if_pos (by omega)]
    · rw [pricerBeta_eq]
      simp only [List.getElem?_map, List.getElem?_range ht, Option.map_some']
      congr 2
      omega
  · intro id
    constructor
    · intro hid
      by_cases h1 : id < pd.nFlows
      · exact Or.inl h1
      · by_cases h2 : id < pd.nFlows + pd.nElecLinks
        · exact Or.inr (Or.inl ⟨pd.nOpticalLinks + (id - pd.nFlows), by omega, by omega, by omega⟩)
        · have hpos : 0 < pd.nWaveLength := by
            rcases Nat.eq_zero_or_pos pd.nWaveLength with h0 | h0
            · rw [h0, Nat.mul_zero] at hN; omega
            · exact h0
          have hlt : id - pd.nFlows - pd.nElecLinks < pd.nOpticalLinks * pd.nWaveLength := by
            omega
          refine Or.inr (Or.inr ⟨(id - pd.nFlows - pd.nElecLinks) / pd.nWaveLength,
            (id - pd.nFlows - pd.nElecLinks) % pd.nWaveLength, ?_, Nat.mod_lt _ hpos, ?_⟩)
          · exact (Nat.div_lt_iff_lt_mul hpos).2 hlt
          · have := Nat.div_add_mod' (id - pd.nFlows - pd.nElecLinks) pd.nWaveLength
            omega
    · rintro (h | ⟨l, h1, h2, rfl⟩ | ⟨i, j, hi, hj, rfl⟩)
      · omega
      · omega
      · have ht := slot_lt pd.nOpticalLinks pd.nWaveLength i j hi hj
        omega
  · intro f l hf; omega
  · intro f i j hf; omega
  · intro l i j hl hl'; omega
  · intro l l' h1 h2 h; omega
  · intro i j i' j' hj hj' h
    exact slot_inj pd.nWaveLength i j i' j' hj hj' (by omega)

/-- Instance of `constraint_ids` for the example file. -/
theorem constraint_ids_witness :
    exampleRead.1.nOpticalLinks ≤ exampleRead.1.nLinks ∧
    exampleRead.2 = readerNCons exampleRead.1.nFlows exampleRead.1.nLinks
      exampleRead.1.nOpticalLinks exampleRead.1.nWaveLength ∧
    (SCIPprobdataCreate exampleRead.1 exampleRead.2 fun _ => [0, 0, 0]).conss.length
      = exampleRead.2 :=
  ⟨by decide, by decide,
    (constraint_ids exampleRead.1 exampleRead.2 (fun _ => [0, 0, 0]) (fun _ => 0) (by decide)
      (by decide)).1⟩

/-! ## Rows of the master problem under the initial columns -/

theorem sum_range_ite_offset (c id n : Nat) (f : Nat → ℚ) :
    ((List.range n).map fun p => if c + p = id then f p else 0).sum
      = if c ≤ id ∧ id < c + n then f (id - c) else 0 := by
  induction n with
  | zero =>
    have : ¬ (c ≤ id ∧ id < c + 0) := by omega
    rw [if_neg this]; rfl
  | succ n ih =>
    rw [List.range_succ, List.map_append, List.sum_append, ih]
    simp only [List.map_cons, List.map_nil, List.sum_cons, List.sum_nil, add_zero]
    by_cases h : c + n = id
    · subst h
      rw [if_neg (by omega), if_pos rfl, if_pos (by omega), zero_add, Nat.add_sub_cancel_left]
    · rw [if_neg h, add_zero]
      by_cases h2 : c ≤ id ∧ id < c + n
      · rw [if_pos h2, if_pos (by omega)]
      · rw [if_neg h2, if_neg (by omega)]

theorem getD_map_range {β : Type} [Inhabited β] (g : Nat → β) (n p : Nat) (hp : p < n) :
    ((List.range n).map g).getD p default = g p := by
  simp [List.getD_eq_getElem?_getD, List.getElem?_range hp, hp]

theorem initial_rowActivity (pd : SCIP_PricerData) (buffers : Nat → List Int) (id : Nat) :
    rowActivity ((List.range pd.nFlows).map fun i => createInitialColumn pd i (buffers i))
        (fun _ => 1) id
      = (if id < pd.nFlows then 1 else 0)
        + (if pd.nLinks - pd.nOpticalLinks ≤ id ∧ id < pd.nLinks - pd.nOpticalLinks + pd.nFlows
           then ((pd.flow (id - (pd.nLinks - pd.nOpticalLinks))).BandWidth : ℚ) else 0) := by
  unfold rowActivity
  rw [List.length_map, List.length_range]
  have h : ∀ p ∈ List.range pd.nFlows,
      ((((List.range pd.nFlows).map fun i => createInitialColumn pd i (buffers i)).getD p
          default).coef id : ℚ) * 1
        = (if 0 + p = id then (1 : ℚ) else 0)
          + (if pd.nLinks - pd.nOpticalLinks + p = id then ((pd.flow p).BandWidth : ℚ) else 0) := by
    intro p hp
    rw [getD_map_range _ _ _ (List.mem_range.1 hp), initial_coef, mul_one, Nat.zero_add]
    push_cast
    split_ifs <;> simp
  rw [List.map_congr_left h, List.sum_map_add, sum_range_ite_offset, sum_range_ite_offset]
  congr 1
  by_cases h1 : id < pd.nFlows
  · rw [if_pos (by omega), if_pos h1]
  · rw [if_neg (by omega), if_neg h1]


theorem initial_rows (pd : SCIP_PricerData) (buffers : Nat → List Int)
    (hwf : pd.nOpticalLinks + pd.nFlows ≤ pd.nLinks)
    (hfb : ∀ i, i < pd.nFlows →
      (pd.link (pd.nLinks - pd.nFlows + i)).Capacity = (pd.flow i).BandWidth)
    (hcap : ∀ l, pd.nOpticalLinks ≤ l → l < pd.nLinks - pd.nFlows → 0 ≤ (pd.link l).Capacity) :
    (∀ f, f < pd.nFlows →
      rowActivity ((List.range pd.nFlows).map fun i => createInitialColumn pd i (buffers i))
        (fun _ => 1) f = 1) ∧
    (∀ l, pd.nOpticalLinks ≤ l → l < pd.nLinks →
      rowActivity ((List.range pd.nFlows).map fun i => createInitialColumn pd i (buffers i))
        (fun _ => 1) (pd.nFlows + (l - pd.nOpticalLinks)) ≤ ((pd.link l).Capacity : ℚ)) ∧
    (∀ t,
      rowActivity ((List.range pd.nFlows).map fun i => createInitialColumn pd i (buffers i))
        (fun _ => 1) (pd.nFlows + pd.nElecLinks + t) = 0) := by
  have he : pd.nElecLinks = pd.nLinks - pd.nOpticalLinks := rfl
  refine ⟨?_, ?_, ?_⟩
  · intro f hf
    rw [initial_rowActivity, if_pos hf, if_neg (by omega), add_zero]
  · intro l h1 h2
    rw [initial_rowActivity, if_neg (by omega), zero_add]
    by_cases h3 : pd.nLinks - pd.nFlows ≤ l
    · rw [if_pos (by omega), ← hfb _ (by omega),
        show pd.nLinks - pd.nFlows
            + (pd.nFlows + (l - pd.nOpticalLinks) - (pd.nLinks - pd.nOpticalLinks)) = l
          from by omega]
    · rw [if_neg (by omega)]
      exact_mod_cast hcap l h1 (by omega)
  · intro t
    rw [initial_rowActivity, if_neg (by omega), if_neg (by omega), add_zero]

theorem initial_feasible (pd : SCIP_PricerData) (nCons : Nat) (buffers : Nat → List Int)
    (hwf : pd.nOpticalLinks + pd.nFlows ≤ pd.nLinks)
    (hfb : ∀ i, i < pd.nFlows →
      (pd.link (pd.nLinks - pd.nFlows + i)).Capacity = (pd.flow i).BandWidth)
    (hcap : ∀ l, pd.nOpticalLinks ≤ l → l < pd.nLinks - pd.nFlows → 0 ≤ (pd.link l).Capacity) :
    masterFeasible (createConss pd nCons)
      ((List.range pd.nFlows).map fun i => createInitialColumn pd i (buffers i))
      (fun _ => 1) = true := by
  have he : pd.nElecLinks = pd.nLinks - pd.nOpticalLinks := rfl
  obtain ⟨r1, r2, r3⟩ := initial_rows pd buffers hwf hfb hcap
  unfold masterFeasible
  rw [List.all_eq_true]
  intro id hid
  rw [createConss_length] at hid
  rw [createConss_getD pd nCons id (List.mem_range.1 hid)]
  by_cases h1 : id < pd.nFlows
  · rw [if_pos h1]
    simp [MasterCons.holds, r1 id h1]
  · rw [if_neg h1]
    by_cases h2 : id < pd.nFlows + pd.nElecLinks
    · rw [if_pos h2]
      have := r2 (pd.nOpticalLinks + (id - pd.nFlows)) (by omega) (by omega)
      rw [show pd.nFlows + (pd.nOpticalLinks + (id - pd.nFlows) - pd.nOpticalLinks) = id
        from by omega] at this
      simp [MasterCons.holds, this]
    · rw [if_neg h2]
      have := r3 (id - pd.nFlows - pd.nElecLinks)
      rw [show pd.nFlows + pd.nElecLinks + (id - pd.nFlows - pd.nElecLinks) = id
        from by omega] at this
      split_ifs <;> simp [MasterCons.holds, this]

/-- Claim C15: for a file with `nOpticalLinks ≤ nLinks` whose links have non-negative
capacities, after `SCIPprobdataCreate` on the data of the reader the weights that give
every initial column weight one satisfy every master constraint: each partition row has
activity one, the row of each electronic link has activity at most the capacity of the
link, and each exclusivity row has activity zero. -/
theorem initial_weights_feasible (Nodes : List OAARNode) (mem : List OAARLink)
    (records : List LinkRecord) (Flows : List OAARFlow)
    (nNodes nOpticalNodes nLinks nOpticalLinks nFlows nWaveLength : Nat)
    (WaveLengthBand MAX_PROPDELAY MAX_BANDCOST : ℚ) (buffers : Nat → List Int)
    (pd : SCIP_PricerData) (nCons : Nat)
    (hread : readerReadOAAR Nodes mem records Flows nNodes nOpticalNodes nLinks nOpticalLinks
      nFlows nWaveLength WaveLengthBand MAX_PROPDELAY MAX_BANDCOST = (pd, nCons))
    (hmem : mem.length = nLinks + nFlows) (hol : nOpticalLinks ≤ nLinks)
    (hcap : ∀ j, j < nLinks → 0 ≤ (records.getD j default).Capacity) :
    (SCIPprobdataCreate pd nCons buffers).retcode = SCIP_RETCODE.SCIP_OKAY ∧
    (SCIPprobdataCreate pd nCons buffers).vars.length = nFlows ∧
    (∀ f, f < nFlows →
      rowActivity (SCIPprobdataCreate pd nCons buffers).vars (fun _ => 1) f = 1) ∧
    (∀ l, nOpticalLinks ≤ l → l < nLinks + nFlows →
      rowActivity (SCIPprobdataCreate pd nCons buffers).vars (fun _ => 1)
        (nFlows + (l - nOpticalLinks)) ≤ ((pd.link l).Capacity : ℚ)) ∧
    (∀ i j, i < nOpticalLinks → j < nWaveLength →
      rowActivity (SCIPprobdataCreate pd nCons buffers).vars (fun _ => 1)
        (nFlows + (nLinks + nFlows - nOpticalLinks) + i * nWaveLength + j) ≤ 1) ∧
    masterFeasible (SCIPprobdataCreate pd nCons buffers).conss
      (SCIPprobdataCreate pd nCons buffers).vars (fun _ => 1) = true := by
  have hpd := congrArg Prod.fst hread
  have hnc := congrArg Prod.snd hread
  simp only [] at hpd hnc
  have e1 : pd.nLinks = nLinks + nFlows := by rw [← hpd]; rfl
  have e2 : pd.nOpticalLinks = nOpticalLinks := by rw [← hpd]; rfl
  have e3 : pd.nFlows = nFlows := by rw [← hpd]; rfl
  have e4 : pd.nWaveLength = nWaveLength := by rw [← hpd]; rfl
  have e5 : pd.Flows = Flows := by rw [← hpd]; rfl
  have he : pd.nElecLinks = pd.nLinks - pd.nOpticalLinks := rfl
  have e6 : nCons = pd.nFlows + pd.nElecLinks + pd.nOpticalLinks * pd.nWaveLength := by
    rw [← hnc, ← hpd]; rfl
  have hwf : pd.nOpticalLinks + pd.nFlows ≤ pd.nLinks := by omega
  have hfb : ∀ i, i < pd.nFlows →
      (pd.link (pd.nLinks - pd.nFlows + i)).Capacity = (pd.flow i).BandWidth := by
    intro i hi
    rw [show pd.nLinks - pd.nFlows + i = nLinks + i from by omega]
    unfold SCIP_PricerData.flow
    rw [e5, ← hpd, reader_artificial_link Nodes mem records Flows nNodes nOpticalNodes nLinks
      nOpticalLinks nFlows nWaveLength WaveLengthBand MAX_PROPDELAY MAX_BANDCOST hmem i
      (by omega)]
    rfl
  have hcap' : ∀ l, pd.nOpticalLinks ≤ l → l < pd.nLinks - pd.nFlows →
      0 ≤ (pd.link l).Capacity := by
    intro l _ h2
    rw [← hpd, reader_loaded_link Nodes mem records Flows nNodes nOpticalNodes nLinks
      nOpticalLinks nFlows nWaveLength WaveLengthBand MAX_PROPDELAY MAX_BANDCOST hmem l
      (by omega)]
    exact hcap l (by omega)
  obtain ⟨r1, r2, r3⟩ := initial_rows pd buffers hwf hfb hcap'
  rw [SCIPprobdataCreate_eq pd nCons buffers hwf (by omega)]
  refine ⟨rfl, by simp [e3], ?_, ?_, ?_, initial_feasible pd nCons buffers hwf hfb hcap'⟩
  · intro f hf
    exact r1 f (by omega)
  · intro l h1 h2
    have hid : nFlows + (l - nOpticalLinks) = pd.nFlows + (l - pd.nOpticalLinks) := by
      rw [e3, e2]
    dsimp only
    rw [hid]
    exact r2 l (by omega) (by omega)
  · intro i j _ _
    have hid : nFlows + (nLinks + nFlows - nOpticalLinks) + i * nWaveLength + j
        = pd.nFlows + pd.nElecLinks + (i * nWaveLength + j) := by
      rw [he, e1, e2, e3, Nat.add_assoc]
    dsimp only
    rw [hid, r3]
    norm_num


/-- Instance of `initial_weights_feasible` for the example file. -/
theorem initial_weights_feasible_witness :
    (exampleMem 3).length = 1 + 2 ∧ 0 ≤ 1 ∧
    (∀ j, j < 1 → 0 ≤ (exampleRecords.getD j default).Capacity) ∧
    masterFeasible (SCIPprobdataCreate exampleRead.1 exampleRead.2 fun _ => [0, 0, 0]).conss
      (SCIPprobdataCreate exampleRead.1 exampleRead.2 fun _ => [0, 0, 0]).vars (fun _ => 1)
        = true :=
  ⟨by decide, by decide, by decide,
    (initial_weights_feasible [default, default] (exampleMem 3) exampleRecords exampleFlows
      2 0 1 0 2 1 10 1000 1000 (fun _ => [0, 0, 0]) exampleRead.1 exampleRead.2 rfl (by decide)
      (by decide) (by decide)).2.2.2.2.2⟩

/-! ## Capacity rows -/

theorem coef_eq_sum (v : MasterVar) (id : Nat) :
    ((v.coef id : Int) : ℚ)
      = (v.coefs.map fun p => (if p.1 = id then (1 : ℚ) else 0) * (p.2 : ℚ)).sum := by
  unfold MasterVar.coef
  induction v.coefs with
  | nil => simp
  | cons a rest ih =>
    by_cases h : a.1 = id
    · rw [List.filter_cons_of_pos (by simpa using h)]
      simp only [List.map_cons, List.sum_cons, if_pos h, one_mul, Int.cast_add, ih]
    · rw [List.filter_cons_of_neg (by simpa using h)]
      simp only [List.map_cons, List.sum_cons, if_neg h, zero_mul, zero_add, ih]

theorem generated_coef (pd : SCIP_PricerData) (k seq : Nat) (sol : Sol) (hk : k < pd.nFlows)
    (e : Nat) (he : e < pd.nElecLinks) :
    (newColumn pd k seq sol).coef (pd.nFlows + e)
      = if sol (pd.nOpticalLinks + e) > 1 / 2 then (pd.flow k).BandWidth else 0 := by
  have hd : ∀ id, dualOf pd (fun x => if x = e then 1 else 0) (fun _ => 0) (fun _ => 0) id
      = if id = pd.nFlows + e then (1 : ℚ) else 0 := by
    intro id
    unfold dualOf
    by_cases h1 : id < pd.nFlows
    · rw [if_pos h1, if_neg (by omega)]
    · rw [if_neg h1]
      by_cases h2 : id < pd.nFlows + pd.nElecLinks
      · rw [if_pos h2]
        beta_reduce
        by_cases h3 : id = pd.nFlows + e
        · rw [if_pos h3, if_pos (by omega)]
        · rw [if_neg h3, if_neg (by omega)]
      · rw [if_neg h2, if_neg (by omega)]
  have hq : (((newColumn pd k seq sol).coef (pd.nFlows + e) : Int) : ℚ)
      = if sol (pd.nOpticalLinks + e) > 1 / 2 then ((pd.flow k).BandWidth : ℚ) else 0 := by
    rw [coef_eq_sum]
    have hc : (newColumn pd k seq sol).coefs = columnCoefs pd k (buildConsids pd k sol) := rfl
    rw [hc]
    have := coefs_sum pd k (fun x => if x = e then 1 else 0) (fun _ => 0) (fun _ => 0) sol hk
    simp only [hd] at this
    rw [this]
    have h0 : ((List.range (pd.nOpticalLinks * pd.nWaveLength)).map fun t =>
        if sol (pd.nLinks + t) > 1 / 2 then (0 : ℚ) else 0).sum = 0 := by
      apply List.sum_eq_zero
      intro x hx
      obtain ⟨t, _, rfl⟩ := List.mem_map.1 hx
      split_ifs <;> rfl
    rw [h0, zero_add, add_zero]
    have h1 : ∀ i ∈ List.range pd.nElecLinks,
        (if sol (pd.nOpticalLinks + i) > 1 / 2
          then (if i = e then (1 : ℚ) else 0) * ((pd.flow k).BandWidth : ℚ) else 0)
        = if 0 + i = e then
            (if sol (pd.nOpticalLinks + i) > 1 / 2 then ((pd.flow k).BandWidth : ℚ) else 0)
          else 0 := by
      intro i _
      rw [Nat.zero_add]
      by_cases hi : i = e
      · rw [if_pos hi, if_pos hi, one_mul]
      · rw [if_neg hi, if_neg hi, zero_mul]
        split_ifs <;> rfl
    rw [List.map_congr_left h1, sum_range_ite_offset, if_pos (by omega), Nat.sub_zero]
  by_cases hs : sol (pd.nOpticalLinks + e) > 1 / 2
  · rw [if_pos hs] at hq ⊢
    exact_mod_cast hq
  · rw [if_neg hs] at hq ⊢
    exact_mod_cast hq

theorem origin_coef (pd : SCIP_PricerData) (hwf : pd.nOpticalLinks + pd.nFlows ≤ pd.nLinks)
    (l : Nat) (h1 : pd.nOpticalLinks ≤ l) (h2 : l < pd.nLinks) (o : ColumnOrigin)
    (ho : o.flow < pd.nFlows) :
    (o.var pd).coef (pd.nFlows + (l - pd.nOpticalLinks))
      = if o.usesLink pd l then (pd.flow o.flow).BandWidth else 0 := by
  have he : pd.nElecLinks = pd.nLinks - pd.nOpticalLinks := rfl
  cases o with
  | initial i buffer =>
    have hi : i < pd.nFlows := ho
    show (createInitialColumn pd i buffer).coef _ = if l = pd.nLinks - pd.nFlows + i then _ else _
    rw [initial_coef, if_neg (by omega), zero_add]
    by_cases h : l = pd.nLinks - pd.nFlows + i
    · rw [if_pos h, if_pos (by omega)]; rfl
    · rw [if_neg h, if_neg (by omega)]
  | generated k seq sol =>
    have hk : k < pd.nFlows := ho
    show (newColumn pd k seq sol).coef _ = if sol l > 1 / 2 then _ else _
    rw [generated_coef pd k seq sol hk (l - pd.nOpticalLinks) (by omega),
      show pd.nOpticalLinks + (l - pd.nOpticalLinks) = l from by omega]
    rfl

theorem rowActivity_eq_linkLoad (pd : SCIP_PricerData)
    (hwf : pd.nOpticalLinks + pd.nFlows ≤ pd.nLinks)
    (l : Nat) (h1 : pd.nOpticalLinks ≤ l) (h2 : l < pd.nLinks) (cols : List ColumnOrigin)
    (hc : ∀ o ∈ cols, o.flow < pd.nFlows) (w : Nat → ℚ) :
    rowActivity (cols.map fun o => o.var pd) w (pd.nFlows + (l - pd.nOpticalLinks))
      = linkLoad pd cols w l := by
  unfold rowActivity linkLoad
  rw [List.length_map]
  apply congrArg
  apply List.map_congr_left
  intro p hp
  have hp' : p < cols.length := List.mem_range.1 hp
  have hg : (cols.map fun o => o.var pd).getD p default = (cols.getD p default).var pd := by
    simp [List.getD_eq_getElem?_getD, List.getElem?_eq_getElem hp', hp']
  have hm : cols.getD p default ∈ cols := by
    simp [List.getD_eq_getElem?_getD, List.getElem?_eq_getElem hp', hp']
  rw [hg, origin_coef pd hwf l h1 h2 _ (hc _ hm)]
  split_ifs <;> simp


/-- Claim C17: for counts with `nOpticalLinks + nFlows ≤ nLinks` and an electronic link
`l`, the row `nFlows + (l - nOpticalLinks)` is a knapsack with the capacity of `l` as
right-hand side; a column of a flow `k < nFlows`, initial or generated, has coefficient
`BandWidth` of its flow in this row when it uses `l` and coefficient zero otherwise; hence
under weights that satisfy the row the bandwidth carried over `l` is at most the capacity,
and with non-negative bandwidths and weights in `{0, 1}` two columns of bandwidth 600 that
use a link of capacity 1000 do not both have weight one. -/
theorem capacity_rows (pd : SCIP_PricerData) (nCons : Nat) (buffers : Nat → List Int)
    (hwf : pd.nOpticalLinks + pd.nFlows ≤ pd.nLinks)
    (hn : nCons = readerNCons pd.nFlows pd.nLinks pd.nOpticalLinks pd.nWaveLength)
    (l : Nat) (h1 : pd.nOpticalLinks ≤ l) (h2 : l < pd.nLinks)
    (cols : List ColumnOrigin) (hc : ∀ o ∈ cols, o.flow < pd.nFlows) (w : Nat → ℚ)
    (hrow : (MasterCons.knapsack (pd.link l).Capacity).holds
      (rowActivity (cols.map fun o => o.var pd) w (pd.nFlows + (l - pd.nOpticalLinks)))
        = true) :
    (SCIPprobdataCreate pd nCons buffers).conss[pd.nFlows + (l - pd.nOpticalLinks)]?
      = some (some (MasterCons.knapsack (pd.link l).Capacity)) ∧
    (∀ o : ColumnOrigin, o.flow < pd.nFlows → o.usesLink pd l →
      (o.var pd).coef (pd.nFlows + (l - pd.nOpticalLinks)) = (pd.flow o.flow).BandWidth) ∧
    (∀ o : ColumnOrigin, o.flow < pd.nFlows → ¬ o.usesLink pd l →
      (o.var pd).coef (pd.nFlows + (l - pd.nOpticalLinks)) = 0) ∧
    linkLoad pd cols w l ≤ ((pd.link l).Capacity : ℚ) ∧
    (∀ p q, p < cols.length → q < cols.length → p ≠ q →
      (∀ o ∈ cols, 0 ≤ (pd.flow o.flow).BandWidth) → (∀ r, w r = 0 ∨ w r = 1) →
      (cols.getD p default).usesLink pd l → (cols.getD q default).usesLink pd l →
      (pd.flow (cols.getD p default).flow).BandWidth = 600 →
      (pd.flow (cols.getD q default).flow).BandWidth = 600 →
      (pd.link l).Capacity = 1000 → ¬ (w p = 1 ∧ w q = 1)) := by
  have he : pd.nElecLinks = pd.nLinks - pd.nOpticalLinks := rfl
  have hc' : (SCIPprobdataCreate pd nCons buffers).conss = createConss pd nCons := rfl
  have hN : nCons = pd.nFlows + pd.nElecLinks + pd.nOpticalLinks * pd.nWaveLength := by
    rw [hn]; rfl
  have hload : linkLoad pd cols w l ≤ ((pd.link l).Capacity : ℚ) := by
    rw [← rowActivity_eq_linkLoad pd hwf l h1 h2 cols hc w]
    simpa [MasterCons.holds] using hrow
  refine ⟨?_, ?_, ?_, hload, ?_⟩
  · rw [hc', createConss_getElem?, if_pos (by omega), if_neg (by omega), if_pos (by omega),
      show pd.nOpticalLinks + (pd.nFlows + (l - pd.nOpticalLinks) - pd.nFlows) = l from by omega]
  · intro o ho hu
    rw [origin_coef pd hwf l h1 h2 o ho, if_pos hu]
  · intro o ho hu
    rw [origin_coef pd hwf l h1 h2 o ho, if_neg hu]
  · intro p q hp hq hpq hbw hw hup huq hbp hbq hcap hboth
    have hnn : ∀ r ∈ List.range cols.length,
        0 ≤ (if (cols.getD r default).usesLink pd l then
          ((pd.flow (cols.getD r default).flow).BandWidth : ℚ) * w r else 0) := by
      intro r hr
      have hr' : r < cols.length := List.mem_range.1 hr
      have hm : cols.getD r default ∈ cols := by
        simp [List.getD_eq_getElem?_getD, List.getElem?_eq_getElem hr', hr']
      have hb : (0 : ℚ) ≤ ((pd.flow (cols.getD r default).flow).BandWidth : ℚ) := by
        exact_mod_cast hbw _ hm
      split_ifs
      · rcases hw r with h0 | h0
        · rw [h0, mul_zero]
        · rw [h0, mul_one]; exact hb
      · exact le_refl _
    have h2s := two_le_sum (fun r => if (cols.getD r default).usesLink pd l then
          ((pd.flow (cols.getD r default).flow).BandWidth : ℚ) * w r else 0)
      (List.range cols.length) hnn p q (List.mem_range.2 hp) (List.mem_range.2 hq) hpq
    simp only [if_pos hup, if_pos huq, hbp, hbq, hboth.1, hboth.2] at h2s
    unfold linkLoad at hload
    rw [hcap] at hload
    have := le_trans h2s hload
    norm_num at this

/-- Instance of `capacity_rows`: the two columns of `bandwidthCols` over link 0 of
`bandwidthNet`, the first with weight one and the second with weight zero; with weight one
for both the row would have activity 1200. -/
theorem capacity_rows_witness :
    bandwidthNet.nOpticalLinks + bandwidthNet.nFlows ≤ bandwidthNet.nLinks ∧
    5 = readerNCons bandwidthNet.nFlows bandwidthNet.nLinks bandwidthNet.nOpticalLinks
      bandwidthNet.nWaveLength ∧
    (∀ o ∈ bandwidthCols, o.flow < bandwidthNet.nFlows) ∧
    (MasterCons.knapsack (bandwidthNet.link 0).Capacity).holds
      (rowActivity (bandwidthCols.map fun o => o.var bandwidthNet) firstOnly
        (bandwidthNet.nFlows + (0 - bandwidthNet.nOpticalLinks))) = true ∧
    rowActivity (bandwidthCols.map fun o => o.var bandwidthNet) (fun _ => 1) 2 = 1200 ∧
    linkLoad bandwidthNet bandwidthCols firstOnly 0 ≤ ((bandwidthNet.link 0).Capacity : ℚ) :=
  ⟨by decide, by decide, by decide!, by decide!, by decide!,
    (capacity_rows bandwidthNet 5 (fun _ => [0, 0, 0]) (by decide) (by decide) 0 (by decide)
      (by decide) bandwidthCols (by decide!) firstOnly (by decide!)).2.2.2.1⟩

/-! ## Incidence vectors, transmission delays and repeated augmentation -/

/-- Claim C12 fails on the code: `memset(oriFlowVars, 0, nOriFlowVars)` clears
`nOriFlowVars` bytes, not `nOriFlowVars` entries. For the example file (three links after
augmentation, two flows, no optical link, so three entries) only three bytes of entry 0 are
cleared: over the buffer `[0, 1, 0]` that the column of flow 0 leaves behind, the vector
stored with the column of flow 1 is `[0, 1, 1]`, with a one at position 1 besides the one of
its artificial link at position 2; over a buffer of sevens the vector of flow 0 is
`[0, 1, 7]`. -/
theorem initial_incidence_keeps_buffer_content :
    exampleRead.1.nOriFlowVars = 3 ∧
    exampleRead.1.nLinks - exampleRead.1.nFlows + 1 = 2 ∧
    (createInitialColumn exampleRead.1 0 [0, 0, 0]).vardata.oriFlowVars = [0, 1, 0] ∧
    (createInitialColumn exampleRead.1 1 [0, 1, 0]).vardata.oriFlowVars = [0, 1, 1] ∧
    ((SCIPprobdataCreate exampleRead.1 exampleRead.2
        fun i => if i = 0 then [0, 0, 0] else [0, 1, 0]).vars.map
      fun v => v.vardata.oriFlowVars) = [[0, 1, 0], [0, 1, 1]] ∧
    (createInitialColumn exampleRead.1 0 [7, 7, 7]).vardata.oriFlowVars = [0, 1, 7] := by
  decide!

/-- Claim C18 fails on the code: the electronic link of capacity 7 of the example file gets
the `int` quotient `1714` instead of `1500 * 8 / 7`, and the artificial links, which are
electronic with capacities 400 and 300, keep the value `77` that the array held, since the
reader never assigns their `TransDelay`. -/
theorem transDelay_not_real_quotient :
    (exampleRead.1.link 0).Capacity = 7 ∧ (exampleRead.1.link 0).IsOptical = 0 ∧
    (exampleRead.1.link 0).TransDelay = 1714 ∧ (1714 : ℚ) ≠ 1500 * 8 / 7 ∧
    (exampleRead.1.link 1).Capacity = 400 ∧ (exampleRead.1.link 1).IsOptical = 0 ∧
    (exampleRead.1.link 1).TransDelay = 77 ∧ (77 : ℚ) ≠ 1500 * 8 / 400 ∧
    (exampleRead.1.link 2).Capacity = 300 ∧ (exampleRead.1.link 2).IsOptical = 0 ∧
    (exampleRead.1.link 2).TransDelay = 77 ∧ (77 : ℚ) ≠ 1500 * 8 / 300 := by
  decide!

/-- Claim C19 (amended): after `n` applications of the augmentation step the link count is
`nLinks + n * nFlows`, and the `t`-th application leaves an artificial link for every flow
`i` in the entry `nLinks + t * nFlows + i` where the array has one; a single application
gives `nLinks + nFlows`. -/
theorem augmentation_repeats (MAX_PROPDELAY MAX_BANDCOST : ℚ) (Flows : List OAARFlow)
    (nFlows : Nat) (Links : List OAARLink) (nLinks n : Nat) :
    ((augment MAX_PROPDELAY MAX_BANDCOST Flows nFlows)^[n] (Links, nLinks)).2
        = nLinks + n * nFlows ∧
    (augment MAX_PROPDELAY MAX_BANDCOST Flows nFlows (Links, nLinks)).2 = nLinks + nFlows ∧
    (∀ t i, t < n → i < nFlows →
      ((augment MAX_PROPDELAY MAX_BANDCOST Flows nFlows)^[n]
          (Links, nLinks)).1[nLinks + t * nFlows + i]?
        = (Links[nLinks + t * nFlows + i]?).map
            (setArtificialLink MAX_PROPDELAY MAX_BANDCOST (Flows.getD i default))) :=
  ⟨(augment_iterate MAX_PROPDELAY MAX_BANDCOST Flows nFlows Links nLinks n).1, rfl,
    (augment_iterate MAX_PROPDELAY MAX_BANDCOST Flows nFlows Links nLinks n).2.2⟩

/-- Counterexample to claim C19: two applications of the augmentation step to the example
file, read into an array of five entries, give the link count 5 instead of 3, and the
entries 3 and 4 repeat the artificial links of the entries 1 and 2. -/
theorem second_augmentation_duplicates :
    ((augment 1000 1000 exampleFlows 2)^[2] (readLinks (exampleMem 5) exampleRecords 1, 1)).2
      = 5 ∧
    (((augment 1000 1000 exampleFlows 2)^[2]
        (readLinks (exampleMem 5) exampleRecords 1, 1)).1.map
      fun l => (l.Capacity, l.Head, l.Tail))
      = [(7, 0, 1), (400, 0, 1), (300, 1, 0), (400, 0, 1), (300, 1, 0)] ∧
    (5 : Nat) ≠ 1 + 2 := by
  decide!

/-- Instance of `augmentation_repeats`: the second of two applications to the example
file. -/
theorem augmentation_repeats_witness :
    1 < 2 ∧ 0 < 2 ∧
    ((augment 1000 1000 exampleFlows 2)^[2]
        (readLinks (exampleMem 5) exampleRecords 1, 1)).1[1 + 1 * 2 + 0]?
      = ((readLinks (exampleMem 5) exampleRecords 1)[1 + 1 * 2 + 0]?).map
          (setArtificialLink 1000 1000 (exampleFlows.getD 0 default)) :=
  ⟨by decide, by decide,
    (augmentation_repeats 1000 1000 exampleFlows 2 (readLinks (exampleMem 5) exampleRecords 1)
      1 2).2.2 1 0 (by decide) (by decide)⟩

/-! ## Scenario A with optical nodes -/

theorem checkSol_conss (sub : SubScip) (sol : Sol) (h : SCIPcheckSolOrig sub sol = true)
    (c : LinCons) (hc : c ∈ sub.conss) : c.holds sol = true := by
  unfold SCIPcheckSolOrig at h
  rw [Bool.and_eq_true, List.all_eq_true, List.all_eq_true] at h
  exact h.2 c hc

theorem scenarioA_subCons5_mem (node0 node1 : OAARNode) (fallback : OAARLink)
    (nOpticalNodes nWaveLength : Nat) (WaveLengthBand : ℚ) (hon : 1 ≤ nOpticalNodes)
    (j : Nat) (hj : j < nWaveLength) :
    ({ terms := [(zIdx (scenarioA node0 node1 fallback nOpticalNodes nWaveLength WaveLengthBand)
                    0 j, (-1 : ℚ))]
       lhs := some 0, rhs := some 0 } : LinCons)
      ∈ subCons5 (scenarioA node0 node1 fallback nOpticalNodes nWaveLength WaveLengthBand) 0 := by
  unfold subCons5
  rw [List.mem_flatMap]
  refine ⟨0, List.mem_range.2 (by simp [scenarioA]; omega), ?_⟩
  have hd : ¬ (0 = ((scenarioA node0 node1 fallback nOpticalNodes nWaveLength
      WaveLengthBand).flow 0).Destination) := by
    simp [scenarioA, SCIP_PricerData.flow]
  rw [if_neg hd, List.mem_map]
  refine ⟨j, List.mem_range.2 (by simpa [scenarioA] using hj), ?_⟩
  simp [scenarioA, SCIP_PricerData.link, List.range_succ]

theorem scenarioA_subCons4_mem (node0 node1 : OAARNode) (fallback : OAARLink)
    (nOpticalNodes nWaveLength : Nat) (WaveLengthBand : ℚ) :
    ({ terms := (0, -(400 : ℚ)) :: (List.range nWaveLength).map fun j =>
          (zIdx (scenarioA node0 node1 fallback nOpticalNodes nWaveLength WaveLengthBand) 0 j,
            WaveLengthBand)
       lhs := some 0, rhs := none } : LinCons)
      ∈ subCons4 (scenarioA node0 node1 fallback nOpticalNodes nWaveLength WaveLengthBand) 0 := by
  unfold subCons4
  rw [List.mem_map]
  refine ⟨0, List.mem_range.2 (by simp [scenarioA]), ?_⟩
  simp [scenarioA, SCIP_PricerData.flow]


/-- Claim C20 fails on the code: in scenario A with node 0 optical (`nOpticalNodes ≥ 1`),
whatever the number of wavelengths and their band, every feasible assignment of the
subproblem of flow 0 has `x_0 = 0`. The constraint `subCons5` of node 0, which is the
source of the flow and not its destination, forces every bridging variable of link 0 to
zero, and `subCons4` then excludes the link. -/
theorem scenarioA_optical_source_excludes_link (node0 node1 : OAARNode) (fallback : OAARLink)
    (nOpticalNodes nWaveLength : Nat) (WaveLengthBand : ℚ) (alpha beta : Nat → ℚ) (sol : Sol)
    (hon : 1 ≤ nOpticalNodes)
    (hfeas : SCIPcheckSolOrig
      (initPricing (scenarioA node0 node1 fallback nOpticalNodes nWaveLength WaveLengthBand)
        [] 0 alpha beta) sol = true) :
    sol 0 = 0 := by
  have hz : ∀ j, j < nWaveLength →
      sol (zIdx (scenarioA node0 node1 fallback nOpticalNodes nWaveLength WaveLengthBand) 0 j)
        = 0 := by
    intro j hj
    have hm := scenarioA_subCons5_mem node0 node1 fallback nOpticalNodes nWaveLength
      WaveLengthBand hon j hj
    have hh := checkSol_conss _ _ hfeas _
      (show _ ∈ (initPricing _ [] 0 alpha beta).conss from by
        unfold initPricing
        simp only [List.mem_append]
        exact Or.inl (Or.inl (Or.inr hm)))
    simp [LinCons.holds, LinCons.activity] at hh
    linarith [hh.1, hh.2]
  have h4 := checkSol_conss _ _ hfeas _
    (show _ ∈ (initPricing _ [] 0 alpha beta).conss from by
      unfold initPricing
      simp only [List.mem_append]
      exact Or.inl (Or.inl (Or.inl (Or.inr (scenarioA_subCons4_mem node0 node1 fallback
        nOpticalNodes nWaveLength WaveLengthBand)))))
  have hsum : ((List.range nWaveLength).map fun j => WaveLengthBand *
      sol (zIdx (scenarioA node0 node1 fallback nOpticalNodes nWaveLength WaveLengthBand) 0 j)).sum
      = 0 := by
    apply List.sum_eq_zero
    intro x hx
    obtain ⟨j, hj, rfl⟩ := List.mem_map.1 hx
    rw [hz j (List.mem_range.1 hj), mul_zero]
  simp only [LinCons.holds, LinCons.activity, List.map_cons, List.sum_cons, List.map_map,
    Function.comp_def, Bool.and_true, decide_eq_true_eq] at h4
  rw [hsum] at h4
  obtain ⟨v, hv, _, hlb, _⟩ := initPricing_var
    (scenarioA node0 node1 fallback nOpticalNodes nWaveLength WaveLengthBand) [] 0 alpha beta 0
    (by simp [SCIP_PricerData.nOriFlowVars, scenarioA])
  have hb := checkSol_bounds _ _ hfeas 0 v hv
  linarith [hb.1]


/-- Instance of `scenarioA_optical_source_excludes_link`: one optical node, one wavelength
of band 400, and the assignment that chooses the artificial link. -/
theorem scenarioA_optical_source_excludes_link_witness :
    1 ≤ 1 ∧
    SCIPcheckSolOrig
      (initPricing (scenarioA default default default 1 1 400) [] 0 (fun _ => 0) fun _ => 0)
      solFallback = true ∧
    solFallback 0 = 0 :=
  ⟨by decide, by decide!,
    scenarioA_optical_source_excludes_link default default default 1 1 400 (fun _ => 0)
      (fun _ => 0) solFallback (by decide) (by decide!)⟩

/-- In scenario A without optical nodes the assignment `solOptical` is feasible as soon as
the wavelengths of link 0 together carry the bandwidth 400. -/
theorem scenarioA_electronic_feasible (node0 node1 : OAARNode) (fallback : OAARLink)
    (nWaveLength : Nat) (WaveLengthBand : ℚ) (alpha beta : Nat → ℚ)
    (h : 400 ≤ (nWaveLength : ℚ) * WaveLengthBand) :
    SCIPcheckSolOrig
      (initPricing (scenarioA node0 node1 fallback 0 nWaveLength WaveLengthBand) [] 0 alpha beta)
      solOptical = true := by
  unfold SCIPcheckSolOrig
  rw [Bool.and_eq_true, List.all_eq_true, List.all_eq_true]
  constructor
  · intro i hi
    rw [length_subvars] at hi
    have hi' := List.mem_range.1 hi
    have hv : (initPricing (scenarioA node0 node1 fallback 0 nWaveLength WaveLengthBand) [] 0
        alpha beta).vars[i]? = some { lb := 0, ub := 1, obj := createdObj _ 0 alpha beta i } :=
      created_getElem? _ 0 alpha beta i hi'
    rw [List.getD_eq_getElem?_getD, hv]
    unfold solOptical
    by_cases h1 : i = 1
    · simp [h1]; decide
    · simp [h1]; decide
  · intro c hc
    unfold initPricing at hc
    simp only [List.mem_append, List.mem_singleton] at hc
    have hsol : ∀ i j, solOptical (zIdx (scenarioA node0 node1 fallback 0 nWaveLength
        WaveLengthBand) i j) = 1 := by
      intro i j
      unfold solOptical zIdx
      rw [if_neg (by simp [scenarioA]; omega)]
    have hsoly : ∀ i j, solOptical (yIdx (scenarioA node0 node1 fallback 0 nWaveLength
        WaveLengthBand) i j) = 1 := by
      intro i j
      unfold solOptical yIdx
      rw [if_neg (by simp [scenarioA]; omega)]
    rcases hc with (((((hc | hc) | hc) | hc) | hc) | hc) | hc
    · subst hc
      simp [subCons1, scenarioA, SCIP_PricerData.link, SCIP_PricerData.flow, List.range_succ,
        LinCons.holds, LinCons.activity, solOptical]
    · simp [subCons2, scenarioA, SCIP_PricerData.link, SCIP_PricerData.flow,
        List.range_succ] at hc
    · subst hc
      simp [subCons3, scenarioA, SCIP_PricerData.link, SCIP_PricerData.flow, List.range_succ,
        LinCons.holds, LinCons.activity, solOptical]
    · unfold subCons4 at hc
      obtain ⟨i, hi, rfl⟩ := List.mem_map.1 hc
      have hi0 : i = 0 := by
        have := List.mem_range.1 hi
        simp [scenarioA] at this
        exact this
      subst hi0
      simp only [LinCons.holds, LinCons.activity, List.map_cons, List.sum_cons, List.map_map,
        Function.comp_def, Bool.and_true, decide_eq_true_eq, hsol, mul_one]
      have hs : ((List.range (scenarioA node0 node1 fallback 0 nWaveLength
          WaveLengthBand).nWaveLength).map fun _ => (scenarioA node0 node1 fallback 0 nWaveLength
          WaveLengthBand).WaveLengthBand).sum = (nWaveLength : ℚ) * WaveLengthBand := by
        simp [scenarioA]
      rw [hs]
      have hx : solOptical 0 = 1 := rfl
      have hbw : (((scenarioA node0 node1 fallback 0 nWaveLength WaveLengthBand).flow 0).BandWidth
          : ℚ) = 400 := by
        simp [scenarioA, SCIP_PricerData.flow]
      rw [hx, hbw]
      linarith
    · simp [subCons5, scenarioA] at hc
    · unfold subCons6 at hc
      obtain ⟨i, hi, hc⟩ := List.mem_flatMap.1 hc
      obtain ⟨j, _, rfl⟩ := List.mem_map.1 hc
      have hi0 : i = 0 := by
        have := List.mem_range.1 hi
        simp [scenarioA] at this
        exact this
      subst hi0
      have hx : solOptical 0 = 1 := rfl
      simp only [LinCons.holds, LinCons.activity, List.map_cons, List.map_nil, List.sum_cons,
        List.sum_nil, Bool.and_true, decide_eq_true_eq, hsol, hsoly, hx]
      norm_num
    · unfold subCons7 at hc
      obtain ⟨i, hi, hc⟩ := List.mem_flatMap.1 hc
      obtain ⟨j, _, rfl⟩ := List.mem_map.1 hc
      have hi0 : i = 0 := by
        have := List.mem_range.1 hi
        simp [scenarioA] at this
        exact this
      subst hi0
      have hx : solOptical 0 = 1 := rfl
      simp only [LinCons.holds, LinCons.activity, List.map_cons, List.map_nil, List.sum_cons,
        List.sum_nil, Bool.and_true, decide_eq_true_eq, hsol, hsoly, hx]
      norm_num

/-- Instance of `reader_augmentation` for the example file: entry 1 is the artificial link
of flow 0. -/
theorem reader_augmentation_witness :
    (exampleMem 3).length = 1 + 2 ∧
    (exampleRead.1.link (1 + 0)).Capacity = (exampleFlows.getD 0 default).BandWidth ∧
    exampleRead.1.Links.length = 1 + 2 :=
  ⟨by decide,
    ((reader_augmentation [default, default] (exampleMem 3) exampleRecords exampleFlows
      2 0 1 0 2 1 10 1000 1000 (by decide)).2.2.2 0 (by decide)).1,
    (reader_augmentation [default, default] (exampleMem 3) exampleRecords exampleFlows
      2 0 1 0 2 1 10 1000 1000 (by decide)).1⟩

/-! ## Incidence vectors of generated columns and the bridging constraints -/

/-- Claim C21: the columns added for flow `k` are, in order, the columns built from the
accepted assignments; the incidence vector stored with the column built from the `n`-th
accepted assignment `sol` has length `nLinks + 2 * nOpticalLinks * nWaveLength`, entry `i`
is `1` when `sol i > 1/2` and `0` otherwise, so every entry is `0` or `1`. The variable
array of the subproblem holds the link variables at positions `0 .. nLinks - 1`, the
wavelength variables at the next `nOpticalLinks * nWaveLength` positions and the bridging
variables at the last `nOpticalLinks * nWaveLength` positions, `PricerVarY_i_j` at
`nLinks + (i * nWaveLength + j)` and `PricerVarZ_i_j` at
`nLinks + nOpticalLinks * nWaveLength + (i * nWaveLength + j)`. -/
theorem incidence_vector (pd : SCIP_PricerData) (conshdlr : List ZerooneCons) (k : Nat)
    (alpha beta gamma : Nat → ℚ) (sols : List Sol) (nFlowSol : Nat) :
    (∀ (n s : Nat) (sol : Sol),
      (acceptedSols pd conshdlr k alpha beta gamma sols)[n]? = some (s, sol) →
      ∃ col, (pricerRedcostFlow pd conshdlr k alpha beta gamma sols nFlowSol)[n]? = some col ∧
        col.vardata.oriFlowVars.length = pd.nLinks + 2 * pd.nOpticalLinks * pd.nWaveLength ∧
        (∀ i, i < pd.nLinks + 2 * pd.nOpticalLinks * pd.nWaveLength →
          col.vardata.oriFlowVars[i]? = some (if sol i > 1 / 2 then 1 else 0)) ∧
        ∀ b ∈ col.vardata.oriFlowVars, b = 0 ∨ b = 1) ∧
    (pricerRedcostFlow pd conshdlr k alpha beta gamma sols nFlowSol).length
      = (acceptedSols pd conshdlr k alpha beta gamma sols).length ∧
    (createX pd k alpha).length = pd.nLinks ∧
    (createY pd beta).length = pd.nOpticalLinks * pd.nWaveLength ∧
    (createZ pd).length = pd.nOpticalLinks * pd.nWaveLength ∧
    (∀ i, i < pd.nLinks →
      (createX pd k alpha ++ createY pd beta ++ createZ pd)[i]? = (createX pd k alpha)[i]?) ∧
    (∀ t, t < pd.nOpticalLinks * pd.nWaveLength →
      (createX pd k alpha ++ createY pd beta ++ createZ pd)[pd.nLinks + t]?
        = (createY pd beta)[t]?) ∧
    (∀ t, t < pd.nOpticalLinks * pd.nWaveLength →
      (createX pd k alpha ++ createY pd beta ++ createZ pd)[
          pd.nLinks + pd.nOpticalLinks * pd.nWaveLength + t]?
        = (createZ pd)[t]?) ∧
    (∀ i j, i < pd.nOpticalLinks → j < pd.nWaveLength →
      yIdx pd i j = pd.nLinks + (i * pd.nWaveLength + j) ∧
      zIdx pd i j = pd.nLinks + pd.nOpticalLinks * pd.nWaveLength + (i * pd.nWaveLength + j) ∧
      i * pd.nWaveLength + j < pd.nOpticalLinks * pd.nWaveLength) := by
  have hx : (createX pd k alpha).length = pd.nLinks := by simp [createX]
  have hy : (createY pd beta).length = pd.nOpticalLinks * pd.nWaveLength :=
    length_createYZ _ _ _
  have hz : (createZ pd).length = pd.nOpticalLinks * pd.nWaveLength :=
    length_createYZ _ _ (fun _ _ => { lb := 0, ub := 1, obj := 0 })
  refine ⟨?_, added_length pd conshdlr k alpha beta gamma sols nFlowSol, hx, hy, hz,
    ?_, ?_, ?_, ?_⟩
  · intro n s sol h
    refine ⟨_, added_column_of_accepted pd conshdlr k alpha beta gamma sols nFlowSol n _ h,
      ?_, ?_, ?_⟩
    · simp [newColumn, vardataCreate, buildOriFlowVars, SCIP_PricerData.nOriFlowVars]
    · intro i hi
      simp only [newColumn, vardataCreate, buildOriFlowVars]
      rw [List.getElem?_map, List.getElem?_range (by
        unfold SCIP_PricerData.nOriFlowVars; exact hi)]
      rfl
    · intro b hb
      simp only [newColumn, vardataCreate, buildOriFlowVars] at hb
      obtain ⟨i, _, rfl⟩ := List.mem_map.1 hb
      split_ifs
      · exact Or.inr rfl
      · exact Or.inl rfl
  · intro i hi
    rw [List.append_assoc, List.getElem?_append_left (by omega)]
  · intro t ht
    rw [List.getElem?_append_left (by rw [List.length_append]; omega),
      List.getElem?_append_right (by omega), hx, Nat.add_sub_cancel_left]
  · intro t ht
    rw [List.getElem?_append_right (by rw [List.length_append]; omega), List.length_append, hx,
      hy, Nat.add_sub_cancel_left]
  · intro i j hi hj
    refine ⟨by unfold yIdx; omega, by unfold zIdx; omega, slot_lt _ _ i j hi hj⟩


/-- Instance of `incidence_vector`: the assignment choosing link 0 of `priorityNet` is
accepted and the column built from it has the incidence vector `[1, 0]`. -/
theorem incidence_vector_witness :
    (acceptedSols priorityNet [] 0 (fun _ => 0) (fun _ => 0) (fun _ => 20) [solLink0])[0]?
      = some (0, solLink0) ∧
    (pricerRedcostFlow priorityNet [] 0 (fun _ => 0) (fun _ => 0) (fun _ => 20) [solLink0] 1).map
        (fun c => c.vardata.oriFlowVars) = [[1, 0]] ∧
    ∃ col, (pricerRedcostFlow priorityNet [] 0 (fun _ => 0) (fun _ => 0) (fun _ => 20)
        [solLink0] 1)[0]? = some col ∧
      col.vardata.oriFlowVars.length
        = priorityNet.nLinks + 2 * priorityNet.nOpticalLinks * priorityNet.nWaveLength ∧
      (∀ i, i < priorityNet.nLinks + 2 * priorityNet.nOpticalLinks * priorityNet.nWaveLength →
        col.vardata.oriFlowVars[i]? = some (if solLink0 i > 1 / 2 then 1 else 0)) ∧
      ∀ b ∈ col.vardata.oriFlowVars, b = 0 ∨ b = 1 :=
  have h : (acceptedSols priorityNet [] 0 (fun _ => 0) (fun _ => 0) (fun _ => 20)
      [solLink0])[0]? = some (0, solLink0) := by rw [accepted_link0]; rfl
  ⟨h, by decide!,
    (incidence_vector priorityNet [] 0 (fun _ => 0) (fun _ => 0) (fun _ => 20) [solLink0] 1).1
      0 0 solLink0 h⟩

/-- Claim C26: the constraints `subCons6` and `subCons7` are, for every optical link `i`
and wavelength `j`, the inequalities `x_i + y_ij - 2 z_ij >= 0` and
`-x_i - y_ij + z_ij >= -1`; for values of `x_i`, `y_ij`, `z_ij` in `{0, 1}` both hold
exactly when `z_ij = 1` is equivalent to `x_i = 1` and `y_ij = 1`. -/
theorem bridging_is_and (pd : SCIP_PricerData) (sol : Sol) :
    (∀ c, c ∈ subCons6 pd ↔ ∃ i j, i < pd.nOpticalLinks ∧ j < pd.nWaveLength ∧
      c = { terms := [(i, (1 : ℚ)), (yIdx pd i j, (1 : ℚ)), (zIdx pd i j, (-2 : ℚ))]
            lhs := some 0, rhs := none }) ∧
    (∀ c, c ∈ subCons7 pd ↔ ∃ i j, i < pd.nOpticalLinks ∧ j < pd.nWaveLength ∧
      c = { terms := [(i, (-1 : ℚ)), (yIdx pd i j, (-1 : ℚ)), (zIdx pd i j, (1 : ℚ))]
            lhs := some (-1), rhs := none }) ∧
    (∀ i j, (sol i = 0 ∨ sol i = 1) → (sol (yIdx pd i j) = 0 ∨ sol (yIdx pd i j) = 1) →
      (sol (zIdx pd i j) = 0 ∨ sol (zIdx pd i j) = 1) →
      ((({ terms := [(i, (1 : ℚ)), (yIdx pd i j, (1 : ℚ)), (zIdx pd i j, (-2 : ℚ))]
           lhs := some 0, rhs := none } : LinCons).holds sol = true ∧
        ({ terms := [(i, (-1 : ℚ)), (yIdx pd i j, (-1 : ℚ)), (zIdx pd i j, (1 : ℚ))]
           lhs := some (-1), rhs := none } : LinCons).holds sol = true) ↔
       (sol (zIdx pd i j) = 1 ↔ (sol i = 1 ∧ sol (yIdx pd i j) = 1)))) := by
  refine ⟨?_, ?_, ?_⟩
  · intro c
    simp only [subCons6, List.mem_flatMap, List.mem_map, List.mem_range]
    constructor
    · rintro ⟨i, hi, j, hj, rfl⟩
      exact ⟨i, j, hi, hj, rfl⟩
    · rintro ⟨i, j, hi, hj, rfl⟩
      exact ⟨i, hi, j, hj, rfl⟩
  · intro c
    simp only [subCons7, List.mem_flatMap, List.mem_map, List.mem_range]
    constructor
    · rintro ⟨i, hi, j, hj, rfl⟩
      exact ⟨i, j, hi, hj, rfl⟩
    · rintro ⟨i, j, hi, hj, rfl⟩
      exact ⟨i, hi, j, hj, rfl⟩
  · intro i j hx hy hz
    simp only [LinCons.holds, LinCons.activity, List.map_cons, List.map_nil, List.sum_cons,
      List.sum_nil, Bool.and_true, decide_eq_true_eq]
    rcases hx with hx | hx <;> rcases hy with hy | hy <;> rcases hz with hz | hz <;>
      rw [hx, hy, hz] <;> norm_num

/-- Instance of `bridging_is_and` in scenario A with the assignment `solOptical`. -/
theorem bridging_is_and_witness :
    (solOptical 0 = 0 ∨ solOptical 0 = 1) ∧
    (solOptical (yIdx (scenarioA default default default 0 1 400) 0 0) = 0 ∨
      solOptical (yIdx (scenarioA default default default 0 1 400) 0 0) = 1) ∧
    (solOptical (zIdx (scenarioA default default default 0 1 400) 0 0) = 0 ∨
      solOptical (zIdx (scenarioA default default default 0 1 400) 0 0) = 1) ∧
    ((({ terms := [(0, (1 : ℚ)), (yIdx (scenarioA default default default 0 1 400) 0 0, (1 : ℚ)),
                   (zIdx (scenarioA default default default 0 1 400) 0 0, (-2 : ℚ))]
         lhs := some 0, rhs := none } : LinCons).holds solOptical = true ∧
      ({ terms := [(0, (-1 : ℚ)), (yIdx (scenarioA default default default 0 1 400) 0 0, (-1 : ℚ)),
                   (zIdx (scenarioA default default default 0 1 400) 0 0, (1 : ℚ))]
         lhs := some (-1), rhs := none } : LinCons).holds solOptical = true) ↔
     (solOptical (zIdx (scenarioA default default default 0 1 400) 0 0) = 1 ↔
       (solOptical 0 = 1 ∧
        solOptical (yIdx (scenarioA default default default 0 1 400) 0 0) = 1))) :=
  ⟨by decide!, by decide!, by decide!,
    (bridging_is_and (scenarioA default default default 0 1 400) solOptical).2.2 0 0
      (by decide!) (by decide!) (by decide!)⟩

/-! ## The debug check of a constraint and the result of a pricing call -/

theorem consdataCheck_iff (vars : List MasterVar) (cd : SCIP_ConsData) (t : Int) :
    consdataCheck vars cd t = true ↔
      ∀ pre v post, vars = pre ++ v :: post →
        ¬ (¬ v.lb < 1 / 2 ∧ sscanfLambda v (tempAfter pre t) = (cd.index1 : Int) ∧
          cd.type = CONSTYPE.ZERO ∧ v.bit cd.index2 = 1) := by
  induction vars generalizing t with
  | nil =>
    simp [consdataCheck]
  | cons a rest ih =>
    unfold consdataCheck
    by_cases h1 : a.lb < 1 / 2
    · have hk : ∀ pre, tempAfter (a :: pre) t = tempAfter pre t := fun pre => by
        unfold tempAfter
        rw [List.foldl_cons, if_pos h1]
      rw [if_pos h1, ih]
      constructor
      · intro h pre v post he
        rcases pre with _ | ⟨b, pre⟩
        · simp only [List.nil_append, List.cons.injEq] at he
          rw [← he.1]
          exact fun hc => hc.1 h1
        · simp only [List.cons_append, List.cons.injEq] at he
          have := h pre v post he.2
          rw [← he.1, hk pre]
          exact this
      · intro h pre v post he
        have := h (a :: pre) v post (by rw [he]; rfl)
        rw [hk pre] at this
        exact this
    · have hk : ∀ pre, tempAfter (a :: pre) t = tempAfter pre (sscanfLambda a t) := fun pre => by
        unfold tempAfter
        rw [List.foldl_cons, if_neg h1]
      rw [if_neg h1]
      by_cases h2 : sscanfLambda a t = (cd.index1 : Int) ∧
          (cd.type = CONSTYPE.ZERO ∧ a.bit cd.index2 = 1)
      · rw [if_pos h2]
        constructor
        · intro h; exact absurd h (by simp)
        · intro h
          exact absurd ⟨h1, h2.1, h2.2.1, h2.2.2⟩ (h [] a rest rfl)
      · rw [if_neg h2, ih]
        constructor
        · intro h pre v post he
          rcases pre with _ | ⟨b, pre⟩
          · simp only [List.nil_append, List.cons.injEq] at he
            rw [← he.1]
            exact fun hc => h2 ⟨hc.2.1, hc.2.2.1, hc.2.2.2⟩
          · simp only [List.cons_append, List.cons.injEq] at he
            have := h pre v post he.2
            rw [← he.1, hk pre]
            exact this
        · intro h pre v post he
          have := h (a :: pre) v post (by rw [he]; rfl)
          rw [hk pre] at this
          exact this

theorem consdataCheck_named (vars : List MasterVar) (cd : SCIP_ConsData) (t : Int)
    (hname : ∀ v ∈ vars, v.transformed = false) :
    consdataCheck vars cd t = true ↔
      ∀ v ∈ vars, ¬ (¬ v.lb < 1 / 2 ∧ v.flow = cd.index1 ∧ cd.type = CONSTYPE.ZERO ∧
        v.bit cd.index2 = 1) := by
  rw [consdataCheck_iff]
  constructor
  · intro h v hv
    obtain ⟨pre, post, he⟩ := List.append_of_mem hv
    have := h pre v post he
    rw [sscanfLambda_named v _ (hname v hv)] at this
    intro hc
    exact this ⟨hc.1, by rw [hc.2.1], hc.2.2.1, hc.2.2.2⟩
  · intro h pre v post he
    have hv : v ∈ vars := by rw [he]; simp
    have := h v hv
    rw [sscanfLambda_named v _ (hname v hv)]
    intro hc
    exact this ⟨hc.1, by exact_mod_cast hc.2.1, hc.2.2.1, hc.2.2.2⟩

/-- Claim C28 fails on the code: `consdataCheck` returns `TRUE` exactly when no column with
local lower bound at least one half is read as a column of flow `index1` and has incidence
entry `index2` equal to one under `ZERO`; for columns named `lambda_<flow>_<seq>` the flow
read is the flow of the column. The function skips by the lower bound where its comment and
the claim speak of columns fixed to zero, and it has no test for the type `ONE`. So it
returns `TRUE` for a `ZERO` constraint over a free column (bounds 0 and 1) with entry one,
and for a `ONE` constraint over a column fixed to one with entry zero, although each column
conflicts with its constraint. -/
theorem consdataCheck_misses_conflicts :
    (∀ (vars : List MasterVar) (cd : SCIP_ConsData) (tempI : Int),
      consdataCheck vars cd tempI = true ↔
        ∀ pre v post, vars = pre ++ v :: post →
          ¬ (¬ v.lb < 1 / 2 ∧ sscanfLambda v (tempAfter pre tempI) = (cd.index1 : Int) ∧
            cd.type = CONSTYPE.ZERO ∧ v.bit cd.index2 = 1)) ∧
    (∀ (vars : List MasterVar) (cd : SCIP_ConsData) (tempI : Int),
      (∀ v ∈ vars, v.transformed = false) →
      (consdataCheck vars cd tempI = true ↔
        ∀ v ∈ vars, ¬ (¬ v.lb < 1 / 2 ∧ v.flow = cd.index1 ∧ cd.type = CONSTYPE.ZERO ∧
          v.bit cd.index2 = 1))) ∧
    (∀ tempI, consdataCheck [freshColumn 0 1 [1, 0]] (consdataCreate 0 0 CONSTYPE.ZERO) tempI
      = true) ∧
    conflicts (consdataCreate 0 0 CONSTYPE.ZERO) (freshColumn 0 1 [1, 0]) ∧
    (∀ tempI, consdataCheck [{ freshColumn 0 1 [0, 1] with lb := 1 }]
      (consdataCreate 0 0 CONSTYPE.ONE) tempI = true) ∧
    conflicts (consdataCreate 0 0 CONSTYPE.ONE) { freshColumn 0 1 [0, 1] with lb := 1 } :=
  ⟨consdataCheck_iff, consdataCheck_named,
    fun tempI => (consdataCheck_named _ _ tempI (by decide!)).2 (by decide!), by decide!,
    fun tempI => (consdataCheck_named _ _ tempI (by decide!)).2 (by decide!), by decide!⟩

theorem pricerLoop_result (pd : SCIP_PricerData) (conshdlr : List ZerooneCons)
    (alpha beta gamma : Nat → ℚ) (outcomes : Nat → SubOutcome) (nFlowSol : Nat → Nat)
    (l : List Nat) (acc : SCIP_RESULT × List MasterVar) :
    ((l.foldl
      (fun acc k =>
        let cols := pricerRedcostFlow pd conshdlr k alpha beta gamma (outcomes k).sols
          (nFlowSol k)
        let addvar := !cols.isEmpty
        ((if addvar = true ∨ (outcomes k).status = SCIP_STATUS.OPTIMAL then SCIP_RESULT.SUCCESS
          else acc.1,
         acc.2 ++ cols) : SCIP_RESULT × List MasterVar))
      acc).1
      = if ∃ k ∈ l, pricerRedcostFlow pd conshdlr k alpha beta gamma (outcomes k).sols
            (nFlowSol k) ≠ [] ∨ (outcomes k).status = SCIP_STATUS.OPTIMAL
        then SCIP_RESULT.SUCCESS else acc.1) := by
  induction l generalizing acc with
  | nil => simp
  | cons k rest ih =>
    rw [List.foldl_cons, ih]
    have hemp : ∀ cols : List MasterVar, ((!cols.isEmpty) = true) ↔ cols ≠ [] := by
      intro cols; cases cols <;> simp
    simp only [hemp, List.mem_cons, exists_eq_or_imp]
    by_cases hr : ∃ a, a ∈ rest ∧ (pricerRedcostFlow pd conshdlr a alpha beta gamma
        (outcomes a).sols (nFlowSol a) ≠ [] ∨ (outcomes a).status = SCIP_STATUS.OPTIMAL)
    · rw [if_pos hr, if_pos (Or.inr hr)]
    · rw [if_neg hr]
      by_cases hk : pricerRedcostFlow pd conshdlr k alpha beta gamma (outcomes k).sols
          (nFlowSol k) ≠ [] ∨ (outcomes k).status = SCIP_STATUS.OPTIMAL
      · rw [if_pos hk, if_pos (Or.inl hk)]
      · rw [if_neg hk, if_neg (fun h => h.elim hk hr)]


/-- Claim C29: the result of one call of `pricerRedcostOAAR` is `SCIP_SUCCESS` exactly when
for some flow `k < nFlows` a column was added or the subproblem ended with status
`OPTIMAL`, and `SCIP_DIDNOTRUN` otherwise; a flow that stops on the time or memory limit
without a column leaves the `SCIP_SUCCESS` of another flow in place. -/
theorem pricer_result (pd : SCIP_PricerData) (conshdlr : List ZerooneCons)
    (alpha beta gamma : Nat → ℚ) (outcomes : Nat → SubOutcome) (nFlowSol : Nat → Nat) :
    ((pricerRedcostOAAR pd conshdlr alpha beta gamma outcomes nFlowSol).1 = SCIP_RESULT.SUCCESS ↔
      ∃ k, k < pd.nFlows ∧
        (pricerRedcostFlow pd conshdlr k alpha beta gamma (outcomes k).sols (nFlowSol k) ≠ [] ∨
         (outcomes k).status = SCIP_STATUS.OPTIMAL)) ∧
    ((pricerRedcostOAAR pd conshdlr alpha beta gamma outcomes nFlowSol).1
        = SCIP_RESULT.DIDNOTRUN ↔
      ¬ ∃ k, k < pd.nFlows ∧
        (pricerRedcostFlow pd conshdlr k alpha beta gamma (outcomes k).sols (nFlowSol k) ≠ [] ∨
         (outcomes k).status = SCIP_STATUS.OPTIMAL)) ∧
    (∀ k1 k2, k1 < pd.nFlows → k2 < pd.nFlows →
      (pricerRedcostFlow pd conshdlr k1 alpha beta gamma (outcomes k1).sols (nFlowSol k1) ≠ [] ∨
        (outcomes k1).status = SCIP_STATUS.OPTIMAL) →
      ((outcomes k2).status = SCIP_STATUS.TIMELIMIT ∨
        (outcomes k2).status = SCIP_STATUS.MEMLIMIT) →
      pricerRedcostFlow pd conshdlr k2 alpha beta gamma (outcomes k2).sols (nFlowSol k2) = [] →
      (pricerRedcostOAAR pd conshdlr alpha beta gamma outcomes nFlowSol).1
        = SCIP_RESULT.SUCCESS) := by
  have h := pricerLoop_result pd conshdlr alpha beta gamma outcomes nFlowSol
    (List.range pd.nFlows) (SCIP_RESULT.DIDNOTRUN, [])
  have hr : (pricerRedcostOAAR pd conshdlr alpha beta gamma outcomes nFlowSol).1
      = if ∃ k, k < pd.nFlows ∧
          (pricerRedcostFlow pd conshdlr k alpha beta gamma (outcomes k).sols (nFlowSol k) ≠ [] ∨
           (outcomes k).status = SCIP_STATUS.OPTIMAL)
        then SCIP_RESULT.SUCCESS else SCIP_RESULT.DIDNOTRUN := by
    unfold pricerRedcostOAAR
    rw [h]
    simp only [List.mem_range]
  refine ⟨?_, ?_, ?_⟩
  · rw [hr]
    split_ifs with hc
    · exact ⟨fun _ => hc, fun _ => rfl⟩
    · exact ⟨fun h => absurd h (by decide), fun h => absurd h hc⟩
  · rw [hr]
    split_ifs with hc
    · exact ⟨fun h => absurd h (by decide), fun h => absurd hc h⟩
    · exact ⟨fun _ => hc, fun _ => rfl⟩
  · intro k1 k2 h1 _ hk1 _ _
    rw [hr, if_pos ⟨k1, h1, hk1⟩]

/-- Instance of `pricer_result` over `bandwidthNet`: flow 0 is solved to optimality and
gets a column, flow 1 stops on the time limit without a solution. -/
theorem pricer_result_witness :
    (limitOutcomes 0).status = SCIP_STATUS.OPTIMAL ∧
    (limitOutcomes 1).status = SCIP_STATUS.TIMELIMIT ∧
    (pricerRedcostFlow bandwidthNet [] 0 (fun _ => 0) (fun _ => 0) (fun _ => 100000)
      (limitOutcomes 0).sols 1).length = 1 ∧
    pricerRedcostFlow bandwidthNet [] 1 (fun _ => 0) (fun _ => 0) (fun _ => 100000)
      (limitOutcomes 1).sols 1 = [] ∧
    (pricerRedcostOAAR bandwidthNet [] (fun _ => 0) (fun _ => 0) (fun _ => 100000)
      limitOutcomes fun _ => 1).1 = SCIP_RESULT.SUCCESS :=
  ⟨by decide, by decide, by decide!, by decide!,
    (pricer_result bandwidthNet [] (fun _ => 0) (fun _ => 0) (fun _ => 100000) limitOutcomes
      fun _ => 1).2.2 0 1 (by decide) (by decide) (Or.inr (by decide)) (Or.inl (by decide))
      (by decide!)⟩

/-! ## Positive-weight columns in the children of a branching -/

/-- Claim C22 fails on the code: over `sharedArcsPool` with the weights 0, 1/2, 1/2 (within
the bounds, summing to one) the candidate search returns `(0, 1)`, although the aggregate
usage of link 1 is one: both columns of positive weight have incidence entry 1 equal to
one and none has it zero, so the propagation of the `ZERO` child fixes every column of
positive weight of flow 0 to zero. The search stops at link 1 because `fracOriVal` still
holds the usage of link 0 when the usage of link 1 is added. -/
theorem zero_child_fixes_all_positive_columns :
    lpAdmissible 1 sharedArcsPool sharedArcsWeights ∧
    (∀ tempI, branchExeclpOriginalvar defaultFeastol tempI 1 4 0 1
      (SCIPgetLPBranchCands sharedArcsPool sharedArcsWeights) = some (0, 1)) ∧
    aggUsage (SCIPgetLPBranchCands sharedArcsPool sharedArcsWeights) 0 1 = 1 ∧
    ((sharedArcsPool.zip sharedArcsWeights).filter fun p =>
        decide (p.1.flow = 0 ∧ 0 < p.2)).map (fun p => (p.1.seq, p.1.bit 1))
      = [(1, 1), (2, 1)] ∧
    (∀ uninit, (enterChild { vars := sharedArcsPool, conss := [] } (branchChildren 0 1).1
        uninit).2.2 = SCIP_RESULT.REDUCEDDOM) ∧
    (∀ uninit, (enterChild { vars := sharedArcsPool, conss := [] } (branchChildren 0 1).1
        uninit).1.map (fun v => (v.seq, v.lb, v.ub))
      = [(0, 0, 1), (1, 0, 0), (2, 0, 0)]) := by
  refine ⟨by decide!, fun tempI => ?_, by decide!, by decide!, fun uninit => ?_,
    fun uninit => ?_⟩
  · rw [branch_named defaultFeastol tempI 0 1 4 0 1 _ (by decide!)]
    decide!
  · rw [enterChild_named _ _ uninit (fun _ _ => 0) (by decide!)]
    decide!
  · rw [enterChild_named _ _ uninit (fun _ _ => 0) (by decide!)]
    decide!

/-! ## The number of propagated columns of a constraint -/

theorem fixLoop_length (cd : SCIP_ConsData) (l : List MasterVar) (u : Nat → Int) (n : Nat) :
    (fixLoop cd l u n).1.length = l.length := by
  induction l generalizing u n with
  | nil => rfl
  | cons v rest ih =>
    unfold fixLoop
    by_cases h : (checkVariable cd v (u 0) n false).2.2 = true
    · simp [h]
    · simp [h, ih]

theorem consdataFixVariables_length (cd : SCIP_ConsData) (vars : List MasterVar)
    (u : Nat → Int) (r0 : SCIP_RESULT) :
    (consdataFixVariables cd vars u r0).1.length = vars.length := by
  unfold consdataFixVariables
  simp only [List.length_append, fixLoop_length, List.length_take, List.length_drop]
  omega

theorem consPropLoop_length (conss : List SCIP_ConsData) (vars : List MasterVar)
    (u : Nat → Nat → Int) (r0 : SCIP_RESULT) :
    (consPropLoop conss vars u r0).1.length = vars.length := by
  induction conss generalizing vars u r0 with
  | nil => rfl
  | cons cd rest ih =>
    unfold consPropLoop
    by_cases hp : cd.propagated = true
    · simp only [hp, Bool.not_true, Bool.false_eq_true, if_false]
      exact ih vars _ r0
    · have hp' : cd.propagated = false := by simpa using hp
      simp only [hp', Bool.not_false, if_true]
      by_cases hc : (consdataFixVariables cd vars (u 0) r0).2 = SCIP_RESULT.CUTOFF
      · simp only [hc, ne_eq, not_true_eq_false, if_false]
        exact consdataFixVariables_length cd vars (u 0) r0
      · simp only [ne_eq, hc, not_false_eq_true, if_true]
        rw [ih, consdataFixVariables_length]

theorem consPropLoop_entry (before : List SCIP_ConsData) (cd : SCIP_ConsData)
    (after : List SCIP_ConsData) (vars : List MasterVar) (u : Nat → Nat → Int)
    (r0 : SCIP_RESULT) :
    ((consPropLoop (before ++ cd :: after) vars u r0).2.1.getD before.length cd = cd ∨
     (consPropLoop (before ++ cd :: after) vars u r0).2.1.getD before.length cd
       = { cd with npropagations := cd.npropagations + 1 } ∨
     (consPropLoop (before ++ cd :: after) vars u r0).2.1.getD before.length cd
       = { cd with npropagations := cd.npropagations + 1, propagated := true,
                   npropagatedvars := vars.length }) ∧
    (cd.propagated = false →
      (consPropLoop (before ++ cd :: after) vars u r0).2.2 ≠ SCIP_RESULT.CUTOFF →
      (consPropLoop (before ++ cd :: after) vars u r0).2.1.getD before.length cd
       = { cd with npropagations := cd.npropagations + 1, propagated := true,
                   npropagatedvars := vars.length }) := by
  induction before generalizing vars u r0 with
  | nil =>
    simp only [List.nil_append, List.length_nil]
    unfold consPropLoop
    by_cases hp : cd.propagated = true
    · simp only [hp, Bool.not_true, Bool.false_eq_true, if_false, List.getD_cons_zero]
      simp [hp]
    · have hp' : cd.propagated = false := by simpa using hp
      simp only [hp', Bool.not_false, if_true]
      by_cases hc : (consdataFixVariables cd vars (u 0) r0).2 = SCIP_RESULT.CUTOFF
      · simp only [hc, ne_eq, not_true_eq_false, if_false, List.getD_cons_zero]
        simp
      · simp only [ne_eq, hc, not_false_eq_true, if_true, List.getD_cons_zero]
        simp
  | cons b bs ih =>
    simp only [List.cons_append, List.length_cons]
    unfold consPropLoop
    by_cases hp : b.propagated = true
    · simp only [hp, Bool.not_true, Bool.false_eq_true, if_false, List.getD_cons_succ]
      exact ih vars _ r0
    · have hp' : b.propagated = false := by simpa using hp
      simp only [hp', Bool.not_false, if_true]
      by_cases hc : (consdataFixVariables b vars (u 0) r0).2 = SCIP_RESULT.CUTOFF
      · simp only [hc, ne_eq, not_true_eq_false, if_false, List.getD_cons_succ]
        simp [List.getD_eq_getElem?_getD]
        left
        rw [List.getElem_append_right (Nat.le_refl _)]
        simp
      · simp only [ne_eq, hc, not_false_eq_true, if_true, List.getD_cons_succ]
        have := ih (consdataFixVariables b vars (u 0) r0).1 (fun c => u (c + 1))
          (consdataFixVariables b vars (u 0) r0).2
        rw [consdataFixVariables_length] at this
        exact this

theorem consPropLoop_skips (before : List SCIP_ConsData) (cd : SCIP_ConsData)
    (after : List SCIP_ConsData) (vars : List MasterVar) (u : Nat → Nat → Int)
    (r0 : SCIP_RESULT) (hp : cd.propagated = true) :
    (consPropLoop (before ++ cd :: after) vars u r0).2.1.getD before.length cd = cd := by
  induction before generalizing vars u r0 with
  | nil =>
    simp only [List.nil_append, List.length_nil]
    unfold consPropLoop
    simp [hp]
  | cons b bs ih =>
    simp only [List.cons_append, List.length_cons]
    unfold consPropLoop
    by_cases hb : b.propagated = true
    · simp only [hb, Bool.not_true, Bool.false_eq_true, if_false, List.getD_cons_succ]
      exact ih vars _ r0
    · have hb' : b.propagated = false := by simpa using hb
      simp only [hb', Bool.not_false, if_true]
      by_cases hc : (consdataFixVariables b vars (u 0) r0).2 = SCIP_RESULT.CUTOFF
      · simp only [hc, ne_eq, not_true_eq_false, if_false, List.getD_cons_succ]
        simp [List.getD_eq_getElem?_getD]
        rw [List.getElem_append_right (Nat.le_refl _)]
        simp
      · simp only [ne_eq, hc, not_false_eq_true, if_true, List.getD_cons_succ]
        exact ih _ _ _

/-- Claim C27: in every state reached by creation (with `npropagatedvars = 0`), addition of
columns, changes of bounds, propagation, activation and deactivation, `npropagatedvars` of a
zeroone constraint is at most the number of columns; when `consPropZeroone` ends without
cutoff, a constraint that was not marked propagated on entry is marked and has
`npropagatedvars` equal to the number of columns, while a constraint that was marked on
entry is passed over and left as it is; after deactivation `npropagatedvars` is
the number of columns; activation clears the mark `propagated` when `npropagatedvars`
differs from the number of columns and leaves the constraint as it is otherwise. -/
theorem npropagatedvars_invariant :
    (∀ (vars : List MasterVar) (cd : SCIP_ConsData), ConsReachable vars cd →
      cd.npropagatedvars ≤ vars.length) ∧
    (∀ index1 index2 type, (consdataCreate index1 index2 type).npropagatedvars = 0) ∧
    (∀ (vars : List MasterVar) (cd : SCIP_ConsData) (before after : List SCIP_ConsData)
      (uninit : Nat → Nat → Int),
      cd.propagated = false →
      (consPropZeroone (before ++ cd :: after) vars uninit).2.2 ≠ SCIP_RESULT.CUTOFF →
      ((consPropZeroone (before ++ cd :: after) vars uninit).2.1.getD
          before.length cd).npropagatedvars
        = (consPropZeroone (before ++ cd :: after) vars uninit).1.length ∧
      ((consPropZeroone (before ++ cd :: after) vars uninit).2.1.getD
          before.length cd).propagated = true) ∧
    (∀ (vars : List MasterVar) (cd : SCIP_ConsData) (before after : List SCIP_ConsData)
      (uninit : Nat → Nat → Int),
      cd.propagated = true →
      (consPropZeroone (before ++ cd :: after) vars uninit).2.1.getD before.length cd = cd) ∧
    (∀ (cd : SCIP_ConsData) (nvars : Nat),
      (consDeactiveZeroone cd nvars).npropagatedvars = nvars) ∧
    (∀ (cd : SCIP_ConsData) (nvars : Nat),
      (cd.npropagatedvars ≠ nvars →
        consActiveZeroone cd nvars = { cd with propagated := false }) ∧
      (cd.npropagatedvars = nvars → consActiveZeroone cd nvars = cd)) := by
  refine ⟨?_, fun _ _ _ => rfl, ?_,
    fun vars cd before after uninit hp => consPropLoop_skips before cd after vars uninit _ hp,
    fun _ _ => rfl, ?_⟩
  · intro vars cd h
    induction h with
    | create vars index1 index2 type => exact Nat.zero_le _
    | addVar vars cd var _ ih =>
      rw [List.length_append]
      exact Nat.le_trans ih (Nat.le_add_right _ _)
    | chgBounds vars vars' cd _ hlen ih => rw [hlen]; exact ih
    | propagate vars cd before after uninit _ ih =>
      unfold consPropZeroone
      rw [consPropLoop_length]
      rcases (consPropLoop_entry before cd after vars uninit SCIP_RESULT.DIDNOTFIND).1 with
        h | h | h
      · rw [h]; exact ih
      · rw [h]; exact ih
      · rw [h]
    | activate vars cd _ ih =>
      unfold consActiveZeroone
      split_ifs
      · exact ih
      · exact ih
    | deactivate vars cd _ _ => exact Nat.le_refl _
  · intro vars cd before after uninit hp hc
    unfold consPropZeroone at hc ⊢
    rw [consPropLoop_length,
      (consPropLoop_entry before cd after vars uninit SCIP_RESULT.DIDNOTFIND).2 hp hc]
    exact ⟨rfl, rfl⟩
  · intro cd nvars
    unfold consActiveZeroone
    constructor
    · intro h; rw [if_pos h]
    · intro h; rw [if_neg (by simpa using h)]

/-- Instance of `npropagatedvars_invariant`: a `ZERO` constraint created over
`sharedArcsPool` and deactivated after one more column was added. -/
theorem npropagatedvars_invariant_witness :
    ConsReachable (sharedArcsPool ++ [freshColumn 0 3 [0, 0, 0, 0]])
      (consDeactiveZeroone (consdataCreate 0 1 CONSTYPE.ZERO)
        (sharedArcsPool ++ [freshColumn 0 3 [0, 0, 0, 0]]).length) ∧
    (consDeactiveZeroone (consdataCreate 0 1 CONSTYPE.ZERO)
        (sharedArcsPool ++ [freshColumn 0 3 [0, 0, 0, 0]]).length).npropagatedvars
      ≤ (sharedArcsPool ++ [freshColumn 0 3 [0, 0, 0, 0]]).length :=
  ⟨ConsReachable.deactivate _ _
      (ConsReachable.addVar _ _ _ (ConsReachable.create sharedArcsPool 0 1 CONSTYPE.ZERO)),
    npropagatedvars_invariant.1 _ _
      (ConsReachable.deactivate _ _
        (ConsReachable.addVar _ _ _ (ConsReachable.create sharedArcsPool 0 1 CONSTYPE.ZERO)))⟩

/-! ## Wavelength selections and link selection -/

theorem sum_binary_count (n : Nat) (w : ℚ) (v : Nat → ℚ) (hv : ∀ j, v j = 0 ∨ v j = 1) :
    ((List.range n).map fun j => w * v j).sum
      = w * (((List.range n).filter fun j => decide (v j > 1 / 2)).length : ℚ) := by
  induction n with
  | zero => simp
  | succ n ih =>
    rw [List.range_succ, List.map_append, List.sum_append, ih, List.filter_append,
      List.length_append]
    rcases hv n with h | h
    · have hn : ¬ v n > 1 / 2 := by rw [h]; norm_num
      rw [List.filter_cons_of_neg (by simpa using hn)]
      simp [h]
    · have hn : v n > 1 / 2 := by rw [h]; norm_num
      rw [List.filter_cons_of_pos (by simpa using hn)]
      simp [h]
      ring


theorem mem_subCons6 (pd : SCIP_PricerData) (i j : Nat) (hi : i < pd.nOpticalLinks)
    (hj : j < pd.nWaveLength) :
    ({ terms := [(i, (1 : ℚ)), (yIdx pd i j, (1 : ℚ)), (zIdx pd i j, (-2 : ℚ))]
       lhs := some 0, rhs := none } : LinCons) ∈ subCons6 pd := by
  simp only [subCons6, List.mem_flatMap, List.mem_map, List.mem_range]
  exact ⟨i, hi, j, hj, rfl⟩

theorem mem_subCons7 (pd : SCIP_PricerData) (i j : Nat) (hi : i < pd.nOpticalLinks)
    (hj : j < pd.nWaveLength) :
    ({ terms := [(i, (-1 : ℚ)), (yIdx pd i j, (-1 : ℚ)), (zIdx pd i j, (1 : ℚ))]
       lhs := some (-1), rhs := none } : LinCons) ∈ subCons7 pd := by
  simp only [subCons7, List.mem_flatMap, List.mem_map, List.mem_range]
  exact ⟨i, hi, j, hj, rfl⟩

theorem bridging_values (x y z : Nat) (sol : Sol) (hx : sol x = 0 ∨ sol x = 1)
    (hy : sol y = 0 ∨ sol y = 1) (hz : sol z = 0 ∨ sol z = 1)
    (h6 : ({ terms := [(x, (1 : ℚ)), (y, (1 : ℚ)), (z, (-2 : ℚ))]
             lhs := some 0, rhs := none } : LinCons).holds sol = true)
    (h7 : ({ terms := [(x, (-1 : ℚ)), (y, (-1 : ℚ)), (z, (1 : ℚ))]
             lhs := some (-1), rhs := none } : LinCons).holds sol = true) :
    sol z = 1 ↔ (sol x = 1 ∧ sol y = 1) := by
  simp only [LinCons.holds, LinCons.activity, List.map_cons, List.map_nil, List.sum_cons,
    List.sum_nil, Bool.and_true, decide_eq_true_eq] at h6 h7
  rcases hx with hx | hx <;> rcases hy with hy | hy <;> rcases hz with hz | hz <;>
    rw [hx, hy, hz] at h6 h7 ⊢ <;> norm_num at h6 h7 ⊢

/-- Claim C25 (amended): for a 0/1 assignment that satisfies `subCons4`, `subCons6` and
`subCons7` and every optical link `i`: the bridging variable `z_ij` is one exactly when
`x_i` and `y_ij` are one; if `x_i = 1` the selected slots carry the bandwidth,
`WaveLengthBand * count >= BandWidth_k`; if `x_i = 0` every bridging variable `z_ij` of the
link is zero. The wavelength variables `y_ij` of a link with `x_i = 0` are not restricted
by these constraints. -/
theorem wavelength_consistency (pd : SCIP_PricerData) (k : Nat) (sol : Sol)
    (hbin : ∀ idx, sol idx = 0 ∨ sol idx = 1)
    (h4 : ∀ c ∈ subCons4 pd k, c.holds sol = true)
    (h6 : ∀ c ∈ subCons6 pd, c.holds sol = true)
    (h7 : ∀ c ∈ subCons7 pd, c.holds sol = true)
    (i : Nat) (hi : i < pd.nOpticalLinks) :
    (∀ j, j < pd.nWaveLength →
      (sol (zIdx pd i j) = 1 ↔ (sol i = 1 ∧ sol (yIdx pd i j) = 1))) ∧
    (sol i = 1 →
      ((pd.flow k).BandWidth : ℚ) ≤ pd.WaveLengthBand * (slotCount pd sol i : ℚ)) ∧
    (sol i = 0 → ∀ j, j < pd.nWaveLength → sol (zIdx pd i j) = 0) := by
  have hand : ∀ j, j < pd.nWaveLength →
      (sol (zIdx pd i j) = 1 ↔ (sol i = 1 ∧ sol (yIdx pd i j) = 1)) := by
    intro j hj
    exact bridging_values i (yIdx pd i j) (zIdx pd i j) sol (hbin _) (hbin _) (hbin _)
      (h6 _ (mem_subCons6 pd i j hi hj)) (h7 _ (mem_subCons7 pd i j hi hj))
  refine ⟨hand, ?_, ?_⟩
  · intro hx
    have h := h4 _ (show _ ∈ subCons4 pd k from
      List.mem_map.2 ⟨i, List.mem_range.2 hi, rfl⟩)
    simp only [LinCons.holds, LinCons.activity, List.map_cons, List.sum_cons, List.map_map,
      Function.comp_def, Bool.and_true, decide_eq_true_eq, hx, mul_one] at h
    have hzy : ∀ j ∈ List.range pd.nWaveLength,
        pd.WaveLengthBand * sol (zIdx pd i j) = pd.WaveLengthBand * sol (yIdx pd i j) := by
      intro j hj
      have := hand j (List.mem_range.1 hj)
      rcases hbin (zIdx pd i j) with hz | hz <;> rcases hbin (yIdx pd i j) with hy | hy
      · rw [hz, hy]
      · exact absurd (this.2 ⟨hx, hy⟩) (by rw [hz]; norm_num)
      · exact absurd (this.1 hz).2 (by rw [hy]; norm_num)
      · rw [hz, hy]
    rw [List.map_congr_left hzy,
      sum_binary_count pd.nWaveLength pd.WaveLengthBand (fun j => sol (yIdx pd i j))
        (fun j => hbin _)] at h
    unfold slotCount
    linarith
  · intro hx j hj
    rcases hbin (zIdx pd i j) with hz | hz
    · exact hz
    · have := ((hand j hj).1 hz).1
      rw [hx] at this
      exact absurd this (by norm_num)

/-- Counterexample to claim C25: in scenario A with one wavelength of band 400 the
assignment `solIdleSlot` is feasible for the subproblem of flow 0, has `x_0 = 0` and
`y_00 = 1`, and the column created from it has the exclusivity row 2 of link 0 in its
membership list and coefficients, although its route is the artificial link 1. -/
theorem idle_link_occupies_wavelength :
    SCIPcheckSolOrig
      (initPricing (scenarioA default default default 0 1 400) [] 0 (fun _ => 0) fun _ => 0)
      solIdleSlot = true ∧
    solIdleSlot 0 = 0 ∧
    solIdleSlot (yIdx (scenarioA default default default 0 1 400) 0 0) = 1 ∧
    solIdleSlot (zIdx (scenarioA default default default 0 1 400) 0 0) = 0 ∧
    (newColumn (scenarioA default default default 0 1 400) 0 1 solIdleSlot).vardata.consids
      = [0, 1, 2] ∧
    (newColumn (scenarioA default default default 0 1 400) 0 1 solIdleSlot).coefs
      = [(0, 1), (1, 400), (2, 1)] ∧
    (newColumn (scenarioA default default default 0 1 400) 0 1 solIdleSlot).vardata.oriFlowVars
      = [0, 1, 1, 0] := by
  refine ⟨by decide!, by decide!, by decide!, by decide!, by decide!, by decide!, by decide!⟩

/-- Instance of `wavelength_consistency`: scenario A with one wavelength of band 400 and
the assignment `solOptical`, which chooses link 0 on its slot. -/
theorem wavelength_consistency_witness :
    (∀ c ∈ subCons4 (scenarioA default default default 0 1 400) 0, c.holds solOptical = true) ∧
    (∀ c ∈ subCons6 (scenarioA default default default 0 1 400), c.holds solOptical = true) ∧
    (∀ c ∈ subCons7 (scenarioA default default default 0 1 400), c.holds solOptical = true) ∧
    solOptical 0 = 1 ∧
    (((scenarioA default default default 0 1 400).flow 0).BandWidth : ℚ)
      ≤ (scenarioA default default default 0 1 400).WaveLengthBand
        * (slotCount (scenarioA default default default 0 1 400) solOptical 0 : ℚ) :=
  ⟨by decide!, by decide!, by decide!, by decide!,
    (wavelength_consistency (scenarioA default default default 0 1 400) 0 solOptical
      (fun idx => by unfold solOptical; split_ifs <;> simp) (by decide!) (by decide!)
      (by decide!) 0 (by decide)).2.1 (by decide!)⟩

/-! ## Flow conservation at intermediate nodes -/

theorem conservation_activity (pd : SCIP_PricerData) (sol : Sol) (v : Nat)
    (hbin : ∀ i, sol i = 0 ∨ sol i = 1) (l : List Nat) :
    ((l.filterMap fun j =>
        if (pd.link j).Head = v then some (j, (1 : ℚ))
        else if (pd.link j).Tail = v then some (j, (-1 : ℚ))
        else none).map fun t => t.2 * sol t.1).sum
      + ((l.filter fun i => decide (sol i = 1 ∧ (pd.link i).Tail = v)).length : ℚ)
      = ((l.filter fun i => decide (sol i = 1 ∧ (pd.link i).Head = v)).length : ℚ)
        + ((l.filter fun i =>
            decide (sol i = 1 ∧ (pd.link i).Head = v ∧ (pd.link i).Tail = v)).length : ℚ) := by
  induction l with
  | nil => simp
  | cons j rest ih =>
    simp only [Bool.decide_and] at ih ⊢
    by_cases hh : (pd.link j).Head = v <;> by_cases ht : (pd.link j).Tail = v <;>
      rcases hbin j with hs | hs <;>
      simp [List.filterMap_cons, List.filter_cons, hh, ht, hs] <;> linarith

/-- At a node other than source and destination of flow `k`, a 0/1 assignment that satisfies
the `subCons2` constraints has as many selected entering links as selected leaving links
plus selected links that both leave and enter the node. -/
theorem conservation_counts (pd : SCIP_PricerData) (k : Nat) (sol : Sol)
    (hbin : ∀ i, sol i = 0 ∨ sol i = 1)
    (h2 : ∀ c ∈ subCons2 pd k, c.holds sol = true) (v : Nat) (hv : v < pd.nNodes)
    (hs : v ≠ (pd.flow k).Source) (hd : v ≠ (pd.flow k).Destination) :
    enteringCount pd sol v = leavingCount pd sol v + selfLoopCount pd sol v := by
  have h := h2 _ (show _ ∈ subCons2 pd k from
    List.mem_filterMap.2 ⟨v, List.mem_range.2 hv, if_neg (by simp [hs, hd])⟩)
  simp only [LinCons.holds, LinCons.activity, Bool.and_eq_true, decide_eq_true_eq] at h
  have hact := conservation_activity pd sol v hbin (List.range pd.nLinks)
  have h0 := le_antisymm h.2 h.1
  rw [h0, zero_add] at hact
  unfold enteringCount leavingCount selfLoopCount
  exact_mod_cast hact

/-- Claim C24. A link with `Head = Tail` at a node other than source and destination gets
the coefficient `+1` only (`if Head == i ... else if Tail == i`), so `subCons2` does not
make the number of selected leaving links equal to the number of selected entering links:
in `selfLoopNet` the 0/1 assignment `solSelfLoop` satisfies every constraint `initPricing`
builds for flow 0, among them the `subCons2` constraint of node 2 whose terms are
`-x_0 + x_1`, and at node 2 one selected link leaves while two enter. -/
theorem self_loop_breaks_conservation :
    (∀ idx, solSelfLoop idx = 0 ∨ solSelfLoop idx = 1) ∧
    (selfLoopNet.link 1).Head = 2 ∧ (selfLoopNet.link 1).Tail = 2 ∧
    (2 < selfLoopNet.nNodes ∧ 2 ≠ (selfLoopNet.flow 0).Source ∧
      2 ≠ (selfLoopNet.flow 0).Destination) ∧
    (subCons2 selfLoopNet 0).map (fun c => (c.terms, c.lhs, c.rhs))
      = [([(0, -1), (1, 1)], some 0, some 0)] ∧
    (subCons2 selfLoopNet 0).all (fun c => c.holds solSelfLoop) = true ∧
    (initPricing selfLoopNet [] 0 (fun _ => 0) (fun _ => 0)).conss.all
      (fun c => c.holds solSelfLoop) = true ∧
    leavingCount selfLoopNet solSelfLoop 2 = 1 ∧
    enteringCount selfLoopNet solSelfLoop 2 = 2 ∧
    selfLoopCount selfLoopNet solSelfLoop 2 = 1 := by
  refine ⟨?_, by decide, by decide, by decide, by decide!, by decide!, by decide!,
    by decide!, by decide!, by decide!⟩
  intro idx
  unfold solSelfLoop
  split_ifs <;> simp

/-! ## Paths among the selected links -/

theorem isPath_append (pd : SCIP_PricerData) (sol : Sol) (p q : List Nat) (a c b : Nat)
    (h1 : isPath pd sol a p c = true) (h2 : isPath pd sol c q b = true) :
    isPath pd sol a (p ++ q) b = true := by
  induction p generalizing a with
  | nil =>
    simp only [isPath, decide_eq_true_eq] at h1
    subst h1
    simpa using h2
  | cons i rest ih =>
    simp only [isPath, Bool.and_eq_true, decide_eq_true_eq] at h1
    simp only [List.cons_append, isPath, Bool.and_eq_true, decide_eq_true_eq]
    exact ⟨h1.1, ih _ h1.2⟩

theorem list_range_sum (f : Nat → ℚ) (n : Nat) :
    ((List.range n).map f).sum = ∑ i in Finset.range n, f i := by
  induction n with
  | zero => simp
  | succ n ih =>
    rw [List.range_succ, List.map_append, List.sum_append, ih, Finset.sum_range_succ]
    simp

theorem setpart_activity (p : Nat → Prop) [DecidablePred p] (sol : Sol) (l : List Nat) :
    ((l.filterMap fun i => if p i then some (i, (1 : ℚ)) else none).map
        fun t => t.2 * sol t.1).sum
      = (l.map fun i => if p i then sol i else 0).sum := by
  induction l with
  | nil => rfl
  | cons i rest ih =>
    by_cases h : p i
    · simp only [List.filterMap_cons, h, if_true, List.map_cons, List.sum_cons, one_mul, ih]
    · simp only [List.filterMap_cons, h, if_false, List.map_cons, List.sum_cons, zero_add, ih]

theorem node_activity (pd : SCIP_PricerData) (sol : Sol) (v : Nat) (l : List Nat) :
    ((l.filterMap fun j =>
        if (pd.link j).Head = v then some (j, (1 : ℚ))
        else if (pd.link j).Tail = v then some (j, (-1 : ℚ))
        else none).map fun t => t.2 * sol t.1).sum
      = (l.map fun j =>
          if (pd.link j).Head = v then sol j
          else if (pd.link j).Tail = v then -sol j else 0).sum := by
  induction l with
  | nil => rfl
  | cons i rest ih =>
    by_cases hh : (pd.link i).Head = v
    · simp only [List.filterMap_cons, hh, if_true, List.map_cons, List.sum_cons, one_mul, ih]
    · by_cases ht : (pd.link i).Tail = v
      · simp only [List.filterMap_cons, hh, ht, if_true, if_false, List.map_cons,
          List.sum_cons, neg_one_mul, ih]
      · simp only [List.filterMap_cons, hh, ht, if_false, List.map_cons, List.sum_cons,
          zero_add, ih]

theorem no_path_contradiction (pd : SCIP_PricerData) (k : Nat) (sol : Sol)
    (hbin : ∀ i, sol i = 0 ∨ sol i = 1)
    (h1 : (subCons1 pd k).holds sol = true)
    (h2 : ∀ c ∈ subCons2 pd k, c.holds sol = true)
    (hnodes : ∀ i, i < pd.nLinks → (pd.link i).Tail < pd.nNodes)
    (hloop : ∀ i, i < pd.nLinks → sol i = 1 → (pd.link i).Head ≠ (pd.link i).Tail)
    (hback : ∀ i, i < pd.nLinks → sol i = 1 → (pd.link i).Tail ≠ (pd.flow k).Source) :
    ∃ path, isPath pd sol (pd.flow k).Source path (pd.flow k).Destination = true := by
  classical
  by_contra hno
  set s := (pd.flow k).Source with hs
  set d := (pd.flow k).Destination with hd
  let V : Nat → Prop := fun v => ∃ p, isPath pd sol s p v = true
  have hVs : V s := ⟨[], by simp [isPath]⟩
  have hVd : ¬ V d := hno
  have hclosed : ∀ i, i < pd.nLinks → sol i = 1 → V (pd.link i).Head → V (pd.link i).Tail := by
    intro i hi hx ⟨p, hp⟩
    refine ⟨p ++ [i], isPath_append pd sol p [i] s _ _ hp ?_⟩
    simp [isPath, hi, hx]
  let W : Finset Nat := (Finset.range pd.nNodes).filter fun v => V v ∧ v ≠ s
  have hW : ∀ v, v ∈ W ↔ v < pd.nNodes ∧ V v ∧ v ≠ s := by
    intro v
    simp only [W, Finset.mem_filter, Finset.mem_range]
  let c : Nat → Nat → ℚ := fun v j =>
    if (pd.link j).Head = v then sol j else if (pd.link j).Tail = v then -sol j else 0
  -- the constraint of every node of `W`
  have hrow : ∀ v ∈ W, ∑ j in Finset.range pd.nLinks, c v j = 0 := by
    intro v hv
    obtain ⟨hvn, hvV, hvs⟩ := (hW v).1 hv
    have hvd : v ≠ d := fun h => hVd (h ▸ hvV)
    have h := h2 _ (show _ ∈ subCons2 pd k from
      List.mem_filterMap.2 ⟨v, List.mem_range.2 hvn, if_neg (by simp [← hs, ← hd, hvs, hvd])⟩)
    simp only [LinCons.holds, LinCons.activity, Bool.and_eq_true, decide_eq_true_eq] at h
    have h0 := le_antisymm h.2 h.1
    rw [node_activity, list_range_sum] at h0
    exact h0
  have hsrc : ∑ j in Finset.range pd.nLinks, (if (pd.link j).Head = s then sol j else 0) = 1 := by
    have h := h1
    simp only [LinCons.holds, LinCons.activity, subCons1, Bool.and_eq_true,
      decide_eq_true_eq] at h
    have h0 := le_antisymm h.2 h.1
    rw [setpart_activity (fun i => (pd.link i).Head = (pd.flow k).Source), list_range_sum] at h0
    exact h0
  have htotal : ∑ j in Finset.range pd.nLinks,
      ((if (pd.link j).Head = s then sol j else 0) + ∑ v in W, c v j) = 1 := by
    rw [Finset.sum_add_distrib, hsrc, Finset.sum_comm, Finset.sum_eq_zero hrow, add_zero]
  have hterm : ∀ j ∈ Finset.range pd.nLinks,
      (if (pd.link j).Head = s then sol j else 0) + ∑ v in W, c v j ≤ 0 := by
    intro j hj
    have hjn : j < pd.nLinks := Finset.mem_range.1 hj
    rcases hbin j with hx | hx
    · have : ∀ v ∈ W, c v j = 0 := by
        intro v _
        simp only [c, hx, neg_zero, ite_self]
      rw [Finset.sum_eq_zero this, hx]
      simp
    · have hne := hloop j hjn hx
      have htn := hnodes j hjn
      have hts := hback j hjn hx
      have hc : ∀ v ∈ W, c v j
          = (if (pd.link j).Head = v then (1 : ℚ) else 0)
            - (if (pd.link j).Tail = v then (1 : ℚ) else 0) := by
        intro v _
        simp only [c, hx]
        by_cases hh : (pd.link j).Head = v
        · have : (pd.link j).Tail ≠ v := fun h => hne (hh.trans h.symm)
          simp [hh, this]
        · by_cases ht : (pd.link j).Tail = v <;> simp [hh, ht]
      rw [Finset.sum_congr rfl hc, Finset.sum_sub_distrib, Finset.sum_ite_eq,
        Finset.sum_ite_eq, hx]
      by_cases hh : (pd.link j).Head = s
      · have htW : (pd.link j).Tail ∈ W :=
          (hW _).2 ⟨htn, hclosed j hjn hx (hh ▸ hVs), hts⟩
        have hsW : s ∉ W := fun h => ((hW _).1 h).2.2 rfl
        simp [hh, htW, hsW]
      · by_cases hhW : (pd.link j).Head ∈ W
        · have htW : (pd.link j).Tail ∈ W :=
            (hW _).2 ⟨htn, hclosed j hjn hx ((hW _).1 hhW).2.1, hts⟩
          simp [hh, htW, hhW]
        · by_cases htW : (pd.link j).Tail ∈ W <;> simp [hh, htW, hhW]
  have := Finset.sum_nonpos hterm
  rw [htotal] at this
  norm_num at this

/-- Claim C23 (amended). For a flow whose source differs from its destination, a 0/1
assignment satisfying every constraint `initPricing` builds for the flow selects a directed
path from the source to the destination (links followed from `Head` to `Tail`), provided
every link ends at a node of the topology, no selected link has `Head = Tail` and no
selected link enters the source. -/
theorem selected_links_contain_path (pd : SCIP_PricerData) (conshdlr : List ZerooneCons)
    (k : Nat) (alpha beta : Nat → ℚ) (sol : Sol)
    (hsd : (pd.flow k).Source ≠ (pd.flow k).Destination)
    (hbin : ∀ i, sol i = 0 ∨ sol i = 1)
    (hfeas : ∀ c ∈ (initPricing pd conshdlr k alpha beta).conss, c.holds sol = true)
    (hnodes : ∀ i, i < pd.nLinks → (pd.link i).Tail < pd.nNodes)
    (hloop : ∀ i, i < pd.nLinks → sol i = 1 → (pd.link i).Head ≠ (pd.link i).Tail)
    (hback : ∀ i, i < pd.nLinks → sol i = 1 → (pd.link i).Tail ≠ (pd.flow k).Source) :
    ∃ path, path ≠ [] ∧
      isPath pd sol (pd.flow k).Source path (pd.flow k).Destination = true := by
  have h1 : (subCons1 pd k).holds sol = true := hfeas _ (by simp [initPricing])
  have h2 : ∀ c ∈ subCons2 pd k, c.holds sol = true := fun c hc =>
    hfeas c (by simp [initPricing, hc])
  obtain ⟨path, hp⟩ := no_path_contradiction pd k sol hbin h1 h2 hnodes hloop hback
  refine ⟨path, ?_, hp⟩
  rintro rfl
  simp only [isPath, decide_eq_true_eq] at hp
  exact hsd hp

theorem twoCycles_stay (path : List Nat) (a : Nat) (ha : a = 0 ∨ a = 2) :
    isPath twoCyclesNet solTwoCycles a path 1 = false := by
  induction path generalizing a with
  | nil => rcases ha with rfl | rfl <;> simp [isPath]
  | cons i rest ih =>
    rw [isPath]
    by_cases hi : i < 5
    · interval_cases i
      · rw [show (twoCyclesNet.link 0).Tail = 2 from rfl, ih 2 (Or.inr rfl)]
        simp
      · rw [show (twoCyclesNet.link 1).Tail = 0 from rfl, ih 0 (Or.inl rfl)]
        simp
      · have : ¬ (twoCyclesNet.link 2).Head = a := by
          rw [show (twoCyclesNet.link 2).Head = 1 from rfl]
          rcases ha with rfl | rfl <;> decide
        simp [this]
      · have : ¬ (twoCyclesNet.link 3).Head = a := by
          rw [show (twoCyclesNet.link 3).Head = 3 from rfl]
          rcases ha with rfl | rfl <;> decide
        simp [this]
      · have : ¬ solTwoCycles 4 = 1 := by simp [solTwoCycles]
        simp [this]
    · have : ¬ i < twoCyclesNet.nLinks := hi
      simp [this]

/-- Claim C23, counterexample. In `twoCyclesNet` the source 0 differs from the destination
1, every link joins two different nodes of the topology, and the 0/1 assignment
`solTwoCycles` satisfies every constraint `initPricing` builds for flow 0; it selects the
cycles `0 -> 2 -> 0` and `1 -> 3 -> 1`, and no list of selected links is a directed path
from node 0 to node 1. -/
theorem two_cycles_without_path :
    (twoCyclesNet.flow 0).Source = 0 ∧ (twoCyclesNet.flow 0).Destination = 1 ∧
    (∀ idx, solTwoCycles idx = 0 ∨ solTwoCycles idx = 1) ∧
    (initPricing twoCyclesNet [] 0 (fun _ => 0) (fun _ => 0)).conss.all
      (fun c => c.holds solTwoCycles) = true ∧
    (∀ i, i < twoCyclesNet.nLinks → (twoCyclesNet.link i).Tail < twoCyclesNet.nNodes ∧
      (twoCyclesNet.link i).Head ≠ (twoCyclesNet.link i).Tail) ∧
    (List.range twoCyclesNet.nLinks).filter (fun i => decide (solTwoCycles i = 1))
      = [0, 1, 2, 3] ∧
    ∀ path, isPath twoCyclesNet solTwoCycles 0 path 1 = false := by
  refine ⟨rfl, rfl, ?_, by decide!, by decide, by decide!, fun path =>
    twoCycles_stay path 0 (Or.inl rfl)⟩
  intro idx
  unfold solTwoCycles
  split_ifs <;> simp

theorem selected_links_contain_path_witness :
    (relayNet.flow 0).Source ≠ (relayNet.flow 0).Destination ∧
    (∀ c ∈ (initPricing relayNet [] 0 (fun _ => 0) (fun _ => 0)).conss,
      c.holds solRelay = true) ∧
    (∃ path, path ≠ [] ∧
      isPath relayNet solRelay (relayNet.flow 0).Source path
        (relayNet.flow 0).Destination = true) :=
  have hfeas : ∀ c ∈ (initPricing relayNet [] 0 (fun _ => 0) (fun _ => 0)).conss,
      c.holds solRelay = true :=
    List.all_eq_true.1 (by decide!)
  ⟨by decide, hfeas,
    selected_links_contain_path relayNet [] 0 (fun _ => 0) (fun _ => 0) solRelay (by decide)
      (fun i => by unfold solRelay; split_ifs <;> simp)
      hfeas
      (by decide)
      (fun i hi _ => by
        have hi' : i < 3 := hi
        interval_cases i <;> decide)
      (fun i hi hx => by
        have hi' : i < 3 := hi
        interval_cases i
        · decide
        · decide
        · exact absurd hx (by simp [solRelay]))⟩

/-! ## The candidate search under the feasibility tolerance -/

/-- Claim C30 fails on the code: the loop over `j` goes on while `fracOriVal` is
`SCIPisFeasEQ` to one or to zero, a test with the tolerance `feastol`, and `fracOriVal` is
carried from one `j` to the next; when no `j` of any flow fails the test, the loops end and
the label is reached with `index1` and `index2` unassigned. Two inputs meet every
hypothesis of the claim (weights of flow 0 within the bounds and summing to one, two
LP-fractional columns, an incidence entry set in every column, different incidence vectors
of the two fractional columns) and end so.
In `nearOnePool` with `nearOneWeights` each fractional weight is more than the tolerance
away from 0 and from 1; the running values of `fracOriVal` are `1`, `1 + 2/1999999` and
`1 + 2/1999999`, and the relative difference of the latter to one is `2/2000001 < 1e-6`.
In `solvingPool` with `splitWeights` the two fractional weights are `1 - 5e-7` and `5e-7`;
the running values are `1 - 5e-7`, `1` and `1`, each within `1e-6` of one. -/
theorem search_falls_through :
    (lpAdmissible 1 nearOnePool nearOneWeights ∧
      (SCIPgetLPBranchCands nearOnePool nearOneWeights).map
          (fun c => (c.1.transformed, c.1.flow, c.1.seq, c.1.vardata.oriFlowVars, c.2))
        = [(false, 0, 1, [1, 0, 0], 1999997 / 1999999),
           (false, 0, 2, [1, 1, 0], 2 / 1999999)] ∧
      (∀ c ∈ SCIPgetLPBranchCands nearOnePool nearOneWeights,
        defaultFeastol < c.2 ∧ c.2 < 1 - defaultFeastol) ∧
      (∀ c ∈ nearOnePool, ∃ j, j < 3 ∧ c.bit j = 1) ∧
      (nearOnePool.zip nearOneWeights).Pairwise (fun p q =>
        p.1.flow = q.1.flow → ¬ p.2.isInt = true → ¬ q.2.isInt = true →
          p.1.vardata.oriFlowVars ≠ q.1.vardata.oriFlowVars) ∧
      (List.range 3).map (aggUsage (SCIPgetLPBranchCands nearOnePool nearOneWeights) 0)
        = [1, 2 / 1999999, 0] ∧
      SCIPisFeasEQ defaultFeastol 1 1 = true ∧
      SCIPisFeasEQ defaultFeastol (1 + 2 / 1999999) 1 = true ∧
      SCIPrelDiff (1 + 2 / 1999999) 1 = 2 / 2000001 ∧
      (∀ tempI, branchExeclpOriginalvar defaultFeastol tempI 1 3 0 0
        (SCIPgetLPBranchCands nearOnePool nearOneWeights) = none)) ∧
    (lpAdmissible 1 solvingPool splitWeights ∧
      (SCIPgetLPBranchCands solvingPool splitWeights).map
          (fun c => (c.1.transformed, c.1.flow, c.1.seq, c.1.vardata.oriFlowVars, c.2))
        = [(false, 0, 1, [1, 0, 0], 1999999 / 2000000),
           (false, 0, 2, [0, 1, 0], 1 / 2000000)] ∧
      (∀ c ∈ solvingPool, ∃ j, j < 3 ∧ c.bit j = 1) ∧
      (solvingPool.zip splitWeights).Pairwise (fun p q =>
        p.1.flow = q.1.flow → ¬ p.2.isInt = true → ¬ q.2.isInt = true →
          p.1.vardata.oriFlowVars ≠ q.1.vardata.oriFlowVars) ∧
      (List.range 3).map (aggUsage (SCIPgetLPBranchCands solvingPool splitWeights) 0)
        = [1999999 / 2000000, 1 / 2000000, 0] ∧
      SCIPisFeasEQ defaultFeastol (1999999 / 2000000) 1 = true ∧
      (∀ tempI, branchExeclpOriginalvar defaultFeastol tempI 1 3 0 0
        (SCIPgetLPBranchCands solvingPool splitWeights) = none)) := by
  refine ⟨⟨by decide!, by decide!, by decide!, by decide!, by decide!, by decide!, by decide!,
    by decide!, by decide!, fun tempI => ?_⟩,
    ⟨by decide!, by decide!, by decide!, by decide!, by decide!, by decide!, fun tempI => ?_⟩⟩
  · rw [branch_named defaultFeastol tempI 0 1 3 0 0 _ (by decide!)]
    decide!
  · rw [branch_named defaultFeastol tempI 0 1 3 0 0 _ (by decide!)]
    decide!

end OAAR
